import Mathlib

/-!
Rollout controller: a shallow embedding.

The Go sources are embedded as pure Lean functions.  Calls to the cluster API are
made explicit: a client is a record of response functions, and every reconciler
returns the list of calls it issued together with its result.
-/

namespace Rollouts

/-! ## Shared object model -/

/-- Go `map[string]string` as an association list.  A nil map and an empty map are
both `[]`; the list order stands for the (unspecified) iteration order. -/
abbrev StrMap := List (String × String)

/-- Map lookup `m[k]` with the comma-ok result. -/
def StrMap.get? (m : StrMap) (k : String) : Option String :=
  (m.find? (fun p => p.1 == k)).map (fun p => p.2)

/-- Go `delete(m, k)`. -/
def StrMap.delete (m : StrMap) (k : String) : StrMap :=
  m.filter (fun p => p.1 != k)

/-- Go `m[k] = v`. -/
def StrMap.set (m : StrMap) (k v : String) : StrMap :=
  StrMap.delete m k ++ [(k, v)]

/-- Two maps hold the same entries (the order of the association list is immaterial). -/
def StrMap.same (a b : StrMap) : Bool :=
  (a ++ b).all (fun p => StrMap.get? a p.1 == StrMap.get? b p.1)

/-- Go `strings.HasPrefix`. -/
def hasPrefix (s p : String) : Bool :=
  p.data.isPrefixOf s.data

/-- Wrap an integer into the range of a Go `int32`. -/
def wrapInt32 (x : Int) : Int :=
  (x + 2147483648) % 4294967296 - 2147483648

/-- Decimal rendering of an integer, as `fmt.Sprintf("%d", n)`. -/
def fmtInt (n : Int) : String :=
  if n < 0 then "-" ++ toString n.natAbs else toString n.toNat

/-- A `metav1.OwnerReference`. -/
structure OwnerReference where
  APIVersion : String
  Kind : String
  Name : String
  UID : String
  Controller : Option Bool
  BlockOwnerDeletion : Option Bool
deriving DecidableEq, Repr

/-- The part of `metav1.ObjectMeta` the controller reads or writes. -/
structure ObjectMeta where
  Name : String
  Namespace : String
  SelfLink : String
  UID : String
  ResourceVersion : String
  Labels : StrMap
  Annotations : StrMap
  OwnerReferences : List OwnerReference
deriving DecidableEq, Repr

/-- A `schema.GroupVersionKind`, with the group and version already joined. -/
structure GroupVersionKind where
  GroupVersion : String
  Kind : String
deriving DecidableEq, Repr

/-- The owner reference built by `metav1.NewControllerRef(owner, gvk)`. -/
def NewControllerRef (ownerName ownerUID : String) (gvk : GroupVersionKind) : OwnerReference :=
  { APIVersion := gvk.GroupVersion, Kind := gvk.Kind, Name := ownerName, UID := ownerUID,
    Controller := some true, BlockOwnerDeletion := some true }

/-- The reference returned by `metav1.GetControllerOf`: the first owner marked as controller. -/
def GetControllerOf (m : ObjectMeta) : Option OwnerReference :=
  m.OwnerReferences.find? (fun o => o.Controller == some true)

/-- An error returned by the cluster API. -/
structure ApiError where
  msg : String
  isNotFound : Bool
deriving DecidableEq, Repr

/-- How a Go call ended: it returned (with an error or nil), or the goroutine panicked. -/
inductive Outcome where
  | returned (err : Option String)
  | panicked
deriving DecidableEq, Repr

end Rollouts

/-! ## Nginx traffic router (`rollout/trafficrouting/nginx/nginx.go`) -/

namespace Rollouts.Nginx

/-- An `extensionsv1beta1.IngressBackend`. -/
structure IngressBackend where
  ServiceName : String
  ServicePort : String
deriving DecidableEq, Repr

/-- An `extensionsv1beta1.HTTPIngressPath`. -/
structure HTTPIngressPath where
  Path : String
  Backend : IngressBackend
deriving DecidableEq, Repr

/-- An `extensionsv1beta1.IngressRule`; `HTTP` is a pointer, nil when the rule has no paths. -/
structure IngressRule where
  Host : String
  HTTP : Option (List HTTPIngressPath)
deriving DecidableEq, Repr

/-- An `extensionsv1beta1.IngressTLS`. -/
structure IngressTLS where
  Hosts : List String
  SecretName : String
deriving DecidableEq, Repr

/-- An `extensionsv1beta1.IngressSpec`. -/
structure IngressSpec where
  Backend : Option IngressBackend
  TLS : List IngressTLS
  Rules : List IngressRule
deriving DecidableEq, Repr

/-- An `extensionsv1beta1.Ingress`. -/
structure Ingress where
  Meta : ObjectMeta
  Spec : IngressSpec
deriving DecidableEq, Repr

/-- The reconciler configuration.  A reconciler is built only for a rollout whose canary
strategy configures nginx routing, so the pointers `Spec.Strategy.Canary`,
`.TrafficRouting` and `.Nginx` are non-nil and their fields are listed directly.
`AnnotationPrefix` is the value of `defaults.GetCanaryIngressAnnotationPrefixOrDefault`. -/
structure ReconcilerConfig where
  RolloutName : String
  RolloutNamespace : String
  RolloutUID : String
  StableService : String
  CanaryService : String
  StableIngress : String
  AdditionalIngressAnnotations : StrMap
  AnnotationPrefix : String
  ControllerKind : GroupVersionKind
deriving DecidableEq, Repr

/-- The inner loop of `canaryIngress` over the paths of one rule: every backend naming the
stable service is pointed at the canary service; the flag tells whether one was found. -/
def retargetPaths (stableServiceName canaryServiceName : String) :
    List HTTPIngressPath → List HTTPIngressPath × Bool
  | [] => ([], false)
  | p :: ps =>
    let rest := retargetPaths stableServiceName canaryServiceName ps
    if p.Backend.ServiceName == stableServiceName then
      ({ p with Backend := { p.Backend with ServiceName := canaryServiceName } } :: rest.1, true)
    else
      (p :: rest.1, rest.2)

/-- The outer loop of `canaryIngress` over the rules.  `none` is the nil-pointer panic of
`Rules[ir].HTTP.Paths` on a rule whose `HTTP` is nil. -/
def retargetRules (stableServiceName canaryServiceName : String) :
    List IngressRule → Option (List IngressRule × Bool)
  | [] => some ([], false)
  | r :: rs =>
    match r.HTTP with
    | none => none
    | some paths =>
      let here := retargetPaths stableServiceName canaryServiceName paths
      match retargetRules stableServiceName canaryServiceName rs with
      | none => none
      | some rest => some ({ r with HTTP := some here.1 } :: rest.1, here.2 || rest.2)

/-- The loop of `canaryIngress` over the additional annotations: a key that lacks the
annotation prefix gets it prepended. -/
def addAnnotations (annotationPrefix : String) (annotations : StrMap) : StrMap → StrMap
  | [] => annotations
  | (k, v) :: rest =>
    let k2 := if hasPrefix k annotationPrefix then k else annotationPrefix ++ "/" ++ k
    addAnnotations annotationPrefix (StrMap.set annotations k2 v) rest

/-- What `canaryIngress` yields: the desired ingress, an error, or a panic. -/
inductive Desired where
  | ok (ingress : Ingress)
  | error (msg : String)
  | panicked
deriving DecidableEq, Repr

/-- Go `Reconciler.canaryIngress`: the desired state of the canary ingress. -/
def canaryIngress (cfg : ReconcilerConfig) (stableIngress : Ingress) (desiredWeight : Int) :
    Desired :=
  let stableIngressName := cfg.StableIngress
  let canaryIngressName := stableIngressName ++ "-canary"
  let stableServiceName := cfg.StableService
  let canaryServiceName := cfg.CanaryService
  let annotationPrefix := cfg.AnnotationPrefix
  let labels := StrMap.delete stableIngress.Meta.Labels "app.kubernetes.io/instance"
  let annotations :=
    StrMap.delete stableIngress.Meta.Annotations "kubectl.kubernetes.io/last-applied-configuration"
  let owners := [NewControllerRef cfg.RolloutName cfg.RolloutUID cfg.ControllerKind]
  match retargetRules stableServiceName canaryServiceName stableIngress.Spec.Rules with
  | none => Desired.panicked
  | some (rules, hasStableServiceBackendRule) =>
    if !hasStableServiceBackendRule then
      Desired.error ("ingress `" ++ stableIngressName ++ "` has no rules using service "
        ++ stableServiceName ++ " backend")
    else
      let annotations := addAnnotations annotationPrefix annotations cfg.AdditionalIngressAnnotations
      let annotations := StrMap.set annotations (annotationPrefix ++ "/canary") "true"
      let annotations :=
        StrMap.set annotations (annotationPrefix ++ "/canary-weight") (fmtInt desiredWeight)
      Desired.ok
        { Meta := { stableIngress.Meta with
                      Name := canaryIngressName, Labels := labels, Annotations := annotations,
                      OwnerReferences := owners },
          Spec := { stableIngress.Spec with Rules := rules } }

/-- What `Ingresses(ns).Get(name)` answered. -/
inductive GetResult where
  | found (ingress : Ingress)
  | notFound (err : String)
  | failed (err : String)
deriving DecidableEq, Repr

/-- Modelled from the spec: the patch of `diff.CreateTwoWayMergePatch` (package `utils/diff`
is not among the sources), restricted to what `compareCanaryIngresses` compares.  The spec
says the router patches "only if the Spec/Annotations/Labels diff from desired".  A map entry
is listed with its new value, or with `none` when the key is removed; the spec is listed as a
whole when it differs. -/
structure IngressPatch where
  Annotations : List (String × Option String)
  Labels : List (String × Option String)
  Spec : Option IngressSpec
deriving DecidableEq, Repr

/-- Modelled from the spec: the merge patch between two string maps (see `IngressPatch`).
An entry of the association list that an earlier entry with the same key shadows is not
part of the map and is skipped. -/
def mapPatch (current desired : StrMap) : List (String × Option String) :=
  (desired.filter (fun p =>
      StrMap.get? desired p.1 == some p.2 && StrMap.get? current p.1 != some p.2)).map
      (fun p => (p.1, some p.2))
    ++ (current.filter (fun p => (StrMap.get? desired p.1).isNone)).map (fun p => (p.1, none))

/-- Go `compareCanaryIngresses`: the patch from the current canary ingress to the desired one and
whether it is non-empty; only Spec, Annotations and Labels are compared. -/
def compareCanaryIngresses (current desired : Ingress) : Except String (IngressPatch × Bool) :=
  let patch : IngressPatch :=
    { Annotations := mapPatch current.Meta.Annotations desired.Meta.Annotations,
      Labels := mapPatch current.Meta.Labels desired.Meta.Labels,
      Spec := if current.Spec = desired.Spec then none else some desired.Spec }
  Except.ok (patch, decide (patch ≠ { Annotations := [], Labels := [], Spec := none }))

/-- The cluster as seen through `r.cfg.Client.ExtensionsV1beta1().Ingresses(namespace)`;
`create` and `patch` give the error of the call, `none` for nil. -/
structure Client where
  get : String → GetResult
  create : Ingress → Option String
  patch : String → IngressPatch → Option String

/-- A call on the cluster API or on the event recorder. -/
inductive Call where
  | get (name : String)
  | create (ingress : Ingress)
  | patch (name : String) (patch : IngressPatch)
  | event (eventtype reason message : String)
deriving DecidableEq, Repr

/-- The calls issued by one `Reconcile`, in order, and how it ended. -/
structure Run where
  calls : List Call
  outcome : Outcome
deriving DecidableEq, Repr

/-- Go `Reconciler.Reconcile`: bring the canary ingress to the desired weight. -/
def Reconcile (cfg : ReconcilerConfig) (client : Client) (desiredWeight : Int) : Run :=
  let stableIngressName := cfg.StableIngress
  let canaryIngressName := stableIngressName ++ "-canary"
  let calls := [Call.get stableIngressName]
  match client.get stableIngressName with
  | GetResult.notFound err => ⟨calls, Outcome.returned (some err)⟩
  | GetResult.failed err => ⟨calls, Outcome.returned (some err)⟩
  | GetResult.found stableIngress =>
    let calls := calls ++ [Call.get canaryIngressName]
    match client.get canaryIngressName with
    | GetResult.failed err =>
      ⟨calls, Outcome.returned
        (some ("Error retrieving canary ingress `" ++ canaryIngressName ++ "`: " ++ err))⟩
    | canaryGet =>
      match canaryIngress cfg stableIngress desiredWeight with
      | Desired.panicked => ⟨calls, Outcome.panicked⟩
      | Desired.error msg => ⟨calls, Outcome.returned (some msg)⟩
      | Desired.ok desiredCanaryIngress =>
        match canaryGet with
        | GetResult.found canaryIngress =>
          -- Canary Ingress already exists, apply a patch if needed
          if canaryIngress.Meta.OwnerReferences.length == 0 then
            ⟨calls, Outcome.returned (some ("canary ingress " ++ canaryIngressName
              ++ " already exists with no OwnerReferences"))⟩
          else
            match desiredCanaryIngress.Meta.OwnerReferences with
            | [] => ⟨calls, Outcome.panicked⟩
            | owner :: _ =>
              if owner.UID != cfg.RolloutUID then
                ⟨calls, Outcome.returned (some ("canary ingress " ++ canaryIngressName
                  ++ " already exists with different owner"))⟩
              else
                match compareCanaryIngresses canaryIngress desiredCanaryIngress with
                | Except.error err =>
                  ⟨calls, Outcome.returned (some ("Error constructing canary ingress patch for `"
                    ++ canaryIngressName ++ "`: " ++ err))⟩
                | Except.ok (patch, modified) =>
                  if !modified then
                    ⟨calls, Outcome.returned none⟩
                  else
                    let msg := "Updating Ingress `" ++ canaryIngressName
                      ++ "` to desiredWeight \x27" ++ fmtInt desiredWeight ++ "\x27"
                    let calls := calls ++
                      [Call.event "Normal" "PatchingCanaryIngress" msg,
                       Call.patch canaryIngressName patch]
                    match client.patch canaryIngressName patch with
                    | some err =>
                      ⟨calls, Outcome.returned (some ("Cannot patch canary ingress `"
                        ++ canaryIngressName ++ "`: " ++ err))⟩
                    | none => ⟨calls, Outcome.returned none⟩
        | _ =>
          let msg := "Creating canary Ingress `" ++ canaryIngressName
            ++ "` at desiredWeight \x27" ++ fmtInt desiredWeight ++ "\x27"
          -- Remove fields which must never be sent on a Create()
          let created : Ingress :=
            { desiredCanaryIngress with
                Meta := { desiredCanaryIngress.Meta with
                            ResourceVersion := "", SelfLink := "", UID := "" } }
          let calls := calls ++
            [Call.event "Normal" "CreatingCanaryIngress" msg, Call.create created]
          match client.create created with
          | some err =>
            ⟨calls, Outcome.returned (some ("Cannot create or update canary ingress `"
              ++ canaryIngressName ++ "`: " ++ err))⟩
          | none => ⟨calls, Outcome.returned none⟩

end Rollouts.Nginx

/-! ## SMI traffic router (`rollout/trafficrouting/smi/smi.go`) -/

namespace Rollouts.SMI

/-- A `resource.Quantity`: the number `value * 10 ^ scale`. -/
structure Quantity where
  value : Int
  scale : Int
deriving DecidableEq, Repr

/-- Go conversion `string(n)` of an integer: the text holding the single code point `n`,
or U+FFFD when `n` is no valid code point.  It is not the decimal rendering of `n`. -/
def runeString (n : Int) : String :=
  if 0 ≤ n ∧ n.toNat.isValidChar then String.singleton (Char.ofNat n.toNat) else "\uFFFD"

/-- A `smiv1alpha1.TrafficSplitBackend`. -/
structure TrafficSplitBackend where
  Service : String
  Weight : Option Quantity
deriving DecidableEq, Repr

/-- A `smiv1alpha1.TrafficSplitSpec`. -/
structure TrafficSplitSpec where
  Service : String
  Backends : List TrafficSplitBackend
deriving DecidableEq, Repr

/-- A `smiv1alpha1.TrafficSplit`. -/
structure TrafficSplit where
  Meta : ObjectMeta
  Spec : TrafficSplitSpec
deriving DecidableEq, Repr

/-- The reconciler configuration.  A reconciler is built only for a rollout whose canary
strategy configures SMI routing, so the pointers `Spec.Strategy.Canary`, `.TrafficRouting`
and `.SMI` are non-nil and their fields are listed directly. -/
structure ReconcilerConfig where
  RolloutName : String
  RolloutNamespace : String
  RolloutUID : String
  StableService : String
  CanaryService : String
  RootService : String
  TrafficSplitName : String
  ControllerKind : GroupVersionKind
deriving DecidableEq, Repr

/-- The cluster as seen through `r.cfg.Client.SplitV1alpha1().TrafficSplits(namespace)`.
`get` gives both results of the call, `patch` and `create` the error, `none` for nil. -/
structure Client where
  get : String → Option TrafficSplit × Option ApiError
  patch : String → TrafficSplitSpec → Option String
  create : TrafficSplit → Option String

/-- A call on the cluster API or on the event recorder.  The patch is written as the spec
it installs. -/
inductive Call where
  | get (name : String)
  | patch (name : String) (spec : TrafficSplitSpec)
  | create (split : TrafficSplit)
  | event (eventtype reason message : String)
deriving DecidableEq, Repr

/-- The calls issued by one `Reconcile`, in order, and how it ended. -/
structure Run where
  calls : List Call
  outcome : Outcome
deriving DecidableEq, Repr

/-- The root service of the split: the configured one, or the stable service when unset. -/
def rootService (cfg : ReconcilerConfig) : String :=
  if cfg.RootService == "" then cfg.StableService else cfg.RootService

/-- The `trafficSplitSpec` that `Reconcile` builds.  `mustParse` is `resource.MustParse`
(library code), `none` standing for its panic; the text handed to it is `string(desiredWeight)`
and `string(100-desiredWeight)`, computed on `int32`. -/
def trafficSplitSpec (mustParse : String → Option Quantity) (cfg : ReconcilerConfig)
    (desiredWeight : Int) : Option TrafficSplitSpec :=
  match mustParse (runeString desiredWeight) with
  | none => none
  | some canaryWeight =>
    match mustParse (runeString (wrapInt32 (100 - desiredWeight))) with
    | none => none
    | some stableWeight =>
      some { Service := rootService cfg,
             Backends := [ { Service := cfg.CanaryService, Weight := some canaryWeight },
                           { Service := cfg.StableService, Weight := some stableWeight } ] }

/-- Go `Reconciler.Reconcile`: bring the traffic split to the desired weight. -/
def Reconcile (mustParse : String → Option Quantity) (cfg : ReconcilerConfig) (client : Client)
    (desiredWeight : Int) : Run :=
  let trafficSplitName := cfg.TrafficSplitName
  match trafficSplitSpec mustParse cfg desiredWeight with
  | none => ⟨[], Outcome.panicked⟩
  | some spec =>
    let (trafficSplit, err) := client.get trafficSplitName
    let calls := [Call.get trafficSplitName] ++
      (match err with
       | some e =>
         if e.isNotFound then
           [Call.event "Normal" "TrafficSplitNotFound"
             ("Traffic Split `" ++ trafficSplitName ++ "` not found")]
         else []
       | none => [])
    match trafficSplit with
    | some existing =>
      -- Patch existing Traffic Split
      match GetControllerOf existing.Meta with
      | none => ⟨calls, Outcome.returned (err.map (fun e => e.msg))⟩
      | some controllerRef =>
        if cfg.RolloutUID != controllerRef.UID then
          ⟨calls, Outcome.returned (err.map (fun e => e.msg))⟩
        else if existing.Spec = spec then
          ⟨calls, Outcome.returned none⟩
        else
          ⟨calls ++ [Call.patch trafficSplitName spec],
            Outcome.returned (client.patch trafficSplitName spec)⟩
    | none =>
      -- Create new Traffic Split
      let created : TrafficSplit :=
        { Meta := { Name := trafficSplitName, Namespace := "", SelfLink := "", UID := "",
                    ResourceVersion := "", Labels := [], Annotations := [],
                    OwnerReferences :=
                      [NewControllerRef cfg.RolloutName cfg.RolloutUID cfg.ControllerKind] },
          Spec := spec }
      ⟨calls ++ [Call.create created], Outcome.returned (client.create created)⟩

end Rollouts.SMI

/-! ## The Rollout resource (`pkg/apis/rollouts/v1alpha1/types.go`) -/

namespace Rollouts

/-- A point in time (`metav1.Time`), in nanoseconds. -/
abbrev Time := Int

/-- One second as a `time.Duration`, which counts nanoseconds. -/
def Second : Int := 1000000000

/-- An `intstr.IntOrString`. -/
inductive IntOrString where
  | int (IntVal : Int)
  | str (StrVal : String)
deriving DecidableEq, Repr

/-- A `RolloutPause`. -/
structure RolloutPause where
  Duration : Option Int := none
deriving DecidableEq, Repr

/-- The experiment of a canary step.  Its declaration is outside the files at hand and the
validation only tests whether the step has one. -/
structure RolloutExperimentStep where
  Templates : List String := []
deriving DecidableEq, Repr

/-- The analysis of a canary step.  Its declaration is outside the files at hand and the
validation only tests whether the step has one. -/
structure RolloutAnalysisStep where
  TemplateName : String := ""
deriving DecidableEq, Repr

/-- A `CanaryStep`; every field is a pointer. -/
structure CanaryStep where
  SetWeight : Option Int := none
  Pause : Option RolloutPause := none
  Experiment : Option RolloutExperimentStep := none
  Analysis : Option RolloutAnalysisStep := none
deriving DecidableEq, Repr

/-- An `AntiAffinity`: two pointers, the preferred rule carrying its weight. -/
structure AntiAffinity where
  PreferredDuringSchedulingIgnoredDuringExecution : Option Int := none
  RequiredDuringSchedulingIgnoredDuringExecution : Option Unit := none
deriving DecidableEq, Repr

/-- A `CanaryStrategy`. -/
structure CanaryStrategy where
  CanaryService : String := ""
  StableService : String := ""
  Steps : List CanaryStep := []
  MaxUnavailable : Option IntOrString := none
  MaxSurge : Option IntOrString := none
  AntiAffinity : Option AntiAffinity := none
deriving DecidableEq, Repr

/-- A `BlueGreenStrategy`. -/
structure BlueGreenStrategy where
  ActiveService : String := ""
  PreviewService : String := ""
  PreviewReplicaCount : Option Int := none
  AutoPromotionEnabled : Option Bool := none
  AutoPromotionSeconds : Option Int := none
  ScaleDownDelaySeconds : Option Int := none
  ScaleDownDelayRevisionLimit : Option Int := none
  AntiAffinity : Option AntiAffinity := none
deriving DecidableEq, Repr

/-- A `RolloutStrategy`: two pointers (`BlueGreen` and `Canary`; the older files spell them
`BlueGreenStrategy` and `CanaryStrategy`). -/
structure RolloutStrategy where
  BlueGreen : Option BlueGreenStrategy := none
  Canary : Option CanaryStrategy := none
deriving DecidableEq, Repr

/-- A `metav1.LabelSelector`, match expressions kept as text. -/
structure LabelSelector where
  MatchLabels : StrMap := []
  MatchExpressions : List String := []
deriving DecidableEq, Repr

/-- A `RolloutSpec`; of the pod template only the labels are kept. -/
structure RolloutSpec where
  Replicas : Option Int := none
  Selector : Option LabelSelector := none
  TemplateLabels : StrMap := []
  MinReadySeconds : Int := 0
  Strategy : RolloutStrategy := {}
  RevisionHistoryLimit : Option Int := none
  Paused : Bool := false
  ProgressDeadlineSeconds : Option Int := none
  RestartAt : Option Time := none
deriving DecidableEq, Repr

/-- A `RolloutCondition` (`CondType` is the Go field `Type`). -/
structure RolloutCondition where
  CondType : String
  Status : String
  LastUpdateTime : Time
  LastTransitionTime : Time
  Reason : String
  Message : String
deriving DecidableEq, Repr

/-- A `BlueGreenStatus`. -/
structure BlueGreenStatus where
  PreviewSelector : String := ""
  ActiveSelector : String := ""
  PreviousActiveSelector : String := ""
  ScaleDownDelayStartTime : Option Time := none
  ScaleUpPreviewCheckPoint : Bool := false
deriving DecidableEq, Repr

/-- A `CanaryStatus`. -/
structure CanaryStatus where
  StableRS : String := ""
deriving DecidableEq, Repr

/-- A `RolloutStatus`. -/
structure RolloutStatus where
  CurrentPodHash : String := ""
  CurrentStepHash : String := ""
  Replicas : Int := 0
  UpdatedReplicas : Int := 0
  ReadyReplicas : Int := 0
  AvailableReplicas : Int := 0
  CurrentStepIndex : Option Int := none
  PauseStartTime : Option Time := none
  CollisionCount : Option Int := none
  ObservedGeneration : String := ""
  Conditions : List RolloutCondition := []
  Canary : CanaryStatus := {}
  BlueGreen : BlueGreenStatus := {}
  HPAReplicas : Int := 0
  Selector : String := ""
deriving DecidableEq, Repr

/-- A `Rollout`. -/
structure Rollout where
  Name : String := ""
  Namespace : String := ""
  UID : String := ""
  Spec : RolloutSpec := {}
  Status : RolloutStatus := {}
deriving DecidableEq, Repr

/-- The constants of package `utils/defaults`, whose file is not among the sources; the
tests of the package name them and build the surge and unavailable defaults with
`intstr.FromInt`. -/
structure Defaults where
  DefaultReplicas : Int
  DefaultRevisionHistoryLimit : Int
  DefaultMaxSurge : Int
  DefaultMaxUnavailable : Int
  DefaultProgressDeadlineSeconds : Int
  DefaultScaleDownDelaySeconds : Int
deriving DecidableEq, Repr

/-- Modelled from the spec: `defaults.GetRolloutReplicasOrDefault`, the replicas of the
rollout, or `DefaultReplicas` when unset (`defaults_test.go`). -/
def GetRolloutReplicasOrDefault (D : Defaults) (rollout : Rollout) : Int :=
  match rollout.Spec.Replicas with
  | some n => n
  | none => D.DefaultReplicas

/-- Modelled from the spec: `defaults.GetRevisionHistoryLimitOrDefault`, the limit of the
rollout, or `DefaultRevisionHistoryLimit` when unset (`defaults_test.go`). -/
def GetRevisionHistoryLimitOrDefault (D : Defaults) (rollout : Rollout) : Int :=
  match rollout.Spec.RevisionHistoryLimit with
  | some n => n
  | none => D.DefaultRevisionHistoryLimit

/-- Modelled from the spec: `defaults.GetMaxSurgeOrDefault`, the surge of the canary
strategy, or `intstr.FromInt(DefaultMaxSurge)` when the strategy or the field is unset
(`defaults_test.go`). -/
def GetMaxSurgeOrDefault (D : Defaults) (rollout : Rollout) : IntOrString :=
  match rollout.Spec.Strategy.Canary with
  | some canary =>
    match canary.MaxSurge with
    | some v => v
    | none => IntOrString.int D.DefaultMaxSurge
  | none => IntOrString.int D.DefaultMaxSurge

/-- Modelled from the spec: `defaults.GetMaxUnavailableOrDefault`, the unavailable bound of
the canary strategy, or `intstr.FromInt(DefaultMaxUnavailable)` when the strategy or the
field is unset (`defaults_test.go`). -/
def GetMaxUnavailableOrDefault (D : Defaults) (rollout : Rollout) : IntOrString :=
  match rollout.Spec.Strategy.Canary with
  | some canary =>
    match canary.MaxUnavailable with
    | some v => v
    | none => IntOrString.int D.DefaultMaxUnavailable
  | none => IntOrString.int D.DefaultMaxUnavailable

/-- Modelled from the spec: `defaults.GetScaleDownDelaySecondsOrDefault`, the delay of the
blue-green strategy, or the default (30 by the spec) when the strategy or the field is
unset. -/
def GetScaleDownDelaySecondsOrDefault (D : Defaults) (rollout : Rollout) : Int :=
  match rollout.Spec.Strategy.BlueGreen with
  | some blueGreen =>
    match blueGreen.ScaleDownDelaySeconds with
    | some v => v
    | none => D.DefaultScaleDownDelaySeconds
  | none => D.DefaultScaleDownDelaySeconds

end Rollouts

/-! ## Spec validation (`pkg/apis/rollouts/validation/validation.go`) -/

namespace Rollouts.Validation

/-- InvalidSetWeightMessage indicates the setweight value needs to be between 0 and 100 -/
def InvalidSetWeightMessage : String := "SetWeight needs to be between 0 and 100"

/-- InvalidDurationMessage indicates the Duration value needs to be greater than 0 -/
def InvalidDurationMessage : String := "Duration needs to be greater than 0"

/-- InvalidMaxSurgeMaxUnavailable indicates both maxSurge and MaxUnavailable can not be set to zero -/
def InvalidMaxSurgeMaxUnavailable : String := "MaxSurge and MaxUnavailable both can not be zero"

/-- InvalidStepMessage indicates that a step must have either setWeight or pause set -/
def InvalidStepMessage : String :=
  "Step must have one of the following set: experiment, setWeight, or pause"

/-- InvalidStrategyMessage indiciates that multiple strategies can not be listed -/
def InvalidStrategyMessage : String := "Multiple Strategies can not be listed"

/-- DuplicatedServicesMessage the message to indicate that the rollout uses the same service
for the active and preview services -/
def DuplicatedServicesMessage : String :=
  "This rollout uses the same service for the active and preview services, but two different services are required."

/-- ScaleDownLimitLargerThanRevisionLimit the message to indicate that the revision history
limit of the rollout can not be smaller than its scale down limit -/
def ScaleDownLimitLargerThanRevisionLimit : String :=
  "This rollout's revision history limit can not be smaller than the rollout's scale down limit"

/-- The text of `fmt.Sprintf(MissingFieldMessage, field)`. -/
def MissingFieldMessage (field : String) : String :=
  "Rollout has missing field '" ++ field ++ "'"

/-- One element of a `field.Path`. -/
inductive PathElem where
  | name (n : String)
  | index (i : Nat)
  | key (k : String)
deriving DecidableEq, Repr

/-- A `field.Path`, root first. -/
abbrev Path := List PathElem

/-- Go `field.NewPath(name)`. -/
def NewPath (n : String) : Path := [PathElem.name n]

/-- Go `(*field.Path).Child(name)`. -/
def Path.Child (p : Path) (n : String) : Path := p ++ [PathElem.name n]

/-- Go `(*field.Path).Index(i)`. -/
def Path.Index (p : Path) (i : Nat) : Path := p ++ [PathElem.index i]

/-- A `field.ErrorType`. -/
inductive ErrorType where
  | NotFound
  | Required
  | Duplicate
  | Invalid
  | NotSupported
  | Forbidden
  | TooLong
  | TooMany
  | InternalError
deriving DecidableEq, Repr

/-- The `BadValue interface{}` of a `field.Error`, for the values this package reports. -/
inductive BadValue where
  | text (s : String)
  | int (v : Int)
  | int32Ptr (v : Option Int)
  | intOrStringPtr (v : Option IntOrString)
  | strategy (s : RolloutStrategy)
  | step (s : CanaryStep)
  | antiAffinityPtr (a : Option AntiAffinity)
  | selectorPtr (s : Option LabelSelector)
deriving DecidableEq, Repr

/-- A `field.Error` (`ErrType` is the Go field `Type`). -/
structure FieldError where
  ErrType : ErrorType
  Field : Path
  BadValue : BadValue
  Detail : String
deriving DecidableEq, Repr

/-- Go `field.Invalid(path, value, detail)`. -/
def Invalid (p : Path) (value : BadValue) (detail : String) : FieldError :=
  { ErrType := ErrorType.Invalid, Field := p, BadValue := value, Detail := detail }

/-- Go `field.Duplicate(path, value)`. -/
def Duplicate (p : Path) (value : BadValue) : FieldError :=
  { ErrType := ErrorType.Duplicate, Field := p, BadValue := value, Detail := "" }

/-- Go `field.Required(path, detail)`. -/
def Required (p : Path) (detail : String) : FieldError :=
  { ErrType := ErrorType.Required, Field := p, BadValue := BadValue.text "", Detail := detail }

/-- The number written by a list of decimal digits. -/
def digitsValue (ds : List Char) : Nat :=
  ds.foldl (fun acc c => acc * 10 + (c.toNat - 48)) 0

/-- Go `validationutil.IsValidPercent(s)` reports no error: `s` matches `^[0-9]+%$`. -/
def IsValidPercent (s : String) : Bool :=
  match s.data.reverse with
  | '%' :: rest => !rest.isEmpty && rest.all Char.isDigit
  | _ => false

/-- The largest Go `int` (64 bits). -/
def maxInt : Int := 9223372036854775807

/-- The value of `i, _ := strconv.Atoi(s)`: an optional sign and decimal digits; 0 on a
syntax error, the nearest bound when out of range. -/
def atoi (s : String) : Int :=
  let signed : Bool × List Char :=
    match s.data with
    | '-' :: r => (true, r)
    | '+' :: r => (false, r)
    | cs => (false, cs)
  if signed.2.isEmpty || !signed.2.all Char.isDigit then 0
  else
    let v : Int := digitsValue signed.2
    if signed.1 then (if maxInt + 1 < v then -(maxInt + 1) else -v)
    else (if maxInt < v then maxInt else v)

/-- Go `intstr.IntOrString.IntValue()`. -/
def IntValue (v : IntOrString) : Int :=
  match v with
  | IntOrString.str s => atoi s
  | IntOrString.int n => n

/-- Go `getPercentValue`. -/
def getPercentValue (intOrStringValue : IntOrString) : Int × Bool :=
  match intOrStringValue with
  | IntOrString.int _ => (0, false)
  | IntOrString.str StrVal =>
    if !IsValidPercent StrVal then (0, false)
    else (atoi (String.mk StrVal.data.dropLast), true)

/-- Go `getIntOrPercentValue`. -/
def getIntOrPercentValue (intOrStringValue : IntOrString) : Int :=
  let (value, isPercent) := getPercentValue intOrStringValue
  if isPercent then value else IntValue intOrStringValue

/-- Go `invalidMaxSurgeMaxUnavailable`. -/
def invalidMaxSurgeMaxUnavailable (D : Defaults) (rollout : Rollout) : Bool :=
  let maxSurge := GetMaxSurgeOrDefault D rollout
  let maxUnavailable := GetMaxUnavailableOrDefault D rollout
  let maxSurgeValue := getIntOrPercentValue maxSurge
  let maxUnavailableValue := getIntOrPercentValue maxUnavailable
  maxSurgeValue == 0 && maxUnavailableValue == 0

/-- The loop of `hasMultipleStepsType` over `oneOf`; `seen` is its flag
`hasMultipleStepTypes`. -/
def scanOneOf : List Bool → Bool → Bool
  | [], _ => false
  | b :: rest, seen =>
    if b then (if seen then true else scanOneOf rest true) else scanOneOf rest seen

/-- Go `hasMultipleStepsType`: `oneOf` starts as `make([]bool, 3)` and gets one flag per field
appended. -/
def hasMultipleStepsType (s : CanaryStep) : Bool :=
  let oneOf := List.replicate 3 false
    ++ [s.SetWeight.isSome, s.Pause.isSome, s.Experiment.isSome, s.Analysis.isSome]
  scanOneOf oneOf false

/-- Go `invalidAntiAffinity`. -/
def invalidAntiAffinity (affinity : AntiAffinity) (strategy : String) : String :=
  if affinity.PreferredDuringSchedulingIgnoredDuringExecution.isNone
      && affinity.RequiredDuringSchedulingIgnoredDuringExecution.isNone then
    MissingFieldMessage (".Spec.Strategy." ++ strategy
      ++ ".AntiAffinity.PreferredDuringSchedulingIgnoredDuringExecution or .Spec.Strategy."
      ++ strategy ++ ".AntiAffinity.RequiredDuringSchedulingIgnoredDuringExecution")
  else if affinity.PreferredDuringSchedulingIgnoredDuringExecution.isSome
      && affinity.RequiredDuringSchedulingIgnoredDuringExecution.isSome then
    "Multiple Anti-Affinity Strategies can not be listed"
  else ""

/-- The anti-affinity check shared by both strategy validators. -/
def validateAntiAffinity (fldPath : Path) (affinity : Option AntiAffinity) (strategy : String) :
    List FieldError :=
  match affinity with
  | none => []
  | some a =>
    let message := invalidAntiAffinity a strategy
    if message != "" then
      [Invalid (Path.Child fldPath "antiAffinity") (BadValue.antiAffinityPtr affinity) message]
    else []

/-- Modelled from the spec: `RolloutPause.DurationSeconds`, declared outside the files at
hand: the duration of the pause in seconds, 0 when the duration is omitted. -/
def DurationSeconds (p : RolloutPause) : Int :=
  match p.Duration with
  | some d => d
  | none => 0

/-- The body of the loop of `ValidateRolloutStrategyCanary` for one step. -/
def validateStep (stepFldPath : Path) (step : CanaryStep) : List FieldError :=
  (if hasMultipleStepsType step then
      [Invalid stepFldPath (BadValue.step step) InvalidStepMessage] else [])
  ++ (if step.Experiment.isNone && step.Pause.isNone && step.SetWeight.isNone
        && step.Analysis.isNone then
      [Invalid stepFldPath (BadValue.step step) InvalidStepMessage] else [])
  ++ (match step.SetWeight with
      | some w =>
        if w < 0 || w > 100 then
          [Invalid (Path.Child stepFldPath "setWeight") (BadValue.int32Ptr step.SetWeight)
            InvalidSetWeightMessage]
        else []
      | none => [])
  ++ (match step.Pause with
      | some pause =>
        if DurationSeconds pause < 0 then
          [Invalid (Path.Child (Path.Child stepFldPath "pause") "duration")
            (BadValue.int32Ptr pause.Duration) InvalidDurationMessage]
        else []
      | none => [])

/-- The loop of `ValidateRolloutStrategyCanary` over `canary.Steps`, from index `i` on. -/
def validateSteps (fldPath : Path) (i : Nat) : List CanaryStep → List FieldError
  | [] => []
  | step :: rest =>
    validateStep (Path.Index (Path.Child fldPath "steps") i) step
      ++ validateSteps fldPath (i + 1) rest

/-- Go `ValidateRolloutStrategyCanary`; `none` is the nil-pointer panic on a rollout without a
canary strategy. -/
def ValidateRolloutStrategyCanary (D : Defaults) (rollout : Rollout) (fldPath : Path) :
    Option (List FieldError) :=
  match rollout.Spec.Strategy.Canary with
  | none => none
  | some canary =>
    some (
      (if invalidMaxSurgeMaxUnavailable D rollout then
          [Invalid (Path.Child fldPath "maxSurge") (BadValue.intOrStringPtr canary.MaxSurge)
            InvalidMaxSurgeMaxUnavailable]
        else [])
      ++ validateSteps fldPath 0 canary.Steps
      ++ validateAntiAffinity fldPath canary.AntiAffinity "Canary")

/-- Go `ValidateRolloutStrategyBlueGreen`; `none` is the nil-pointer panic on a rollout without
a blue-green strategy. -/
def ValidateRolloutStrategyBlueGreen (D : Defaults) (rollout : Rollout) (fldPath : Path) :
    Option (List FieldError) :=
  match rollout.Spec.Strategy.BlueGreen with
  | none => none
  | some blueGreen =>
    some (
      (if blueGreen.ActiveService == blueGreen.PreviewService then
          [Duplicate (Path.Child fldPath "previewService")
            (BadValue.text DuplicatedServicesMessage)]
        else [])
      ++ (let revisionHistoryLimit := GetRevisionHistoryLimitOrDefault D rollout
          match blueGreen.ScaleDownDelayRevisionLimit with
          | some limit =>
            if revisionHistoryLimit < limit then
              [Invalid (Path.Child fldPath "scaleDownDelayRevisionLimit")
                (BadValue.int32Ptr blueGreen.ScaleDownDelayRevisionLimit)
                ScaleDownLimitLargerThanRevisionLimit]
            else []
          | none => [])
      ++ validateAntiAffinity fldPath blueGreen.AntiAffinity "BlueGreen")

/-- Go `ValidateRolloutStrategy`; `none` would be a panic of the validator it calls. -/
def ValidateRolloutStrategy (D : Defaults) (rollout : Rollout) (fldPath : Path) :
    Option (List FieldError) :=
  let strategy := rollout.Spec.Strategy
  if strategy.BlueGreen.isNone && strategy.Canary.isNone then
    some [Invalid (Path.Child fldPath "strategy") (BadValue.strategy rollout.Spec.Strategy)
      (MissingFieldMessage ".Spec.Strategy.Canary or .Spec.Strategy.BlueGreen")]
  else if strategy.BlueGreen.isSome && strategy.Canary.isSome then
    some [Invalid (Path.Child fldPath "strategy") (BadValue.strategy rollout.Spec.Strategy)
      InvalidStrategyMessage]
  else if strategy.BlueGreen.isSome then
    ValidateRolloutStrategyBlueGreen D rollout fldPath
  else if strategy.Canary.isSome then
    ValidateRolloutStrategyCanary D rollout fldPath
  else some []

end Rollouts.Validation

/-! ## Blue-green reconciler (`controller/bluegreen.go`) -/

namespace Rollouts

/-- DefaultRolloutUniqueLabelKey is the key of the selector that carries the pod-template
hash. -/
def DefaultRolloutUniqueLabelKey : String := "rollouts-pod-template-hash"

/-- A `corev1.Service`: its name and `Spec.Selector`. -/
structure Service where
  Name : String := ""
  Selector : StrMap := []
deriving DecidableEq, Repr

/-- An `appsv1.ReplicaSet`.  `Replicas` is `Spec.Replicas`: the API server defaults the
field, so on an object read from the cluster the pointer is non-nil and the count is not
negative. -/
structure ReplicaSet where
  Name : String := ""
  Namespace : String := ""
  Labels : StrMap := []
  CreationTimestamp : Time := 0
  Selector : Option LabelSelector := none
  Replicas : Nat := 0
  StatusReplicas : Nat := 0
  AvailableReplicas : Nat := 0
deriving DecidableEq, Repr

/-- Modelled from the spec: `replicasetutil.GetReplicaCountForReplicaSets` (package
`utils/replicaset` is not among the sources), the sum of the spec replicas of the sets. -/
def GetReplicaCountForReplicaSets (replicaSets : List ReplicaSet) : Nat :=
  (replicaSets.map (fun rs => rs.Replicas)).sum

/-- Go `controller.FilterActiveReplicaSets`: the sets with spec replicas above zero. -/
def FilterActiveReplicaSets (replicaSets : List ReplicaSet) : List ReplicaSet :=
  replicaSets.filter (fun rs => decide (0 < rs.Replicas))

end Rollouts

namespace Rollouts.BlueGreen

/-- Modelled from the spec: `Controller.getRolloutSelectorLabel` (declared in another file
of the package): the pod-hash entry of the selector of the service, with the comma-ok flag;
a nil service has none. -/
def getRolloutSelectorLabel (svc : Option Service) : String × Bool :=
  match svc with
  | none => ("", false)
  | some s =>
    match StrMap.get? s.Selector DefaultRolloutUniqueLabelKey with
    | some v => (v, true)
    | none => ("", false)

/-- The methods of the controller and the helpers of other packages that `bluegreen.go`
calls and that are not among the sources, each as the function of its arguments; `Except`
carries the returned error.  `calculateRolloutConditions` gives the conditions it installs
in the status (by the spec the conditions are the part of the status it computes). -/
structure Deps where
  getPreviewAndActiveServices : Rollout → Except String (Option Service × Service)
  getAllReplicaSetsAndSyncRevision :
    Rollout → List ReplicaSet → Except String (ReplicaSet × List ReplicaSet)
  reconcileNewReplicaSet : List ReplicaSet → ReplicaSet → Rollout → Except String Bool
  IsSaturated : Rollout → ReplicaSet → Bool
  reconcilePreviewService :
    Rollout → ReplicaSet → Option Service → Service → Except String Bool
  reconcileActiveService :
    Rollout → ReplicaSet → Option Service → Service → Except String Bool
  reconcileOldReplicaSets :
    List ReplicaSet → List ReplicaSet → ReplicaSet → Rollout → Except String Bool
  RolloutComplete : Rollout → RolloutStatus → Bool
  cleanupRollouts : List ReplicaSet → Rollout → Option String
  calculateBaseStatus : List ReplicaSet → ReplicaSet → Rollout → RolloutStatus
  GetActiveReplicaSet : List ReplicaSet → String → Option ReplicaSet
  GetActualReplicaCountForReplicaSets : List ReplicaSet → Int
  FormatLabelSelector : Option LabelSelector → String
  calculatePauseStatus : Rollout → Bool → Option Time × Bool
  calculateRolloutConditions :
    Rollout → RolloutStatus → List ReplicaSet → ReplicaSet → List RolloutCondition
  persistRolloutStatus : Rollout → RolloutStatus → Bool → Option String

/-- A step of `rolloutBlueGreen` that acts on the cluster or on the work queue. -/
inductive Step where
  | reconcileNewReplicaSet
  | reconcilePreviewService
  | reconcileBlueGreenPause
  | reconcileActiveService
  | reconcileScaleDownDelay
  | checkEnqueueRolloutDuringWait (startTime : Time) (seconds : Int)
  | reconcileOldReplicaSets
  | cleanupRollouts
  | syncRolloutStatusBlueGreen (addPause : Bool)
deriving DecidableEq, Repr

/-- The steps taken by one `rolloutBlueGreen`, in order, and how it ended. -/
structure Run where
  steps : List Step
  outcome : Outcome
deriving DecidableEq, Repr

/-- Go `Controller.reconcileScaleDownDelay` at clock reading `now`: whether the delay is not
finished, and the call of `checkEnqueueRolloutDuringWait` it made, if any. -/
def reconcileScaleDownDelay (D : Defaults) (now : Time) (rollout : Rollout)
    (oldRSs : List ReplicaSet) : Bool × List Step :=
  let oldPodsCount := GetReplicaCountForReplicaSets oldRSs
  if oldPodsCount == 0 then
    -- Already scaled down old RS
    (false, [])
  else
    match rollout.Status.BlueGreen.ScaleDownDelayStartTime with
    | none => (true, [])
    | some startTime =>
      let scaleDownDelaySeconds := GetScaleDownDelaySecondsOrDefault D rollout
      let pauseUntil := startTime + scaleDownDelaySeconds * Second
      (decide (now < pauseUntil),
        [Step.checkEnqueueRolloutDuringWait startTime scaleDownDelaySeconds])

/-- Go `Controller.reconcileBlueGreenPause`; `none` is the nil-pointer panic on a rollout
without a blue-green strategy. -/
def reconcileBlueGreenPause (activeSvc : Service) (rollout : Rollout) : Option Bool :=
  match rollout.Spec.Strategy.BlueGreen with
  | none => none
  | some blueGreen =>
    if blueGreen.PreviewService == "" then some false
    else if (StrMap.get? activeSvc.Selector DefaultRolloutUniqueLabelKey).isNone then some false
    else some (rollout.Spec.Paused && rollout.Status.PauseStartTime.isSome)

/-- What `syncRolloutStatusBlueGreen` hands to `persistRolloutStatus`, and the error that
comes back. -/
structure SyncResult where
  newStatus : RolloutStatus
  paused : Bool
  err : Option String
deriving DecidableEq, Repr

/-- Go `Controller.syncRolloutStatusBlueGreen` at clock reading `now`. -/
def syncRolloutStatusBlueGreen (c : Deps) (now : Time) (oldRSs : List ReplicaSet)
    (newRS : ReplicaSet) (previewSvc activeSvc : Option Service) (r : Rollout)
    (addPause : Bool) : SyncResult :=
  let allRSs := oldRSs ++ [newRS]
  let newStatus := c.calculateBaseStatus allRSs newRS r
  let previewSelector := (getRolloutSelectorLabel previewSvc).1
  let activeSelector := (getRolloutSelectorLabel activeSvc).1
  let newStatus :=
    { newStatus with
        BlueGreen := { newStatus.BlueGreen with
                         PreviewSelector := previewSelector, ActiveSelector := activeSelector } }
  let newStatus :=
    match c.GetActiveReplicaSet allRSs newStatus.BlueGreen.ActiveSelector with
    | some activeRS =>
      { newStatus with
          HPAReplicas := c.GetActualReplicaCountForReplicaSets [activeRS],
          Selector := c.FormatLabelSelector activeRS.Selector }
    | none =>
      { newStatus with
          HPAReplicas := c.GetActualReplicaCountForReplicaSets allRSs,
          Selector := c.FormatLabelSelector r.Spec.Selector }
  let startTime := r.Status.BlueGreen.ScaleDownDelayStartTime
  let startTime :=
    if activeSelector == newStatus.CurrentPodHash && startTime.isNone then some now
    else startTime
  let startTime :=
    if activeSelector != newStatus.CurrentPodHash
        || GetReplicaCountForReplicaSets oldRSs == 0 then none
    else startTime
  let newStatus :=
    { newStatus with
        BlueGreen := { newStatus.BlueGreen with ScaleDownDelayStartTime := startTime } }
  let pause := c.calculatePauseStatus r addPause
  let newStatus := { newStatus with PauseStartTime := pause.1 }
  let newStatus :=
    { newStatus with Conditions := c.calculateRolloutConditions r newStatus allRSs newRS }
  { newStatus := newStatus, paused := pause.2,
    err := c.persistRolloutStatus r newStatus pause.2 }

/-- The exit `return c.syncRolloutStatusBlueGreen(...)` of `rolloutBlueGreen`. -/
def finish (c : Deps) (now : Time) (oldRSs : List ReplicaSet) (newRS : ReplicaSet)
    (previewSvc : Option Service) (activeSvc : Service) (r : Rollout) (steps : List Step)
    (addPause : Bool) : Run :=
  { steps := steps ++ [Step.syncRolloutStatusBlueGreen addPause],
    outcome := Outcome.returned
      (syncRolloutStatusBlueGreen c now oldRSs newRS previewSvc (some activeSvc) r addPause).err }

/-- The second half of `rolloutBlueGreen`, from the pause gate on; `steps` are the steps
taken before it. -/
def rolloutBlueGreenFromPause (c : Deps) (D : Defaults) (now : Time) (r : Rollout)
    (newRS : ReplicaSet) (oldRSs : List ReplicaSet) (previewSvc : Option Service)
    (activeSvc : Service) (steps : List Step) : Run :=
  let allRSs := oldRSs ++ [newRS]
  let steps := steps ++ [Step.reconcileBlueGreenPause]
  match reconcileBlueGreenPause activeSvc r with
  | none => ⟨steps, Outcome.panicked⟩
  | some pauseBeforeSwitchActive =>
    if pauseBeforeSwitchActive then
      finish c now oldRSs newRS previewSvc activeSvc r steps true
    else if !c.IsSaturated r newRS then
      finish c now oldRSs newRS previewSvc activeSvc r steps false
    else
      let steps := steps ++ [Step.reconcileActiveService]
      match c.reconcileActiveService r newRS previewSvc activeSvc with
      | Except.error err => ⟨steps, Outcome.returned (some err)⟩
      | Except.ok switchActiveSvc =>
        if switchActiveSvc then
          finish c now oldRSs newRS previewSvc activeSvc r steps false
        else
          let delay := reconcileScaleDownDelay D now r oldRSs
          let steps := steps ++ [Step.reconcileScaleDownDelay] ++ delay.2
          if delay.1 then
            finish c now oldRSs newRS previewSvc activeSvc r steps false
          else
            let steps := steps ++ [Step.reconcileOldReplicaSets]
            match c.reconcileOldReplicaSets allRSs (FilterActiveReplicaSets oldRSs) newRS r with
            | Except.error err => ⟨steps, Outcome.returned (some err)⟩
            | Except.ok scaledDown =>
              if scaledDown then
                finish c now oldRSs newRS previewSvc activeSvc r steps false
              else if c.RolloutComplete r r.Status then
                let steps := steps ++ [Step.cleanupRollouts]
                match c.cleanupRollouts oldRSs r with
                | some err => ⟨steps, Outcome.returned (some err)⟩
                | none => finish c now oldRSs newRS previewSvc activeSvc r steps false
              else
                finish c now oldRSs newRS previewSvc activeSvc r steps false

/-- Go `Controller.rolloutBlueGreen` at clock reading `now`. -/
def rolloutBlueGreen (c : Deps) (D : Defaults) (now : Time) (r : Rollout)
    (rsList : List ReplicaSet) : Run :=
  match c.getPreviewAndActiveServices r with
  | Except.error err => ⟨[], Outcome.returned (some err)⟩
  | Except.ok (previewSvc, activeSvc) =>
    match c.getAllReplicaSetsAndSyncRevision r rsList with
    | Except.error err => ⟨[], Outcome.returned (some err)⟩
    | Except.ok (newRS, oldRSs) =>
      let allRSs := oldRSs ++ [newRS]
      -- Scale up, if we can.
      let steps := [Step.reconcileNewReplicaSet]
      match c.reconcileNewReplicaSet allRSs newRS r with
      | Except.error err => ⟨steps, Outcome.returned (some err)⟩
      | Except.ok scaledUp =>
        if scaledUp then
          finish c now oldRSs newRS previewSvc activeSvc r steps false
        else
          match previewSvc with
          | some _ =>
            if !c.IsSaturated r newRS then
              finish c now oldRSs newRS previewSvc activeSvc r steps false
            else
              let steps := steps ++ [Step.reconcilePreviewService]
              match c.reconcilePreviewService r newRS previewSvc activeSvc with
              | Except.error err => ⟨steps, Outcome.returned (some err)⟩
              | Except.ok switchPreviewSvc =>
                if switchPreviewSvc then
                  finish c now oldRSs newRS previewSvc activeSvc r steps true
                else
                  rolloutBlueGreenFromPause c D now r newRS oldRSs previewSvc activeSvc steps
          | none =>
            rolloutBlueGreenFromPause c D now r newRS oldRSs previewSvc activeSvc steps

end Rollouts.BlueGreen

/-! ## Validation of the whole spec (`ValidateRolloutSpec`) -/

namespace Rollouts

/-- Modelled from the spec: `defaults.GetProgressDeadlineSecondsOrDefault`, the deadline of
the rollout, or `DefaultProgressDeadlineSeconds` when unset. -/
def GetProgressDeadlineSecondsOrDefault (D : Defaults) (rollout : Rollout) : Int :=
  match rollout.Spec.ProgressDeadlineSeconds with
  | some n => n
  | none => D.DefaultProgressDeadlineSeconds

end Rollouts

namespace Rollouts.Validation

/-- The text of `apimachineryvalidation.IsNegativeErrorMsg`. -/
def IsNegativeErrorMsg : String := "must be greater than or equal to 0"

/-- Go `field.InternalError(path, err)`. -/
def InternalError (p : Path) (err : String) : FieldError :=
  { ErrType := ErrorType.InternalError, Field := p, BadValue := BadValue.text "", Detail := err }

/-- Go `apivalidation.ValidateNonnegativeField(value, path)`. -/
def ValidateNonnegativeField (value : Int) (fldPath : Path) : List FieldError :=
  if value < 0 then [Invalid fldPath (BadValue.int value) IsNegativeErrorMsg] else []

/-- A `labels.Selector`, as far as `LabelSelectorAsSelector` tells them apart. -/
inductive Selector where
  | nothing
  | everything
  | requirements (s : LabelSelector)
deriving DecidableEq, Repr

/-- The validators and codecs of the Kubernetes libraries that `ValidateRolloutSpec` calls.
A validator reports its errors at or below the path it is given, so its errors are listed
with their path relative to that path.  `requirementsError` is the error of building the
requirements of a non-empty selector, the two codec fields are the errors of the JSON round
trip of the pod template; `none` is nil. -/
structure Lib where
  ValidateLabelSelector : LabelSelector → List FieldError
  requirementsError : LabelSelector → Option String
  marshalTemplateError : RolloutSpec → Option String
  unmarshalTemplateError : RolloutSpec → Option String
  ValidatePodTemplateSpecForReplicaSet : StrMap → Selector → Int → List FieldError

/-- The errors of a library validator, placed below the path it was given. -/
def under (p : Path) (errs : List FieldError) : List FieldError :=
  errs.map (fun e => { e with Field := p ++ e.Field })

/-- Go `metav1.LabelSelectorAsSelector`: a nil selector selects nothing, an empty one
everything, and both convert without error. -/
def LabelSelectorAsSelector (L : Lib) (ps : Option LabelSelector) : Except String Selector :=
  match ps with
  | none => Except.ok Selector.nothing
  | some sel =>
    if sel.MatchLabels.length + sel.MatchExpressions.length == 0 then
      Except.ok Selector.everything
    else
      match L.requirementsError sel with
      | some err => Except.error err
      | none => Except.ok (Selector.requirements sel)

/-- The part of `ValidateRolloutSpec` on `spec.replicas`. -/
def validateReplicas (spec : RolloutSpec) (fldPath : Path) : List FieldError :=
  match spec.Replicas with
  | none => [Required (Path.Child fldPath "replicas") (MissingFieldMessage ".Spec.Replicas")]
  | some n => ValidateNonnegativeField n (Path.Child fldPath "replicas")

/-- The part of `ValidateRolloutSpec` on the presence and the content of `spec.selector`. -/
def validateSelector (L : Lib) (spec : RolloutSpec) (fldPath : Path) : List FieldError :=
  match spec.Selector with
  | none => [Required (Path.Child fldPath "selector") (MissingFieldMessage ".Spec.Selector")]
  | some sel =>
    under (Path.Child fldPath "selector") (L.ValidateLabelSelector sel)
      ++ (if sel.MatchLabels.length + sel.MatchExpressions.length == 0 then
            [Invalid (Path.Child fldPath "selector") (BadValue.selectorPtr spec.Selector)
              "empty selector is invalid for deployment"]
          else [])

/-- The part of `ValidateRolloutSpec` on the pod template; `none` is the nil-pointer panic of
`*spec.Replicas`, which is evaluated whenever the selector converts. -/
def validateTemplate (L : Lib) (spec : RolloutSpec) (fldPath : Path) :
    Option (List FieldError) :=
  match LabelSelectorAsSelector L spec.Selector with
  | Except.error _ =>
    some [Invalid (Path.Child fldPath "selector") (BadValue.selectorPtr spec.Selector)
      "invalid label selector"]
  | Except.ok selector =>
    let marshalErrs :=
      match L.marshalTemplateError spec with
      | some err => [InternalError (Path.Child fldPath "template") err]
      | none => []
    let unmarshalErrs :=
      match L.unmarshalTemplateError spec with
      | some err => [InternalError (Path.Child fldPath "template") err]
      | none => []
    match spec.Replicas with
    | none => none
    | some replicas =>
      some (marshalErrs ++ unmarshalErrs
        ++ under (Path.Child fldPath "template")
            (L.ValidatePodTemplateSpecForReplicaSet spec.TemplateLabels selector replicas))

/-- The part of `ValidateRolloutSpec` on minReadySeconds, revisionHistoryLimit and
progressDeadlineSeconds. -/
def validateDeadlines (D : Defaults) (rollout : Rollout) (fldPath : Path) : List FieldError :=
  let spec := rollout.Spec
  ValidateNonnegativeField spec.MinReadySeconds (Path.Child fldPath "minReadySeconds")
  ++ (match spec.RevisionHistoryLimit with
      | some limit => ValidateNonnegativeField limit (Path.Child fldPath "revisionHistoryLimit")
      | none => [])
  ++ (let progressDeadlineSeconds := GetProgressDeadlineSecondsOrDefault D rollout
      ValidateNonnegativeField progressDeadlineSeconds
          (Path.Child fldPath "progressDeadlineSeconds")
        ++ (if progressDeadlineSeconds ≤ spec.MinReadySeconds then
              [Invalid (Path.Child fldPath "progressDeadlineSeconds")
                (BadValue.int progressDeadlineSeconds) "must be greater than minReadySeconds"]
            else []))

/-- Go `ValidateRolloutSpec`; `none` is a panic. -/
def ValidateRolloutSpec (L : Lib) (D : Defaults) (rollout : Rollout) (fldPath : Path) :
    Option (List FieldError) :=
  let spec := rollout.Spec
  match validateTemplate L spec fldPath with
  | none => none
  | some templateErrs =>
    match ValidateRolloutStrategy D rollout (Path.Child fldPath "strategy") with
    | none => none
    | some strategyErrs =>
      some (validateReplicas spec fldPath ++ validateSelector L spec fldPath ++ templateErrs
        ++ validateDeadlines D rollout fldPath ++ strategyErrs)

/-- Go `ValidateRollout`. -/
def ValidateRollout (L : Lib) (D : Defaults) (rollout : Rollout) : Option (List FieldError) :=
  ValidateRolloutSpec L D rollout (NewPath "spec")

end Rollouts.Validation

/-! ## Pod restarts: the order of the ReplicaSets (`rollout/restart.go`) -/

namespace Rollouts.Restart

/-- SortReplicaSetsByPriority sorts the ReplicaSets with the following Priority:
1. Stable RS, 2. New RS, 3. Older ReplicaSets.  `newRS` and `stableRS` are names, empty when
there is no such ReplicaSet. -/
structure SortReplicaSetsByPriority where
  allRSs : List ReplicaSet
  newRS : String
  stableRS : String
deriving DecidableEq, Repr

/-- Go `SortReplicaSetsByPriority.Len`. -/
def SortReplicaSetsByPriority.Len (s : SortReplicaSetsByPriority) : Nat :=
  s.allRSs.length

/-- The body of `SortReplicaSetsByPriority.Less` on the two ReplicaSets it has fetched. -/
def lessRS (s : SortReplicaSetsByPriority) (iRS jRS : ReplicaSet) : Bool :=
  if iRS.Name == s.stableRS then true
  else if jRS.Name == s.stableRS then false
  else if iRS.Name == s.newRS then true
  else if jRS.Name == s.newRS then false
  else decide (iRS.CreationTimestamp < jRS.CreationTimestamp)

/-- Go `SortReplicaSetsByPriority.Less`; `none` is the panic of an index out of range. -/
def SortReplicaSetsByPriority.Less (s : SortReplicaSetsByPriority) (i j : Nat) : Option Bool :=
  match s.allRSs[i]?, s.allRSs[j]? with
  | some iRS, some jRS => some (lessRS s iRS jRS)
  | _, _ => none

/-- The place of a ReplicaSet in the stated order: 0 for the stable one, 1 for the new one,
2 for every other. -/
def priorityRank (s : SortReplicaSetsByPriority) (rs : ReplicaSet) : Nat :=
  if rs.Name == s.stableRS then 0 else if rs.Name == s.newRS then 1 else 2

/-- The stated order: stable first, new second, all others by strictly earlier creation
timestamp. -/
def ranksBefore (s : SortReplicaSetsByPriority) (a b : ReplicaSet) : Prop :=
  priorityRank s a < priorityRank s b ∨
    (priorityRank s a = 2 ∧ priorityRank s b = 2 ∧ a.CreationTimestamp < b.CreationTimestamp)

/-- What `sort.Sort` guarantees of its output: it is a rearrangement of the input in which
no element is `Less` than an element placed before it. -/
def IsSortOutput (s : SortReplicaSetsByPriority) (out : List ReplicaSet) : Prop :=
  out.Perm s.allRSs ∧ out.Pairwise (fun a b => lessRS s b a = false)

/-- Three ReplicaSets: an old one, the new one and the stable one, in that order. -/
def sampleSorter : SortReplicaSetsByPriority :=
  { allRSs := [ { Name := "web-old", CreationTimestamp := 5 },
                { Name := "web-new", CreationTimestamp := 30 },
                { Name := "web-stable", CreationTimestamp := 20 } ],
    newRS := "web-new", stableRS := "web-stable" }

end Rollouts.Restart

/-! ## Pod restarts: the sweep (`rollout/restart.go`) -/

namespace Rollouts.Restart

/-- Go `restartPodCheckTime`: 30 seconds, the delay after which a rollout whose sweep met a
pod with a deletion timestamp is enqueued again, so that the rollout is not stuck. -/
def restartPodCheckTime : Int := 30 * Second

/-- The largest `time.Duration`, an `int64` count of nanoseconds. -/
def maxDuration : Int := 9223372036854775807

/-- The smallest `time.Duration`. -/
def minDuration : Int := -9223372036854775808

/-- Go `Time.Sub`: the duration `t - u`, or the largest (smallest) duration when the
difference does not fit one. -/
def Sub (t u : Time) : Int :=
  let d := t - u
  if d > maxDuration then maxDuration
  else if d < minDuration then minDuration
  else d

/-- A `corev1.Pod`: its name, namespace and the two timestamps of its metadata. -/
structure Pod where
  Name : String := ""
  Namespace : String := ""
  CreationTimestamp : Time := 0
  DeletionTimestamp : Option Time := none
deriving DecidableEq, Repr

/-- The part of `kubernetes.Interface` that the restarter uses: `Pods(ns).List` with a label
selector and `Pods(ns).Delete` by name, each as the function of its arguments. -/
structure PodClient where
  list : String → String → Except String (List Pod)
  delete : String → String → Option String

/-- A `RolloutPodRestarter`; the callback `enqueueAfter` is recorded in the calls of a run. -/
structure RolloutPodRestarter where
  client : PodClient
  resyncPeriod : Int

/-- What a `rolloutContext` hands out (the interface is declared in another file of the
package): the rollout, the new and the stable ReplicaSet, if any, and all ReplicaSets. -/
structure rolloutContext where
  Rollout : Rollout
  NewRS : Option ReplicaSet := none
  StableRS : Option ReplicaSet := none
  AllRSs : List ReplicaSet := []
deriving DecidableEq, Repr

/-- What `restart.go` reads from outside the package: the clock `nowFn().UTC()`,
`replicaset.NeedsRestart`, `metav1.FormatLabelSelector`, and the order in which `sort.Sort`
leaves the ReplicaSets of a `SortReplicaSetsByPriority`. -/
structure Env where
  now : Time
  NeedsRestart : Rollout → Bool
  FormatLabelSelector : Option LabelSelector → String
  sortRSs : SortReplicaSetsByPriority → List ReplicaSet

/-- A call that leaves the restarter: `enqueueAfter` with its duration, the listing of the
pods of a namespace under a label selector, the deletion of a pod, and `SetRestartedAt` on
the context. -/
inductive Call where
  | enqueueAfter (duration : Int)
  | listPods (ns labelSelector : String)
  | deletePod (ns name : String)
  | SetRestartedAt
deriving DecidableEq, Repr

/-- The calls of one `Reconcile`, in order, and how it ended. -/
structure Run where
  calls : List Call
  outcome : Outcome
deriving DecidableEq, Repr

/-- Go `RolloutPodRestarter.checkEnqueueRollout`: enqueues a Rollout if the Rollout's
restartedAt is within the next resync.  The result is the calls it made. -/
def checkEnqueueRollout (p : RolloutPodRestarter) (E : Env) (roCtx : rolloutContext) :
    List Call :=
  let r := roCtx.Rollout
  let now := E.now
  match r.Spec.RestartAt with
  | none => []
  | some restartAt =>
    if now > restartAt then []
    else
      let nextResync := now + p.resyncPeriod
      -- Only enqueue if the Restart time is before the next sync period
      if nextResync > restartAt then
        let timeRemaining := Sub restartAt now
        [Call.enqueueAfter timeRemaining]
      else []

/-- Go `NewSortReplicaSetsByPriority`. -/
def NewSortReplicaSetsByPriority (roCtx : rolloutContext) : SortReplicaSetsByPriority :=
  let newRSName :=
    match roCtx.NewRS with
    | some newRS => newRS.Name
    | none => ""
  let stableRSName :=
    match roCtx.StableRS with
    | some stableRS => stableRS.Name
    | none => ""
  { allRSs := roCtx.AllRSs, newRS := newRSName, stableRS := stableRSName }

/-- The calls of `reconcilePodsInReplicaSet` and its two results; `none` is the nil-pointer
panic of `restartedAt.After` on a rollout without `spec.restartAt`. -/
structure PodsRun where
  calls : List Call
  result : Option (Bool × Option String)
deriving DecidableEq, Repr

/-- The second loop of `reconcilePodsInReplicaSet`: the first pod created before
`restartedAt` and without a deletion timestamp is deleted, and the error of the deletion is
returned. -/
def deleteFirstOld (p : RolloutPodRestarter) (restartedAt : Option Time) : List Pod → PodsRun
  | [] => ⟨[], some (false, none)⟩
  | pod :: rest =>
    match restartedAt with
    | none => ⟨[], none⟩
    | some t =>
      if decide (t > pod.CreationTimestamp) && pod.DeletionTimestamp.isNone then
        ⟨[Call.deletePod pod.Namespace pod.Name],
          some (true, p.client.delete pod.Namespace pod.Name)⟩
      else deleteFirstOld p restartedAt rest

/-- Go `RolloutPodRestarter.reconcilePodsInReplicaSet`. -/
def reconcilePodsInReplicaSet (p : RolloutPodRestarter) (E : Env) (roCtx : rolloutContext)
    (rs : ReplicaSet) : PodsRun :=
  let restartedAt := roCtx.Rollout.Spec.RestartAt
  let labelSelector := E.FormatLabelSelector rs.Selector
  match p.client.list rs.Namespace labelSelector with
  | Except.error err => ⟨[Call.listPods rs.Namespace labelSelector], some (false, some err)⟩
  | Except.ok pods =>
    if pods.any (fun pod => pod.DeletionTimestamp.isSome) then
      -- cannot reconcile any more pods as pod with deletionTimestamp exists
      ⟨[Call.listPods rs.Namespace labelSelector, Call.enqueueAfter restartPodCheckTime],
        some (true, none)⟩
    else
      let r := deleteFirstOld p restartedAt pods
      ⟨Call.listPods rs.Namespace labelSelector :: r.calls, r.result⟩

/-- The second loop of `Reconcile`, over the sorted ReplicaSets, and the call of
`SetRestartedAt` that follows it. -/
def reconcileReplicaSets (p : RolloutPodRestarter) (E : Env) (roCtx : rolloutContext) :
    List ReplicaSet → Run
  | [] => ⟨[Call.SetRestartedAt], Outcome.returned none⟩
  | rs :: rest =>
    let r := reconcilePodsInReplicaSet p E roCtx rs
    match r.result with
    | none => ⟨r.calls, Outcome.panicked⟩
    | some (_, some err) => ⟨r.calls, Outcome.returned (some err)⟩
    | some (true, none) => ⟨r.calls, Outcome.returned none⟩
    | some (false, none) =>
      let next := reconcileReplicaSets p E roCtx rest
      ⟨r.calls ++ next.calls, next.outcome⟩

/-- Go `RolloutPodRestarter.Reconcile`. -/
def Reconcile (p : RolloutPodRestarter) (E : Env) (roCtx : rolloutContext) : Run :=
  let rollout := roCtx.Rollout
  let calls := checkEnqueueRollout p E roCtx
  if !E.NeedsRestart rollout then ⟨calls, Outcome.returned none⟩
  else
    let s := NewSortReplicaSetsByPriority roCtx
    if s.allRSs.any (fun rs => rs.AvailableReplicas != rs.Replicas) then
      -- cannot restart pods as not all ReplicasSets are fully available
      ⟨calls, Outcome.returned none⟩
    else
      let sweep := reconcileReplicaSets p E roCtx (E.sortRSs s)
      ⟨calls ++ sweep.calls, sweep.outcome⟩

end Rollouts.Restart

/-! ## Blue-green scaling (`controller/bluegreen.go`) -/

namespace Rollouts

/-- Modelled from the spec: `replicasetutil.GetAvailableReplicaCountForReplicaSets` (package
`utils/replicaset` is not among the sources), the sum of the available replicas of the
sets. -/
def GetAvailableReplicaCountForReplicaSets (replicaSets : List ReplicaSet) : Nat :=
  (replicaSets.map (fun rs => rs.AvailableReplicas)).sum

end Rollouts

namespace Rollouts.BlueGreen

/-- The `Less` of `controller.ReplicaSetsByCreationTimestamp` (Kubernetes library): by
creation timestamp, and by name when the timestamps are equal. -/
def creationLess (a b : ReplicaSet) : Bool :=
  if a.CreationTimestamp == b.CreationTimestamp then decide (a.Name < b.Name)
  else decide (a.CreationTimestamp < b.CreationTimestamp)

/-- What `sort.Sort` guarantees of its output on `ReplicaSetsByCreationTimestamp`: it is a
rearrangement of the input in which no element is `Less` than an element placed before
it. -/
def IsSortedByCreationTimestamp (input out : List ReplicaSet) : Prop :=
  out.Perm input ∧ out.Pairwise (fun a b => creationLess b a = false)

/-- The controller method and the helpers of other packages that the scaling functions call
and that are not among the sources, each as the function of its arguments:
`scaleReplicaSetAndRecordEvent` gives the error it returns, `SortByCreationTimestamp` the
order in which `sort.Sort` leaves a `controller.ReplicaSetsByCreationTimestamp`. -/
structure ScaleDeps where
  scaleReplicaSetAndRecordEvent : ReplicaSet → Int → Rollout → Option String
  SortByCreationTimestamp : List ReplicaSet → List ReplicaSet
  FindActiveOrLatest : Option ReplicaSet → List ReplicaSet → Option ReplicaSet
  GetActiveReplicaSet : List (Option ReplicaSet) → String → Option ReplicaSet

/-- A call of `scaleReplicaSetAndRecordEvent`: the ReplicaSet and its new scale. -/
structure ScaleCall where
  rs : ReplicaSet
  newScale : Int
deriving DecidableEq, Repr

/-- The scale calls of one `scaleDownOldReplicaSetsForBlueGreen`, in order, and the two
values it returns. -/
structure ScaleDownRun where
  calls : List ScaleCall
  totalScaledDown : Int
  err : Option String
deriving DecidableEq, Repr

/-- The loop of `scaleDownOldReplicaSetsForBlueGreen` over the sorted old ReplicaSets, from
the running `int32` total `totalScaledDown`. -/
def scaleDownLoop (c : ScaleDeps) (rollout : Rollout) :
    List ReplicaSet → Int → ScaleDownRun
  | [], totalScaledDown => ⟨[], totalScaledDown, none⟩
  | targetRS :: rest, totalScaledDown =>
    if targetRS.Replicas == 0 then
      -- cannot scale down this ReplicaSet.
      scaleDownLoop c rollout rest totalScaledDown
    else
      let scaleDownCount : Int := targetRS.Replicas
      -- Scale down.
      let newReplicasCount : Int := 0
      match c.scaleReplicaSetAndRecordEvent targetRS newReplicasCount rollout with
      | some err => ⟨[⟨targetRS, newReplicasCount⟩], totalScaledDown, some err⟩
      | none =>
        let next := scaleDownLoop c rollout rest (wrapInt32 (totalScaledDown + scaleDownCount))
        ⟨⟨targetRS, newReplicasCount⟩ :: next.calls, next.totalScaledDown, next.err⟩

/-- Go `Controller.scaleDownOldReplicaSetsForBlueGreen`: scales down old replica sets when
rollout strategy is "Blue Green". -/
def scaleDownOldReplicaSetsForBlueGreen (c : ScaleDeps) (D : Defaults)
    (allRSs oldRSs : List ReplicaSet) (rollout : Rollout) : ScaleDownRun :=
  let availablePodCount : Int := GetAvailableReplicaCountForReplicaSets allRSs
  if availablePodCount ≤ GetRolloutReplicasOrDefault D rollout then
    -- Cannot scale down.
    ⟨[], 0, none⟩
  else
    scaleDownLoop c rollout (c.SortByCreationTimestamp oldRSs) 0

/-- The scale calls of one `scaleBlueGreen`, in order, and the error it returns. -/
structure ScaleRun where
  calls : List ScaleCall
  err : Option String
deriving DecidableEq, Repr

/-- The condition of the last loop of `scaleBlueGreen` on one old ReplicaSet:
`!ok || (oldLabel != activeSelector && oldLabel != previewSelector)`, where a missing map
entry reads as the empty string. -/
def notSelected (old : ReplicaSet) (activeSelector previewSelector : String) : Bool :=
  let entry := StrMap.get? old.Labels DefaultRolloutUniqueLabelKey
  let oldLabel := entry.getD ""
  let ok := entry.isSome
  !ok || (oldLabel != activeSelector && oldLabel != previewSelector)

/-- The last loop of `scaleBlueGreen`, over the old ReplicaSets with pods: old replica sets
should be fully scaled down if they are not receiving traffic from the active or preview
service. -/
def scaleDownUnselected (c : ScaleDeps) (rollout : Rollout)
    (activeSelector previewSelector : String) : List ReplicaSet → ScaleRun
  | [] => ⟨[], none⟩
  | old :: rest =>
    if notSelected old activeSelector previewSelector then
      match c.scaleReplicaSetAndRecordEvent old 0 rollout with
      | some err => ⟨[⟨old, 0⟩], some err⟩
      | none =>
        let next := scaleDownUnselected c rollout activeSelector previewSelector rest
        ⟨⟨old, 0⟩ :: next.calls, next.err⟩
    else scaleDownUnselected c rollout activeSelector previewSelector rest

/-- The test `rs != nil` followed by `*(rs.Spec.Replicas) != rolloutReplicas`. -/
def needsRescale (rs : Option ReplicaSet) (rolloutReplicas : Int) : Option ReplicaSet :=
  match rs with
  | some r => if (r.Replicas : Int) != rolloutReplicas then some r else none
  | none => none

/-- Go `Controller.scaleBlueGreen`: should run only on scaling events and not during the
normal rollout process. -/
def scaleBlueGreen (c : ScaleDeps) (D : Defaults) (rollout : Rollout)
    (newRS : Option ReplicaSet) (oldRSs : List ReplicaSet)
    (previewSvc activeSvc : Option Service) : ScaleRun :=
  let rolloutReplicas := GetRolloutReplicasOrDefault D rollout
  let preview := getRolloutSelectorLabel previewSvc
  let previewSelector := if !preview.2 then "" else preview.1
  let active := getRolloutSelectorLabel activeSvc
  let activeSelector := if !active.2 then "" else active.1
  -- If there is only one replica set with pods, then we should scale that up to the full
  -- count of the rollout. If there is no replica set with pods, then we should scale up the
  -- newest replica set.
  match needsRescale (c.FindActiveOrLatest newRS oldRSs) rolloutReplicas with
  | some activeOrLatest =>
    ⟨[⟨activeOrLatest, rolloutReplicas⟩],
      c.scaleReplicaSetAndRecordEvent activeOrLatest rolloutReplicas rollout⟩
  | none =>
    let allRS := newRS :: oldRSs.map some
    let activeRS := c.GetActiveReplicaSet allRS rollout.Status.BlueGreen.ActiveSelector
    match needsRescale activeRS rolloutReplicas with
    | some activeRS =>
      ⟨[⟨activeRS, rolloutReplicas⟩],
        c.scaleReplicaSetAndRecordEvent activeRS rolloutReplicas rollout⟩
    | none =>
      match needsRescale newRS rolloutReplicas with
      | some newRS =>
        ⟨[⟨newRS, rolloutReplicas⟩],
          c.scaleReplicaSetAndRecordEvent newRS rolloutReplicas rollout⟩
      | none =>
        scaleDownUnselected c rollout activeSelector previewSelector
          (FilterActiveReplicaSets oldRSs)

end Rollouts.BlueGreen

/-! ## Datadog metric provider (`metricproviders/datadog/datadog.go`) -/

namespace Rollouts.Datadog

/-- An `AnalysisPhase`: the state of a measurement. -/
inductive AnalysisPhase where
  | Pending
  | Running
  | Successful
  | Failed
  | Error
  | Inconclusive
deriving DecidableEq, Repr

/-- An `http.Response`: the status code, and what `ioutil.ReadAll` gives on its body. -/
structure Response where
  StatusCode : Int
  Body : Except String String

/-- Go `http.StatusOK`. -/
def StatusOK : Int := 200

/-- Go `http.StatusUnauthorized`. -/
def StatusUnauthorized : Int := 401

/-- Go `http.StatusForbidden`. -/
def StatusForbidden : Int := 403

/-- A `v1alpha1.Metric`, as far as its evaluation reads it. -/
structure Metric where
  Name : String := ""
  SuccessCondition : String := ""
  FailureCondition : String := ""
deriving DecidableEq, Repr

/-- The library code behind `parseResponse`, each as the function of its arguments:
`json.Unmarshal` into decoded data, `FindResults` of the JSONPath
`{.series[0].pointlist[-1:][1]}` on the data, the type assertion `.Interface().(float64)`
(`none` when the value is of another type), `evaluate.EvaluateResult`, and
`strconv.FormatFloat(out, 'f', -1, 64)`. -/
structure Lib (Data Value Float64 : Type) where
  Unmarshal : String → Except String Data
  FindResults : Data → Except String (List (List Value))
  assertFloat64 : Value → Option Float64
  EvaluateResult : Float64 → Metric → AnalysisPhase
  FormatFloat : Float64 → String

/-- How `parseResponse` ends: with its three results, or in a panic. -/
inductive Parsed where
  | returned (value : String) (phase : AnalysisPhase) (err : Option String)
  | panicked
deriving DecidableEq, Repr

/-- The test `len(results) < 1 && len(results[0]) < 1`; `none` is the panic of the index
expression `results[0]`, which is evaluated when the first operand is true. -/
def noValueGuard {Value : Type} (results : List (List Value)) : Option Bool :=
  if results.length < 1 then
    match results[0]? with
    | some first => some (decide (first.length < 1))
    | none => none
  else some false

/-- Go `Provider.parseResponse`. -/
def parseResponse {Data Value Float64 : Type} (L : Lib Data Value Float64)
    (metric : Metric) (response : Response) : Parsed :=
  match response.Body with
  | Except.error err =>
    Parsed.returned "" AnalysisPhase.Error (some ("Received no bytes in response: " ++ err))
  | Except.ok bodyBytes =>
    if response.StatusCode == StatusForbidden || response.StatusCode == StatusUnauthorized then
      Parsed.returned "" AnalysisPhase.Error
        (some ("received authentication error response code: "
          ++ fmtInt response.StatusCode ++ " " ++ bodyBytes))
    else if response.StatusCode != StatusOK then
      Parsed.returned "" AnalysisPhase.Error
        (some ("received non 2xx response code: "
          ++ fmtInt response.StatusCode ++ " " ++ bodyBytes))
    else
      match L.Unmarshal bodyBytes with
      | Except.error err =>
        Parsed.returned "" AnalysisPhase.Error (some ("Could not parse JSON body: " ++ err))
      | Except.ok data =>
        match L.FindResults data with
        | Except.error err =>
          Parsed.returned "" AnalysisPhase.Error
            (some ("Could not find JSONPath in body: " ++ err))
        | Except.ok results =>
          match noValueGuard results with
          | none => Parsed.panicked
          | some true =>
            Parsed.returned "" AnalysisPhase.Error (some "Datadog returned no value")
          | some false =>
            match results[0]? with
            | none => Parsed.panicked
            | some first =>
              match first[0]? with
              | none => Parsed.panicked
              | some value =>
                match L.assertFloat64 value with
                | none => Parsed.panicked
                | some out =>
                  Parsed.returned (L.FormatFloat out) (L.EvaluateResult out metric) none

end Rollouts.Datadog

/-! ## Readings of the specification and sample objects -/

namespace Rollouts.Validation

/-- The number of step kinds (setWeight, pause, experiment, analysis) set on a step. -/
def stepTypesSet (s : CanaryStep) : Nat :=
  s.SetWeight.isSome.toNat + s.Pause.isSome.toNat + s.Experiment.isSome.toNat
    + s.Analysis.isSome.toNat

/-- A surge or unavailable value the specification gives a meaning to: an integer, or a
valid percent text `N%`. -/
def isIntOrPercent (v : IntOrString) : Bool :=
  match v with
  | IntOrString.int _ => true
  | IntOrString.str s => IsValidPercent s

/-- The value the specification gives to a surge or unavailable value: an integer stands
for itself and the percent text `N%` for the number `N`. -/
def statedValue (v : IntOrString) : Int :=
  match v with
  | IntOrString.int n => n
  | IntOrString.str s => digitsValue s.data.dropLast

/-- Sample values for the constants of package `utils/defaults`. -/
def sampleDefaults : Defaults :=
  { DefaultReplicas := 1, DefaultRevisionHistoryLimit := 10, DefaultMaxSurge := 1,
    DefaultMaxUnavailable := 1, DefaultProgressDeadlineSeconds := 600,
    DefaultScaleDownDelaySeconds := 30 }

/-- A canary rollout with the given surge, unavailable bound and steps. -/
def canaryRollout (maxSurge maxUnavailable : Option IntOrString) (steps : List CanaryStep) :
    Rollout :=
  { Name := "web",
    Spec := { Replicas := some 3,
              Strategy := { Canary := some { Steps := steps, MaxSurge := maxSurge,
                                             MaxUnavailable := maxUnavailable } } } }

/-- Three steps: one with two kinds set, one with a weight above 100, one with none set. -/
def sampleSteps : List CanaryStep :=
  [ { SetWeight := some 20, Pause := some {} }, { SetWeight := some 101 }, {} ]

end Rollouts.Validation

namespace Rollouts.Nginx

/-- A reconciler configuration for the rollout `web` with UID `uid-web`. -/
def sampleConfig : ReconcilerConfig :=
  { RolloutName := "web", RolloutNamespace := "default", RolloutUID := "uid-web",
    StableService := "web-stable", CanaryService := "web-canary", StableIngress := "web",
    AdditionalIngressAnnotations := [], AnnotationPrefix := "nginx.ingress.kubernetes.io",
    ControllerKind := { GroupVersion := "argoproj.io/v1alpha1", Kind := "Rollout" } }

/-- The stable ingress `web`, with one path served by the stable service. -/
def sampleStableIngress : Ingress :=
  { Meta := { Name := "web", Namespace := "default", SelfLink := "", UID := "uid-ingress",
              ResourceVersion := "7", Labels := [], Annotations := [], OwnerReferences := [] },
    Spec := { Backend := none, TLS := [],
              Rules := [ { Host := "web.example.com",
                           HTTP := some [ { Path := "/",
                                            Backend := { ServiceName := "web-stable",
                                                         ServicePort := "80" } } ] } ] } }

/-- An ingress named `web-canary` that is controlled by another rollout, `uid-other`. -/
def foreignCanaryIngress : Ingress :=
  { Meta := { Name := "web-canary", Namespace := "default", SelfLink := "",
              UID := "uid-ingress-2", ResourceVersion := "9", Labels := [], Annotations := [],
              OwnerReferences :=
                [ { APIVersion := "argoproj.io/v1alpha1", Kind := "Rollout", Name := "other",
                    UID := "uid-other", Controller := some true,
                    BlockOwnerDeletion := some true } ] },
    Spec := sampleStableIngress.Spec }

/-- A cluster holding the two ingresses above, on which every write succeeds. -/
def sampleClient : Client :=
  { get := fun name =>
      if name == "web" then GetResult.found sampleStableIngress
      else if name == "web-canary" then GetResult.found foreignCanaryIngress
      else GetResult.notFound "not found",
    create := fun _ => none,
    patch := fun _ _ => none }

end Rollouts.Nginx

namespace Rollouts.BlueGreen

/-- An active service selecting the pods of hash `abc123`. -/
def sampleActiveSvc : Service :=
  { Name := "active", Selector := [(DefaultRolloutUniqueLabelKey, "abc123")] }

/-- A preview service selecting the pods of hash `def456`. -/
def samplePreviewSvc : Service :=
  { Name := "preview", Selector := [(DefaultRolloutUniqueLabelKey, "def456")] }

/-- The new ReplicaSet, of hash `def456`. -/
def sampleNewRS : ReplicaSet :=
  { Name := "web-def456", Labels := [(DefaultRolloutUniqueLabelKey, "def456")],
    CreationTimestamp := 20, Replicas := 3, StatusReplicas := 3, AvailableReplicas := 3 }

/-- An old ReplicaSet, of hash `abc123`, that still has pods. -/
def sampleOldRS : ReplicaSet :=
  { Name := "web-abc123", Labels := [(DefaultRolloutUniqueLabelKey, "abc123")],
    CreationTimestamp := 10, Replicas := 3, StatusReplicas := 3, AvailableReplicas := 3 }

/-- A controller on which every step reports that nothing is left to do: the services and
ReplicaSets are the given ones, the new ReplicaSet is saturated, the rollout is complete and
the base status carries the pod hash `hash`. -/
def doneDeps (activeSvc : Service) (previewSvc : Option Service) (oldRSs : List ReplicaSet)
    (hash : String) : Deps :=
  { getPreviewAndActiveServices := fun _ => Except.ok (previewSvc, activeSvc),
    getAllReplicaSetsAndSyncRevision := fun _ _ => Except.ok (sampleNewRS, oldRSs),
    reconcileNewReplicaSet := fun _ _ _ => Except.ok false,
    IsSaturated := fun _ _ => true,
    reconcilePreviewService := fun _ _ _ _ => Except.ok false,
    reconcileActiveService := fun _ _ _ _ => Except.ok false,
    reconcileOldReplicaSets := fun _ _ _ _ => Except.ok false,
    RolloutComplete := fun _ _ => true,
    cleanupRollouts := fun _ _ => none,
    calculateBaseStatus := fun _ _ _ => { CurrentPodHash := hash },
    GetActiveReplicaSet := fun _ _ => none,
    GetActualReplicaCountForReplicaSets := fun _ => 0,
    FormatLabelSelector := fun _ => "",
    calculatePauseStatus := fun r _ => (r.Status.PauseStartTime, r.Spec.Paused),
    calculateRolloutConditions := fun _ st _ _ => st.Conditions,
    persistRolloutStatus := fun _ _ _ => none }

/-- A blue-green rollout with the given preview service name, pause flag and pause start
time. -/
def blueGreenRollout (previewService : String) (paused : Bool) (pauseStart : Option Time) :
    Rollout :=
  { Name := "web",
    Spec := { Replicas := some 3, Paused := paused,
              Strategy := { BlueGreen := some { ActiveService := "active",
                                                PreviewService := previewService } } },
    Status := { PauseStartTime := pauseStart } }

/-- A blue-green rollout with `scaleDownDelaySeconds = 30` whose delay started at time 0. -/
def delayRollout : Rollout :=
  { Name := "web",
    Spec := { Replicas := some 3,
              Strategy := { BlueGreen := some { ActiveService := "active",
                                                ScaleDownDelaySeconds := some 30 } } },
    Status := { BlueGreen := { ScaleDownDelayStartTime := some 0 } } }

end Rollouts.BlueGreen

namespace Rollouts.Validation

/-- Library validators that find nothing to report and codecs that do not fail. -/
def sampleLib : Lib :=
  { ValidateLabelSelector := fun _ => [],
    requirementsError := fun _ => none,
    marshalTemplateError := fun _ => none,
    unmarshalTemplateError := fun _ => none,
    ValidatePodTemplateSpecForReplicaSet := fun _ _ _ => [] }

/-- A canary rollout with the selector `app=web`, a matching pod template and the given
replicas, minReadySeconds and progressDeadlineSeconds. -/
def specRollout (replicas : Option Int) (minReadySeconds : Int)
    (progressDeadlineSeconds : Option Int) : Rollout :=
  { Name := "web",
    Spec := { Replicas := replicas,
              Selector := some { MatchLabels := [("app", "web")] },
              TemplateLabels := [("app", "web")],
              MinReadySeconds := minReadySeconds,
              ProgressDeadlineSeconds := progressDeadlineSeconds,
              Strategy := { Canary := some { Steps := [ { SetWeight := some 20 } ] } } } }

/-- A blue-green rollout with the given services, revisionHistoryLimit and
scaleDownDelayRevisionLimit. -/
def servicesRollout (activeService previewService : String)
    (revisionHistoryLimit scaleDownDelayRevisionLimit : Option Int) : Rollout :=
  { Name := "web",
    Spec := { Replicas := some 3, RevisionHistoryLimit := revisionHistoryLimit,
              Strategy :=
                { BlueGreen :=
                    some { ActiveService := activeService, PreviewService := previewService,
                           ScaleDownDelayRevisionLimit := scaleDownDelayRevisionLimit } } } }

end Rollouts.Validation

namespace Rollouts.Nginx

/-- A path with its backend pointed at the canary service when it named the stable one. -/
def retargetPath (stableServiceName canaryServiceName : String) (p : HTTPIngressPath) :
    HTTPIngressPath :=
  if p.Backend.ServiceName == stableServiceName then
    { p with Backend := { p.Backend with ServiceName := canaryServiceName } }
  else p

/-- Whether some path of some rule has the service as its backend. -/
def usesService (serviceName : String) (rules : List IngressRule) : Bool :=
  rules.any (fun r =>
    match r.HTTP with
    | some paths => paths.any (fun p => p.Backend.ServiceName == serviceName)
    | none => false)

/-- The rules with every path retargeted. -/
def retargetAll (stableServiceName canaryServiceName : String) (rules : List IngressRule) :
    List IngressRule :=
  rules.map (fun r =>
    { r with HTTP := r.HTTP.map (fun paths =>
        paths.map (retargetPath stableServiceName canaryServiceName)) })

/-- The annotations of the desired canary ingress before the weight is written: those of
the stable ingress without the last-applied configuration, the additional ones, and the
canary flag. -/
def baseAnnotations (cfg : ReconcilerConfig) (stableIngress : Ingress) : StrMap :=
  StrMap.set
    (addAnnotations cfg.AnnotationPrefix
      (StrMap.delete stableIngress.Meta.Annotations
        "kubectl.kubernetes.io/last-applied-configuration")
      cfg.AdditionalIngressAnnotations)
    (cfg.AnnotationPrefix ++ "/canary") "true"

/-- The canary ingress as the specification describes it: named after the stable ingress,
owned by the rollout, every stable backend retargeted, flagged as canary and weighted. -/
def desiredIngress (cfg : ReconcilerConfig) (stableIngress : Ingress) (desiredWeight : Int) :
    Ingress :=
  { Meta := { stableIngress.Meta with
                Name := cfg.StableIngress ++ "-canary",
                Labels := StrMap.delete stableIngress.Meta.Labels "app.kubernetes.io/instance",
                Annotations := StrMap.set (baseAnnotations cfg stableIngress)
                  (cfg.AnnotationPrefix ++ "/canary-weight") (fmtInt desiredWeight),
                OwnerReferences :=
                  [NewControllerRef cfg.RolloutName cfg.RolloutUID cfg.ControllerKind] },
    Spec := { stableIngress.Spec with
                Rules := retargetAll cfg.StableService cfg.CanaryService
                  stableIngress.Spec.Rules } }

/-- The stable ingress `web` with a second rule that names a host only: its `HTTP` is nil,
which the Ingress API admits. -/
def hostOnlyIngress : Ingress :=
  { sampleStableIngress with
      Spec := { sampleStableIngress.Spec with
                  Rules := sampleStableIngress.Spec.Rules
                    ++ [ { Host := "static.example.com", HTTP := none } ] } }

end Rollouts.Nginx

namespace Rollouts.SMI

/-- A stand-in for `resource.MustParse` that reads a text of decimal digits as that number
and panics on every other text. -/
def sampleMustParse (s : String) : Option Quantity :=
  if !s.data.isEmpty && s.data.all Char.isDigit then
    some { value := Validation.digitsValue s.data, scale := 0 }
  else none

/-- A reconciler configuration for the rollout `web` with UID `uid-web`. -/
def sampleConfig : ReconcilerConfig :=
  { RolloutName := "web", RolloutNamespace := "default", RolloutUID := "uid-web",
    StableService := "web-stable", CanaryService := "web-canary", RootService := "",
    TrafficSplitName := "web-split",
    ControllerKind := { GroupVersion := "argoproj.io/v1alpha1", Kind := "Rollout" } }

/-- A traffic split named `web-split` with the given owner references. -/
def splitOwnedBy (owners : List OwnerReference) : TrafficSplit :=
  { Meta := { Name := "web-split", Namespace := "default", SelfLink := "", UID := "uid-split",
              ResourceVersion := "4", Labels := [], Annotations := [],
              OwnerReferences := owners },
    Spec := { Service := "web-stable", Backends := [] } }

/-- The controller reference of another rollout, `uid-other`. -/
def foreignOwner : OwnerReference :=
  { APIVersion := "argoproj.io/v1alpha1", Kind := "Rollout", Name := "other",
    UID := "uid-other", Controller := some true, BlockOwnerDeletion := some true }

/-- A cluster in which `Get` returns the given traffic split without error and every write
succeeds. -/
def clientWith (split : TrafficSplit) : Client :=
  { get := fun _ => (some split, none),
    patch := fun _ _ => none,
    create := fun _ => none }

end Rollouts.SMI

namespace Rollouts.Restart

/-- The sample ReplicaSets in the order stable, new, old. -/
def sampleSorted : List ReplicaSet :=
  [ { Name := "web-stable", CreationTimestamp := 20 },
    { Name := "web-new", CreationTimestamp := 30 },
    { Name := "web-old", CreationTimestamp := 5 } ]

end Rollouts.Restart

namespace Rollouts.Restart

/-- Whether a call deletes a pod. -/
def Call.isDelete : Call → Bool
  | Call.deletePod _ _ => true
  | _ => false

/-- A clock that reads 100 s, a rollout needing a restart when its `restartAt` is before that
reading, selectors printed as their labels, and the ReplicaSets sorted by insertion under
`Less`. -/
def sampleEnv : Env :=
  { now := 100 * Second,
    NeedsRestart := fun rollout =>
      match rollout.Spec.RestartAt with
      | some restartAt => decide (restartAt < 100 * Second)
      | none => false,
    FormatLabelSelector := fun selector =>
      match selector with
      | some s => String.intercalate "," (s.MatchLabels.map (fun kv => kv.1 ++ "=" ++ kv.2))
      | none => "",
    sortRSs := fun s => s.allRSs.insertionSort (fun a b => lessRS s a b = true) }

/-- A restarter with a resync period of 15 minutes whose client lists `pods` for every
ReplicaSet and answers a deletion with `deleteErr`. -/
def sampleRestarter (pods : List Pod) (deleteErr : Option String) : RolloutPodRestarter :=
  { client := { list := fun _ _ => Except.ok pods, delete := fun _ _ => deleteErr },
    resyncPeriod := 900 * Second }

/-- A ReplicaSet `web-abc123` of namespace `default` with `available` of its 2 replicas
available. -/
def sampleRS (available : Nat) : ReplicaSet :=
  { Name := "web-abc123", Namespace := "default", CreationTimestamp := 5 * Second,
    Selector := some { MatchLabels := [("app", "web")] },
    Replicas := 2, StatusReplicas := 2, AvailableReplicas := available }

/-- The context of the rollout `web` with the given `spec.restartAt`, whose only ReplicaSet
is `rs`, both its new and its stable one. -/
def sampleContext (restartAt : Option Time) (rs : ReplicaSet) : rolloutContext :=
  { Rollout := { Name := "web", Namespace := "default",
                 Spec := { Replicas := some 2, RestartAt := restartAt } },
    NewRS := some rs, StableRS := some rs, AllRSs := [rs] }

/-- A running pod created at 10 s. -/
def oldPod : Pod :=
  { Name := "web-abc123-x7k2p", Namespace := "default", CreationTimestamp := 10 * Second }

/-- A running pod created at 60 s. -/
def freshPod : Pod :=
  { Name := "web-abc123-m4q9z", Namespace := "default", CreationTimestamp := 60 * Second }

end Rollouts.Restart

namespace Rollouts.BlueGreen

/-- The pod-hash label value in the selector of a service, the empty string when the service
is missing or its selector has none. -/
def selectorHash (svc : Option Service) : String :=
  match svc with
  | some s => (StrMap.get? s.Selector DefaultRolloutUniqueLabelKey).getD ""
  | none => ""

/-- The old ReplicaSets that the last loop of `scaleBlueGreen` is to scale down: those with
pods whose pod-hash label is missing, or is neither of the two selector hashes. -/
def unselectedWithPods (oldRSs : List ReplicaSet) (activeSelector previewSelector : String) :
    List ReplicaSet :=
  oldRSs.filter (fun old =>
    decide (0 < old.Replicas) &&
    decide (StrMap.get? old.Labels DefaultRolloutUniqueLabelKey ≠ some activeSelector) &&
    decide (StrMap.get? old.Labels DefaultRolloutUniqueLabelKey ≠ some previewSelector))

/-- An old ReplicaSet without the pod-hash label, with 3 replicas. -/
def adoptedRS (name : String) (created : Time) : ReplicaSet :=
  { Name := name, CreationTimestamp := created, Replicas := 3, StatusReplicas := 3,
    AvailableReplicas := 3 }

/-- Helpers that sort by insertion under the `Less` of `ReplicaSetsByCreationTimestamp`, find
no active ReplicaSet, take the new ReplicaSet for the latest one, and whose scale call fails
on the ReplicaSets named in `failing`. -/
def sampleScaleDeps (failing : List String) : ScaleDeps :=
  { scaleReplicaSetAndRecordEvent := fun rs _ _ =>
      if failing.contains rs.Name then some ("cannot scale " ++ rs.Name) else none,
    SortByCreationTimestamp := fun rss =>
      rss.insertionSort (fun a b => creationLess a b = true),
    FindActiveOrLatest := fun newRS _ => newRS,
    GetActiveReplicaSet := fun _ _ => none }

/-- The ReplicaSets of a list whose `spec.replicas` is not zero, in the order of the list. -/
def withReplicas (replicaSets : List ReplicaSet) : List ReplicaSet :=
  replicaSets.filter (fun rs => rs.Replicas != 0)

/-- The sum of the `spec.replicas` of the ReplicaSets of a list. -/
def replicasSum (replicaSets : List ReplicaSet) : Int :=
  (replicaSets.map (fun rs => (rs.Replicas : Int))).sum

/-- One scale call to 0 for each ReplicaSet of a list, in the order of the list. -/
def scaledToZero (replicaSets : List ReplicaSet) : List ScaleCall :=
  replicaSets.map (fun rs => ⟨rs, 0⟩)

/-- The three ReplicaSets that `scaleBlueGreen` may rescale to the replica count of the
rollout, in the order in which it looks at them: the active or latest one, the active one
and the new one. -/
def rescaleCandidates (c : ScaleDeps) (rollout : Rollout) (newRS : Option ReplicaSet)
    (oldRSs : List ReplicaSet) : List (Option ReplicaSet) :=
  [c.FindActiveOrLatest newRS oldRSs,
    c.GetActiveReplicaSet (newRS :: oldRSs.map some) rollout.Status.BlueGreen.ActiveSelector,
    newRS]

/-- Three old ReplicaSets without the pod-hash label: `web-b` and `web-a` with 3 replicas,
the second the older one, and `web-zero` at 0. -/
def sampleOldRSs : List ReplicaSet :=
  [adoptedRS "web-b" 20, adoptedRS "web-a" 10, { Name := "web-zero", CreationTimestamp := 5 }]

end Rollouts.BlueGreen

namespace Rollouts.Datadog

/-- A response body in which the point list of the first series is null. -/
def nullPointlistBody : String := "\x7b\"series\":[\x7b\"pointlist\":null\x7d]\x7d"

/-- A stand-in for the library: the body is its own decoded form, the JSONPath finds one
empty result in the body whose point list is null and otherwise the number 5; numbers are
kept as integers. -/
def sampleLib : Lib String Int Int :=
  { Unmarshal := fun body => Except.ok body,
    FindResults := fun data =>
      if data == nullPointlistBody then Except.ok [[]]
      else Except.ok [[5]],
    assertFloat64 := fun value => some value,
    EvaluateResult := fun _ _ => AnalysisPhase.Successful,
    FormatFloat := fun out => fmtInt out }

/-- A response of status 200 with the given body. -/
def okResponse (body : String) : Response :=
  { StatusCode := StatusOK, Body := Except.ok body }

end Rollouts.Datadog

namespace Rollouts.Nginx

/-- The key under which the loop of `canaryIngress` over the additional annotations stores
an entry: the key itself when it carries the annotation prefix, the prefixed key
otherwise. -/
def prefixedKey (annotationPrefix k : String) : String :=
  if hasPrefix k annotationPrefix then k else annotationPrefix ++ "/" ++ k

/-- Two additional annotations that name the same annotation once the prefix is prepended. -/
def collidingAnnotations : StrMap :=
  [("canary-by-header", "X-Canary"),
    ("nginx.ingress.kubernetes.io/canary-by-header", "X-Preview")]

/-- Two additional annotations that name different annotations. -/
def distinctAnnotations : StrMap :=
  [("canary-by-header", "X-Canary"), ("nginx.ingress.kubernetes.io/canary-by-cookie", "beta")]

/-- The sample configuration with the additional annotations `additional`, visited in the
order of the list. -/
def configVisiting (additional : StrMap) : ReconcilerConfig :=
  { sampleConfig with AdditionalIngressAnnotations := additional }

end Rollouts.Nginx

namespace Rollouts.BlueGreen

/-- An old ReplicaSet without the pod-hash label whose `spec.replicas` is the largest
`int32`. -/
def largestRS (name : String) (created : Time) : ReplicaSet :=
  { Name := name, CreationTimestamp := created, Replicas := 2147483647,
    StatusReplicas := 3, AvailableReplicas := 3 }

end Rollouts.BlueGreen

namespace Rollouts.Restart

/-- A pod created at 10 s whose deletion started at 90 s. -/
def terminatingPod : Pod :=
  { Name := "web-abc123-t5w8c", Namespace := "default", CreationTimestamp := 10 * Second,
    DeletionTimestamp := some (90 * Second) }

end Rollouts.Restart

/-! # Theorems -/

/-! ## Nginx traffic router -/

namespace Rollouts.Nginx

/-- Claim C1, at a failing input.  The canary ingress `web-canary` exists and is controlled
by another rollout (`uid-other`, not `uid-web`); `Reconcile` does not refuse it: it sends a
patch for that ingress and returns nil.  The ownership test reads the owner reference of the
desired ingress, which `canaryIngress` has just set to the rollout itself. -/
theorem reconcile_patches_foreign_canary_ingress :
    foreignCanaryIngress.Meta.OwnerReferences.map (fun o => o.UID) = ["uid-other"] ∧
    sampleConfig.RolloutUID = "uid-web" ∧
    (Reconcile sampleConfig sampleClient 50).outcome = Outcome.returned none ∧
    (Reconcile sampleConfig sampleClient 50).calls.getLast? =
      some (Call.patch "web-canary"
        { Annotations := [("nginx.ingress.kubernetes.io/canary", some "true"),
                          ("nginx.ingress.kubernetes.io/canary-weight", some "50")],
          Labels := [],
          Spec := some { sampleStableIngress.Spec with
            Rules := [ { Host := "web.example.com",
                         HTTP := some [ { Path := "/",
                                          Backend := { ServiceName := "web-canary",
                                                       ServicePort := "80" } } ] } ] } }) := by
  refine ⟨by decide, by decide, by decide, by decide⟩

end Rollouts.Nginx

/-! ## SMI traffic router -/

namespace Rollouts.SMI

/-- Claim C2, at a failing input.  For the desired weight 50 and whatever the quantity
parser, both backends of the spec carry the quantity parsed from the text `2` (the character
of code 50), not the weights 50 and 50; the root service is as the claim says. -/
theorem trafficSplitSpec_weights_at_50 (mustParse : String → Option Quantity)
    (cfg : ReconcilerConfig) :
    runeString 50 = "2" ∧
    trafficSplitSpec mustParse cfg 50 =
      (mustParse "2").map (fun q =>
        { Service := if cfg.RootService = "" then cfg.StableService else cfg.RootService,
          Backends := [ { Service := cfg.CanaryService, Weight := some q },
                        { Service := cfg.StableService, Weight := some q } ] }) := by
  refine ⟨by decide, ?_⟩
  unfold trafficSplitSpec
  rw [show runeString 50 = "2" by decide, show runeString (wrapInt32 (100 - 50)) = "2" by decide]
  cases mustParse "2" <;> simp [rootService]

end Rollouts.SMI

/-! ## Blue-green reconciler -/

namespace Rollouts.BlueGreen

/-- Membership in the steps of the second half of `rolloutBlueGreen`. -/
theorem fromPause_steps (c : Deps) (D : Defaults) (now : Time) (r : Rollout)
    (newRS : ReplicaSet) (oldRSs : List ReplicaSet) (previewSvc : Option Service)
    (activeSvc : Service) (steps : List Step)
    (hA : Step.reconcileActiveService ∉ steps)
    (hO : Step.reconcileOldReplicaSets ∉ steps)
    (hC : Step.cleanupRollouts ∉ steps) :
    let run := rolloutBlueGreenFromPause c D now r newRS oldRSs previewSvc activeSvc steps
    let pauseDone := reconcileBlueGreenPause activeSvc r = some false
    let saturated := c.IsSaturated r newRS = true
    let activeDone := c.reconcileActiveService r newRS previewSvc activeSvc = Except.ok false
    let delayDone := (reconcileScaleDownDelay D now r oldRSs).1 = false
    let scaleDownDone :=
      c.reconcileOldReplicaSets (oldRSs ++ [newRS]) (FilterActiveReplicaSets oldRSs) newRS r
        = Except.ok false
    (Step.reconcileActiveService ∈ run.steps → pauseDone ∧ saturated) ∧
    (Step.reconcileOldReplicaSets ∈ run.steps →
      pauseDone ∧ saturated ∧ activeDone ∧ delayDone) ∧
    (Step.cleanupRollouts ∈ run.steps →
      pauseDone ∧ saturated ∧ activeDone ∧ delayDone ∧ scaleDownDone
        ∧ c.RolloutComplete r r.Status = true) ∧
    (Step.reconcilePreviewService ∈ run.steps → Step.reconcilePreviewService ∈ steps) := by
  have hd : ∀ s ∈ (reconcileScaleDownDelay D now r oldRSs).2,
      s ≠ Step.reconcileActiveService ∧ s ≠ Step.reconcileOldReplicaSets
        ∧ s ≠ Step.cleanupRollouts ∧ s ≠ Step.reconcilePreviewService := by
    intro s hs
    unfold reconcileScaleDownDelay at hs
    by_cases h0 : GetReplicaCountForReplicaSets oldRSs = 0
    · simp [h0] at hs
    · cases hst : r.Status.BlueGreen.ScaleDownDelayStartTime with
      | none => simp [h0, hst] at hs
      | some t => simp [h0, hst] at hs; subst hs; simp
  have hdA : Step.reconcileActiveService ∉ (reconcileScaleDownDelay D now r oldRSs).2 :=
    fun h => (hd _ h).1 rfl
  have hdO : Step.reconcileOldReplicaSets ∉ (reconcileScaleDownDelay D now r oldRSs).2 :=
    fun h => (hd _ h).2.1 rfl
  have hdC : Step.cleanupRollouts ∉ (reconcileScaleDownDelay D now r oldRSs).2 :=
    fun h => (hd _ h).2.2.1 rfl
  have hdP : Step.reconcilePreviewService ∉ (reconcileScaleDownDelay D now r oldRSs).2 :=
    fun h => (hd _ h).2.2.2 rfl
  unfold rolloutBlueGreenFromPause finish
  cases hp : reconcileBlueGreenPause activeSvc r with
  | none => simp [hA, hO, hC, *]
  | some p =>
    cases p with
    | true => simp [hA, hO, hC, *]
    | false =>
      cases hsat : c.IsSaturated r newRS with
      | false => simp [hA, hO, hC, *]
      | true =>
        cases ha : c.reconcileActiveService r newRS previewSvc activeSvc with
        | error e => simp [hA, hO, hC, *]
        | ok a =>
          cases a with
          | true => simp [hA, hO, hC, *]
          | false =>
            cases hdl : (reconcileScaleDownDelay D now r oldRSs).1 with
            | true => simp [hA, hO, hC, hdA, hdO, hdC, hdP, *]
            | false =>
              cases ho : c.reconcileOldReplicaSets (oldRSs ++ [newRS])
                  (FilterActiveReplicaSets oldRSs) newRS r with
              | error e => simp [hA, hO, hC, hdA, hdO, hdC, hdP, *]
              | ok o =>
                cases o with
                | true => simp [hA, hO, hC, hdA, hdO, hdC, hdP, *]
                | false =>
                  cases hc : c.RolloutComplete r r.Status with
                  | false => simp [hA, hO, hC, hdA, hdO, hdC, hdP, *]
                  | true =>
                    cases hcl : c.cleanupRollouts oldRSs r with
                    | none => simp [hA, hO, hC, hdA, hdO, hdC, hdP, *]
                    | some e => simp [hA, hO, hC, hdA, hdO, hdC, hdP, *]


/-- Which steps `rolloutBlueGreen` can have taken, in terms of what the earlier steps
reported. -/
theorem rolloutBlueGreen_steps (c : Deps) (D : Defaults) (now : Time) (r : Rollout)
    (rsList : List ReplicaSet) (previewSvc : Option Service) (activeSvc : Service)
    (newRS : ReplicaSet) (oldRSs : List ReplicaSet)
    (hsvc : c.getPreviewAndActiveServices r = Except.ok (previewSvc, activeSvc))
    (hrs : c.getAllReplicaSetsAndSyncRevision r rsList = Except.ok (newRS, oldRSs)) :
    let run := rolloutBlueGreen c D now r rsList
    let scaleUpDone := c.reconcileNewReplicaSet (oldRSs ++ [newRS]) newRS r = Except.ok false
    let saturated := c.IsSaturated r newRS = true
    let previewDone := previewSvc = none ∨
      c.reconcilePreviewService r newRS previewSvc activeSvc = Except.ok false
    let pauseDone := reconcileBlueGreenPause activeSvc r = some false
    let activeDone := c.reconcileActiveService r newRS previewSvc activeSvc = Except.ok false
    let delayDone := (reconcileScaleDownDelay D now r oldRSs).1 = false
    let scaleDownDone :=
      c.reconcileOldReplicaSets (oldRSs ++ [newRS]) (FilterActiveReplicaSets oldRSs) newRS r
        = Except.ok false
    (Step.reconcilePreviewService ∈ run.steps → previewSvc ≠ none ∧ scaleUpDone ∧ saturated) ∧
    (Step.reconcileActiveService ∈ run.steps →
      scaleUpDone ∧ previewDone ∧ pauseDone ∧ saturated) ∧
    (Step.reconcileOldReplicaSets ∈ run.steps →
      scaleUpDone ∧ previewDone ∧ pauseDone ∧ saturated ∧ activeDone ∧ delayDone) ∧
    (Step.cleanupRollouts ∈ run.steps →
      scaleUpDone ∧ previewDone ∧ pauseDone ∧ saturated ∧ activeDone ∧ delayDone
        ∧ scaleDownDone ∧ c.RolloutComplete r r.Status = true) := by
  intro run scaleUpDone saturated previewDone pauseDone activeDone delayDone scaleDownDone
  have key : ∀ steps : List Step,
      Step.reconcileActiveService ∉ steps → Step.reconcileOldReplicaSets ∉ steps →
      Step.cleanupRollouts ∉ steps →
      run = rolloutBlueGreenFromPause c D now r newRS oldRSs previewSvc activeSvc steps →
      scaleUpDone → previewDone →
      (Step.reconcilePreviewService ∈ steps → previewSvc ≠ none ∧ saturated) →
      (Step.reconcilePreviewService ∈ run.steps → previewSvc ≠ none ∧ scaleUpDone ∧ saturated) ∧
      (Step.reconcileActiveService ∈ run.steps →
        scaleUpDone ∧ previewDone ∧ pauseDone ∧ saturated) ∧
      (Step.reconcileOldReplicaSets ∈ run.steps →
        scaleUpDone ∧ previewDone ∧ pauseDone ∧ saturated ∧ activeDone ∧ delayDone) ∧
      (Step.cleanupRollouts ∈ run.steps →
        scaleUpDone ∧ previewDone ∧ pauseDone ∧ saturated ∧ activeDone ∧ delayDone
          ∧ scaleDownDone ∧ c.RolloutComplete r r.Status = true) := by
    intro steps hA hO hC hrun hup hprev hP
    have h := fromPause_steps c D now r newRS oldRSs previewSvc activeSvc steps hA hO hC
    rw [hrun]
    refine ⟨fun hm => ?_, fun hm => ?_, fun hm => ?_, fun hm => ?_⟩
    · have := hP (h.2.2.2 hm)
      exact ⟨this.1, hup, this.2⟩
    · have := h.1 hm
      exact ⟨hup, hprev, this.1, this.2⟩
    · have := h.2.1 hm
      exact ⟨hup, hprev, this⟩
    · have := h.2.2.1 hm
      exact ⟨hup, hprev, this⟩
  have hrun : run = rolloutBlueGreen c D now r rsList := rfl
  unfold rolloutBlueGreen at hrun
  simp only [hsvc, hrs] at hrun
  cases hu : c.reconcileNewReplicaSet (oldRSs ++ [newRS]) newRS r with
  | error e => simp [hu] at hrun; simp [hrun]
  | ok u =>
    cases u with
    | true => simp [hu, finish] at hrun; simp [hrun]
    | false =>
      cases previewSvc with
      | none =>
        simp [hu] at hrun
        exact key _ (by simp) (by simp) (by simp) hrun hu (Or.inl rfl) (by simp)
      | some p =>
        cases hsat : c.IsSaturated r newRS with
        | false => simp [hu, hsat, finish] at hrun; simp [hrun]
        | true =>
          cases hpv : c.reconcilePreviewService r newRS (some p) activeSvc with
          | error e => simp [hu, hsat, hpv] at hrun; simp [hrun, scaleUpDone, saturated, hu, hsat]
          | ok v =>
            cases v with
            | true =>
              simp [hu, hsat, hpv, finish] at hrun
              simp [hrun, scaleUpDone, saturated, hu, hsat]
            | false =>
              simp [hu, hsat, hpv] at hrun
              exact key _ (by simp) (by simp) (by simp) hrun hu (Or.inr hpv)
                (fun _ => ⟨by simp, hsat⟩)


/-- Claim C3.  In `rolloutBlueGreen` a step runs only if every earlier step reported done in
the same reconcile: the preview service is reconciled only if scale-up reported no change and
the new ReplicaSet is saturated; the active service only if moreover the preview step (when
there is a preview service) reported no change, the pause gate returned false and the new
ReplicaSet is saturated; old ReplicaSets are scaled down only if moreover the active-service
step reported no change and `reconcileScaleDownDelay` returned false; they are cleaned up only
if moreover scale-down reported no change and the rollout is complete. -/
theorem rolloutBlueGreen_step_order (c : Deps) (D : Defaults) (now : Time) (r : Rollout)
    (rsList : List ReplicaSet) (previewSvc : Option Service) (activeSvc : Service)
    (newRS : ReplicaSet) (oldRSs : List ReplicaSet)
    (hsvc : c.getPreviewAndActiveServices r = Except.ok (previewSvc, activeSvc))
    (hrs : c.getAllReplicaSetsAndSyncRevision r rsList = Except.ok (newRS, oldRSs)) :
    let run := rolloutBlueGreen c D now r rsList
    let scaleUpDone := c.reconcileNewReplicaSet (oldRSs ++ [newRS]) newRS r = Except.ok false
    let saturated := c.IsSaturated r newRS = true
    let previewDone := previewSvc = none ∨
      c.reconcilePreviewService r newRS previewSvc activeSvc = Except.ok false
    let pauseDone := reconcileBlueGreenPause activeSvc r = some false
    let activeDone := c.reconcileActiveService r newRS previewSvc activeSvc = Except.ok false
    let delayDone := (reconcileScaleDownDelay D now r oldRSs).1 = false
    let scaleDownDone :=
      c.reconcileOldReplicaSets (oldRSs ++ [newRS]) (FilterActiveReplicaSets oldRSs) newRS r
        = Except.ok false
    (Step.reconcilePreviewService ∈ run.steps → previewSvc ≠ none ∧ scaleUpDone ∧ saturated) ∧
    (Step.reconcileActiveService ∈ run.steps →
      scaleUpDone ∧ previewDone ∧ pauseDone ∧ saturated) ∧
    (Step.reconcileOldReplicaSets ∈ run.steps →
      scaleUpDone ∧ previewDone ∧ pauseDone ∧ saturated ∧ activeDone ∧ delayDone) ∧
    (Step.cleanupRollouts ∈ run.steps →
      scaleUpDone ∧ previewDone ∧ pauseDone ∧ saturated ∧ activeDone ∧ delayDone
        ∧ scaleDownDone ∧ c.RolloutComplete r r.Status = true) :=
  rolloutBlueGreen_steps c D now r rsList previewSvc activeSvc newRS oldRSs hsvc hrs

/-- Witness of C3: on a controller whose steps all report done, with a preview service, the
run reaches the clean-up, and the theorem yields that every earlier step reported done. -/
theorem rolloutBlueGreen_step_order_witness :
    Step.cleanupRollouts ∈
      (rolloutBlueGreen (doneDeps sampleActiveSvc (some samplePreviewSvc) [] "def456")
        Validation.sampleDefaults 0 (blueGreenRollout "preview" false none) []).steps ∧
    reconcileBlueGreenPause sampleActiveSvc (blueGreenRollout "preview" false none)
      = some false ∧
    (reconcileScaleDownDelay Validation.sampleDefaults 0
      (blueGreenRollout "preview" false none) []).1 = false := by
  have h := rolloutBlueGreen_step_order
    (doneDeps sampleActiveSvc (some samplePreviewSvc) [] "def456")
    Validation.sampleDefaults 0 (blueGreenRollout "preview" false none) []
    (some samplePreviewSvc) sampleActiveSvc sampleNewRS [] rfl rfl
  have hmem : Step.cleanupRollouts ∈
      (rolloutBlueGreen (doneDeps sampleActiveSvc (some samplePreviewSvc) [] "def456")
        Validation.sampleDefaults 0 (blueGreenRollout "preview" false none) []).steps := by
    decide
  have h4 := h.2.2.2 hmem
  exact ⟨hmem, h4.2.2.1, h4.2.2.2.2.2.1⟩

/-- Claim C4.  `reconcileScaleDownDelay` returns true (delay not finished) exactly when the
old ReplicaSets have spec replicas left and the start time is absent or the clock is before
the start time plus the effective scaleDownDelaySeconds; with start time 0, a delay of 30
seconds and old replicas left it returns true at 29 seconds and false at 30 seconds. -/
theorem reconcileScaleDownDelay_iff (D : Defaults) (now : Time) (rollout : Rollout)
    (oldRSs : List ReplicaSet) :
    ((reconcileScaleDownDelay D now rollout oldRSs).1 = true ↔
      0 < GetReplicaCountForReplicaSets oldRSs ∧
        (rollout.Status.BlueGreen.ScaleDownDelayStartTime = none ∨
          ∃ s, rollout.Status.BlueGreen.ScaleDownDelayStartTime = some s ∧
            now < s + GetScaleDownDelaySecondsOrDefault D rollout * Second)) ∧
    (rollout.Status.BlueGreen.ScaleDownDelayStartTime = some 0 →
      GetScaleDownDelaySecondsOrDefault D rollout = 30 →
      0 < GetReplicaCountForReplicaSets oldRSs →
      (reconcileScaleDownDelay D (29 * Second) rollout oldRSs).1 = true ∧
      (reconcileScaleDownDelay D (30 * Second) rollout oldRSs).1 = false) := by
  have key : ∀ t : Time, ((reconcileScaleDownDelay D t rollout oldRSs).1 = true ↔
      0 < GetReplicaCountForReplicaSets oldRSs ∧
        (rollout.Status.BlueGreen.ScaleDownDelayStartTime = none ∨
          ∃ s, rollout.Status.BlueGreen.ScaleDownDelayStartTime = some s ∧
            t < s + GetScaleDownDelaySecondsOrDefault D rollout * Second)) := by
    intro t
    unfold reconcileScaleDownDelay
    by_cases h0 : GetReplicaCountForReplicaSets oldRSs = 0
    · simp [h0]
    · have hpos : 0 < GetReplicaCountForReplicaSets oldRSs := Nat.pos_of_ne_zero h0
      cases hs : rollout.Status.BlueGreen.ScaleDownDelayStartTime with
      | none => simp [h0, hpos]
      | some s => simp [h0, hpos]
  refine ⟨key now, ?_⟩
  intro hs hd hn
  constructor
  · rw [key]
    exact ⟨hn, Or.inr ⟨0, hs, by rw [hd]; simp [Second]⟩⟩
  · cases hv : (reconcileScaleDownDelay D (30 * Second) rollout oldRSs).1 with
    | false => rfl
    | true =>
      rw [key] at hv
      rcases hv.2 with h | ⟨s, h, hlt⟩
      · rw [hs] at h; cases h
      · rw [hs] at h; cases h
        rw [hd] at hlt
        simp [Second] at hlt

/-- Witness of C4: a rollout whose delay of 30 seconds started at time 0, with one old
ReplicaSet of three replicas. -/
theorem reconcileScaleDownDelay_iff_witness :
    (reconcileScaleDownDelay Validation.sampleDefaults (29 * Second) delayRollout
      [sampleOldRS]).1 = true ∧
    (reconcileScaleDownDelay Validation.sampleDefaults (30 * Second) delayRollout
      [sampleOldRS]).1 = false :=
  (reconcileScaleDownDelay_iff Validation.sampleDefaults 0 delayRollout [sampleOldRS]).2
    rfl rfl (by decide)

/-- The pause gate answers, and answers true exactly under its three guards. -/
theorem reconcileBlueGreenPause_guards (activeSvc : Service) (r : Rollout) (bg : BlueGreenStrategy)
    (hbg : r.Spec.Strategy.BlueGreen = some bg) :
    (reconcileBlueGreenPause activeSvc r = some true ↔
      bg.PreviewService ≠ "" ∧
      (StrMap.get? activeSvc.Selector DefaultRolloutUniqueLabelKey).isSome = true ∧
      r.Spec.Paused = true ∧ r.Status.PauseStartTime.isSome = true) ∧
    (reconcileBlueGreenPause activeSvc r = some true ∨
      reconcileBlueGreenPause activeSvc r = some false) := by
  unfold reconcileBlueGreenPause
  rw [hbg]
  by_cases hp : bg.PreviewService = ""
  · simp [hp]
  · cases hl : StrMap.get? activeSvc.Selector DefaultRolloutUniqueLabelKey with
    | none => simp [hp]
    | some v =>
      simp [hp]
      cases r.Spec.Paused <;> cases r.Status.PauseStartTime <;> simp

/-- Counterexample to C5 as stated: three blue-green rollouts with `spec.paused = true` on
which the pause gate returns false: one without a preview service (and there the run goes on
to reconcile the active service), one whose active service carries no pod-hash label, one
whose status has no pause start time. -/
theorem pause_gate_false_while_paused :
    (blueGreenRollout "" true (some 5)).Spec.Paused = true ∧
    reconcileBlueGreenPause sampleActiveSvc (blueGreenRollout "" true (some 5)) = some false ∧
    Step.reconcileActiveService ∈
      (rolloutBlueGreen (doneDeps sampleActiveSvc none [] "def456")
        Validation.sampleDefaults 0 (blueGreenRollout "" true (some 5)) []).steps ∧
    reconcileBlueGreenPause { Name := "active" } (blueGreenRollout "preview" true (some 5))
      = some false ∧
    reconcileBlueGreenPause sampleActiveSvc (blueGreenRollout "preview" true none)
      = some false := by
  refine ⟨by decide, by decide, by decide, by decide, by decide⟩

/-- Claim C5, amended.  For a blue-green rollout the pause gate returns true exactly when a
preview service is configured, the selector of the active service carries the pod-hash
label, `spec.paused` is true and `status.pauseStartTime` is set; whenever it returns true,
`rolloutBlueGreen` does not reconcile the active service. -/
theorem pause_gate_blocks_active_switch (c : Deps) (D : Defaults) (now : Time) (r : Rollout)
    (rsList : List ReplicaSet) (previewSvc : Option Service) (activeSvc : Service)
    (newRS : ReplicaSet) (oldRSs : List ReplicaSet) (bg : BlueGreenStrategy)
    (hbg : r.Spec.Strategy.BlueGreen = some bg)
    (hsvc : c.getPreviewAndActiveServices r = Except.ok (previewSvc, activeSvc))
    (hrs : c.getAllReplicaSetsAndSyncRevision r rsList = Except.ok (newRS, oldRSs)) :
    (reconcileBlueGreenPause activeSvc r = some true ↔
      bg.PreviewService ≠ "" ∧
      (StrMap.get? activeSvc.Selector DefaultRolloutUniqueLabelKey).isSome = true ∧
      r.Spec.Paused = true ∧ r.Status.PauseStartTime.isSome = true) ∧
    (reconcileBlueGreenPause activeSvc r = some true →
      Step.reconcileActiveService ∉ (rolloutBlueGreen c D now r rsList).steps) := by
  refine ⟨(reconcileBlueGreenPause_guards activeSvc r bg hbg).1, ?_⟩
  intro hgate hmem
  have h := (rolloutBlueGreen_steps c D now r rsList previewSvc activeSvc newRS oldRSs
    hsvc hrs).2.1 hmem
  have h2 := h.2.2.1
  rw [hgate] at h2
  cases h2

/-- Witness of C5: a paused rollout with a preview service, a labelled active service and a
pause start time; the gate returns true and the active service is not reconciled. -/
theorem pause_gate_blocks_active_switch_witness :
    reconcileBlueGreenPause sampleActiveSvc (blueGreenRollout "preview" true (some 5))
      = some true ∧
    Step.reconcileActiveService ∉
      (rolloutBlueGreen (doneDeps sampleActiveSvc (some samplePreviewSvc) [] "def456")
        Validation.sampleDefaults 0 (blueGreenRollout "preview" true (some 5)) []).steps := by
  have h := pause_gate_blocks_active_switch
    (doneDeps sampleActiveSvc (some samplePreviewSvc) [] "def456")
    Validation.sampleDefaults 0 (blueGreenRollout "preview" true (some 5)) []
    (some samplePreviewSvc) sampleActiveSvc sampleNewRS []
    { ActiveService := "active", PreviewService := "preview" } rfl rfl rfl
  exact ⟨by decide, h.2 (by decide)⟩

/-- Claim C6.  In the status computed by `syncRolloutStatusBlueGreen` the scale-down delay
start time is absent if the selector hash of the active service differs from the new
currentPodHash or the old ReplicaSets have no spec replicas; otherwise it is the start time
of the previous status when set, and the current time when not.  Hence a recorded start time
is kept as long as the active service points at the current hash and old pods remain. -/
theorem sync_scaleDownDelayStartTime (c : Deps) (now : Time) (oldRSs : List ReplicaSet)
    (newRS : ReplicaSet) (previewSvc activeSvc : Option Service) (r : Rollout)
    (addPause : Bool) :
    let newStatus :=
      (syncRolloutStatusBlueGreen c now oldRSs newRS previewSvc activeSvc r addPause).newStatus
    newStatus.CurrentPodHash
      = (c.calculateBaseStatus (oldRSs ++ [newRS]) newRS r).CurrentPodHash ∧
    newStatus.BlueGreen.ScaleDownDelayStartTime =
      (if (getRolloutSelectorLabel activeSvc).1 ≠ newStatus.CurrentPodHash
          ∨ GetReplicaCountForReplicaSets oldRSs = 0 then none
       else
         match r.Status.BlueGreen.ScaleDownDelayStartTime with
         | some t => some t
         | none => some now) ∧
    (∀ t, r.Status.BlueGreen.ScaleDownDelayStartTime = some t →
      (getRolloutSelectorLabel activeSvc).1 = newStatus.CurrentPodHash →
      GetReplicaCountForReplicaSets oldRSs ≠ 0 →
      newStatus.BlueGreen.ScaleDownDelayStartTime = some t) := by
  intro newStatus
  have main : newStatus.CurrentPodHash
      = (c.calculateBaseStatus (oldRSs ++ [newRS]) newRS r).CurrentPodHash ∧
    newStatus.BlueGreen.ScaleDownDelayStartTime =
      (if (getRolloutSelectorLabel activeSvc).1 ≠ newStatus.CurrentPodHash
          ∨ GetReplicaCountForReplicaSets oldRSs = 0 then none
       else
         match r.Status.BlueGreen.ScaleDownDelayStartTime with
         | some t => some t
         | none => some now) := by
    simp only [newStatus, syncRolloutStatusBlueGreen]
    cases hact : c.GetActiveReplicaSet (oldRSs ++ [newRS]) (getRolloutSelectorLabel activeSvc).1 <;>
      refine ⟨rfl, ?_⟩ <;>
      by_cases h1 : (getRolloutSelectorLabel activeSvc).1
            = (c.calculateBaseStatus (oldRSs ++ [newRS]) newRS r).CurrentPodHash <;>
      by_cases h2 : GetReplicaCountForReplicaSets oldRSs = 0 <;>
      cases hs : r.Status.BlueGreen.ScaleDownDelayStartTime <;>
      simp [h1, h2, hs]
  refine ⟨main.1, main.2, ?_⟩
  intro t ht hsel hn
  rw [main.2, ht]
  simp [hsel, hn]

/-- Witness of C6: the active service points at the current hash `abc123`, an old
ReplicaSet has pods and the previous status recorded the start time 0; at time 99 the new
status keeps the start time 0. -/
theorem sync_scaleDownDelayStartTime_witness :
    (syncRolloutStatusBlueGreen (doneDeps sampleActiveSvc none [sampleOldRS] "abc123") 99
      [sampleOldRS] sampleNewRS none (some sampleActiveSvc) delayRollout
      false).newStatus.BlueGreen.ScaleDownDelayStartTime = some 0 :=
  (sync_scaleDownDelayStartTime (doneDeps sampleActiveSvc none [sampleOldRS] "abc123") 99
    [sampleOldRS] sampleNewRS none (some sampleActiveSvc) delayRollout false).2.2
    0 rfl (by decide) (by decide)

end Rollouts.BlueGreen

/-! ## Spec validation -/

namespace Rollouts.Validation

/-- The scan of `hasMultipleStepsType` finds a second flag exactly when two kinds are set. -/
theorem hasMultipleStepsType_two (s : CanaryStep) :
    hasMultipleStepsType s = true ↔ 2 ≤ stepTypesSet s := by
  rcases s with ⟨_ | w, _ | p, _ | x, _ | a⟩ <;>
    simp [hasMultipleStepsType, scanOneOf, stepTypesSet, List.replicate]

/-- The four nil tests hold together exactly when no kind is set. -/
theorem noStepType_iff (s : CanaryStep) :
    (s.Experiment.isNone && s.Pause.isNone && s.SetWeight.isNone && s.Analysis.isNone) = true
      ↔ stepTypesSet s = 0 := by
  rcases s with ⟨_ | w, _ | p, _ | x, _ | a⟩ <;> simp [stepTypesSet]

/-- The errors of one step, listed. -/
theorem mem_validateStep (p : Path) (s : CanaryStep) (e : FieldError) :
    e ∈ validateStep p s ↔
      (e = Invalid p (BadValue.step s) InvalidStepMessage ∧ stepTypesSet s ≠ 1) ∨
      (∃ w, s.SetWeight = some w ∧ (w < 0 ∨ 100 < w) ∧
        e = Invalid (Path.Child p "setWeight") (BadValue.int32Ptr s.SetWeight)
          InvalidSetWeightMessage) ∨
      (∃ pause, s.Pause = some pause ∧ DurationSeconds pause < 0 ∧
        e = Invalid (Path.Child (Path.Child p "pause") "duration")
          (BadValue.int32Ptr pause.Duration) InvalidDurationMessage) := by
  have h1 := hasMultipleStepsType_two s
  have h0 := noStepType_iff s
  have hne : stepTypesSet s ≠ 1 ↔ (hasMultipleStepsType s = true ∨
      (s.Experiment.isNone && s.Pause.isNone && s.SetWeight.isNone && s.Analysis.isNone) = true) := by
    rw [h1, h0]; omega
  unfold validateStep
  simp only [List.mem_append]
  rw [hne]
  constructor
  · rintro (((h | h) | h) | h)
    · split at h
      · simp at h; exact Or.inl ⟨h, Or.inl ‹_›⟩
      · simp at h
    · split at h
      · simp at h; exact Or.inl ⟨h, Or.inr ‹_›⟩
      · simp at h
    · cases hw : s.SetWeight with
      | none => simp [hw] at h
      | some w =>
        simp only [hw] at h
        split at h
        · simp at h
          rename_i hc
          simp at hc
          exact Or.inr (Or.inl ⟨w, rfl, hc, h⟩)
        · simp at h
    · cases hp : s.Pause with
      | none => simp [hp] at h
      | some pause =>
        simp only [hp] at h
        split at h
        · simp at h
          exact Or.inr (Or.inr ⟨pause, rfl, ‹_›, h⟩)
        · simp at h
  · rintro (⟨he, h | h⟩ | ⟨w, hw, hc, he⟩ | ⟨pause, hp, hc, he⟩)
    · left; left; left; simp [h, he]
    · left; left; right; rw [if_pos h]; simp [he]
    · left; right; simp [hw, hc, he]
    · right; simp [hp, hc, he]


/-- The errors of the step loop are the errors of its steps, each at its own index. -/
theorem mem_validateSteps (fldPath : Path) (e : FieldError) :
    ∀ (steps : List CanaryStep) (k : Nat),
      e ∈ validateSteps fldPath k steps ↔
        ∃ j step, steps[j]? = some step ∧
          e ∈ validateStep (Path.Index (Path.Child fldPath "steps") (k + j)) step := by
  intro steps
  induction steps with
  | nil => intro k; simp [validateSteps]
  | cons s rest ih =>
    intro k
    simp only [validateSteps, List.mem_append, ih (k + 1)]
    constructor
    · rintro (h | ⟨j, step, hj, h⟩)
      · exact ⟨0, s, by simp, by simpa using h⟩
      · refine ⟨j + 1, step, by simpa using hj, ?_⟩
        have : k + (j + 1) = k + 1 + j := by omega
        rw [this]; exact h
    · rintro ⟨j, step, hj, h⟩
      cases j with
      | zero =>
        simp at hj; subst hj
        left; simpa using h
      | succ j =>
        right
        refine ⟨j, step, by simpa using hj, ?_⟩
        have : k + (j + 1) = k + 1 + j := by omega
        rw [this] at h; exact h

/-- The errors of the canary validator, listed by origin. -/
theorem mem_ValidateRolloutStrategyCanary (D : Defaults) (rollout : Rollout) (fldPath : Path)
    (canary : CanaryStrategy) (hc : rollout.Spec.Strategy.Canary = some canary) :
    ∃ errs, ValidateRolloutStrategyCanary D rollout fldPath = some errs ∧
      ∀ e, e ∈ errs ↔
        (invalidMaxSurgeMaxUnavailable D rollout = true ∧
          e = Invalid (Path.Child fldPath "maxSurge") (BadValue.intOrStringPtr canary.MaxSurge)
            InvalidMaxSurgeMaxUnavailable) ∨
        (∃ j step, canary.Steps[j]? = some step ∧
          e ∈ validateStep (Path.Index (Path.Child fldPath "steps") j) step) ∨
        e ∈ validateAntiAffinity fldPath canary.AntiAffinity "Canary" := by
  refine ⟨_, by simp [ValidateRolloutStrategyCanary, hc]; rfl, ?_⟩
  intro e
  simp only [List.mem_append, mem_validateSteps, Nat.zero_add]
  constructor
  · rintro (h | h | h)
    · split at h
      · simp at h; exact Or.inl ⟨‹_›, h⟩
      · simp at h
    · exact Or.inr (Or.inl h)
    · exact Or.inr (Or.inr h)
  · rintro (⟨h, he⟩ | h | h)
    · left; simp [h, he]
    · right; left; exact h
    · right; right; exact h

/-- An anti-affinity error sits at the child `antiAffinity` and carries one of two texts. -/
theorem mem_validateAntiAffinity (fldPath : Path) (a : Option AntiAffinity) (strategy : String)
    (e : FieldError) (h : e ∈ validateAntiAffinity fldPath a strategy) :
    e.Field = Path.Child fldPath "antiAffinity" ∧
      ∃ x, a = some x ∧ e.Detail = invalidAntiAffinity x strategy := by
  unfold validateAntiAffinity at h
  cases a with
  | none => simp at h
  | some x =>
    simp only at h
    split at h
    · simp at h; subst h; exact ⟨rfl, x, rfl, rfl⟩
    · simp at h


/-- On a non-empty run of digits `atoi` gives the number written, capped at `maxInt`. -/
theorem atoi_digits (ds : List Char) (hne : ds ≠ []) (hd : ds.all Char.isDigit = true) :
    atoi (String.mk ds) = if maxInt < (digitsValue ds : Int) then maxInt else digitsValue ds := by
  unfold atoi
  cases ds with
  | nil => exact absurd rfl hne
  | cons c cs =>
    have hc : c.isDigit = true := by simp at hd; exact hd.1
    have h1 : c ≠ '-' := by rintro rfl; revert hc; decide
    have h2 : c ≠ '+' := by rintro rfl; revert hc; decide
    split
    · rename_i heq; simp at heq; exact absurd heq.1 h1
    · rename_i heq; simp at heq; exact absurd heq.1 h2
    · simp [hd]

/-- A valid percent text is a non-empty run of digits followed by the percent sign. -/
theorem percent_digits (s : String) (h : IsValidPercent s = true) :
    s.data.dropLast ≠ [] ∧ s.data.dropLast.all Char.isDigit = true := by
  unfold IsValidPercent at h
  split at h
  · rename_i rest heq
    have hs : s.data = rest.reverse ++ ['%'] := by
      have := congrArg List.reverse heq
      simpa using this
    simp at h
    rw [hs]
    simp [List.dropLast_concat]
    exact ⟨h.1, h.2⟩
  · simp at h

/-- On an integer or a valid percent the code value is zero exactly when the stated value
is. -/
theorem getIntOrPercentValue_zero_iff (v : IntOrString) (h : isIntOrPercent v = true) :
    getIntOrPercentValue v = 0 ↔ statedValue v = 0 := by
  cases v with
  | int n => simp [getIntOrPercentValue, getPercentValue, IntValue, statedValue]
  | str s =>
    simp only [isIntOrPercent] at h
    obtain ⟨hne, hd⟩ := percent_digits s h
    simp only [getIntOrPercentValue, getPercentValue, h, statedValue]
    simp only [Bool.not_true, Bool.false_eq_true, if_false, if_true]
    rw [atoi_digits _ hne hd]
    split
    · rename_i hlt
      simp only [maxInt] at hlt ⊢
      omega
    · rfl


/-- No anti-affinity message of the canary validator is the surge message. -/
theorem antiAffinity_detail_ne (x : AntiAffinity) :
    invalidAntiAffinity x "Canary" ≠ InvalidMaxSurgeMaxUnavailable := by
  unfold invalidAntiAffinity
  split
  · decide
  · split <;> decide


/-- Claim C7.  For a canary step, `ValidateRolloutStrategyCanary` reports an error with
`InvalidStepMessage` at the path of that step if and only if the number of kinds set among
setWeight, pause, experiment and analysis is not exactly one; `hasMultipleStepsType` returns
true exactly when at least two of the four are set. -/
theorem step_kind_error_iff (D : Defaults) (rollout : Rollout) (fldPath : Path)
    (canary : CanaryStrategy) (i : Nat) (step : CanaryStep)
    (hc : rollout.Spec.Strategy.Canary = some canary)
    (hi : canary.Steps[i]? = some step) :
    (∃ errs, ValidateRolloutStrategyCanary D rollout fldPath = some errs ∧
      ((∃ e ∈ errs, e.Field = Path.Index (Path.Child fldPath "steps") i
          ∧ e.Detail = InvalidStepMessage) ↔ stepTypesSet step ≠ 1)) ∧
    (hasMultipleStepsType step = true ↔ 2 ≤ stepTypesSet step) := by
  refine ⟨?_, hasMultipleStepsType_two step⟩
  obtain ⟨errs, herrs, hmem⟩ := mem_ValidateRolloutStrategyCanary D rollout fldPath canary hc
  refine ⟨errs, herrs, ?_⟩
  constructor
  · rintro ⟨e, he, hf, -⟩
    rcases (hmem e).1 he with ⟨-, h⟩ | ⟨j, step2, hj, h⟩ | h
    · subst h
      simp [Invalid, Path.Child, Path.Index] at hf
    · rcases (mem_validateStep _ _ _).1 h with ⟨h, hne⟩ | ⟨w, -, -, h⟩ | ⟨p, -, -, h⟩
      · subst h
        simp [Invalid, Path.Child, Path.Index] at hf
        subst hf
        rw [hi] at hj
        cases hj
        exact hne
      · subst h
        simp [Invalid, Path.Child, Path.Index] at hf
      · subst h
        simp [Invalid, Path.Child, Path.Index] at hf
    · have := (mem_validateAntiAffinity _ _ _ _ h).1
      rw [this] at hf
      simp [Path.Child, Path.Index] at hf
  · intro hne
    refine ⟨Invalid (Path.Index (Path.Child fldPath "steps") i) (BadValue.step step)
      InvalidStepMessage, ?_, rfl, rfl⟩
    exact (hmem _).2 (Or.inr (Or.inl ⟨i, step, hi,
      (mem_validateStep _ _ _).2 (Or.inl ⟨rfl, hne⟩)⟩))

/-- Witness of C7: the first sample step sets both a weight and a pause, and an error with
`InvalidStepMessage` is reported at `steps[0]`. -/
theorem step_kind_error_iff_witness :
    ∃ errs, ValidateRolloutStrategyCanary sampleDefaults (canaryRollout none none sampleSteps)
        (NewPath "spec") = some errs ∧
      ∃ e ∈ errs, e.Field = Path.Index (Path.Child (NewPath "spec") "steps") 0
        ∧ e.Detail = InvalidStepMessage := by
  obtain ⟨errs, h, hiff⟩ := (step_kind_error_iff sampleDefaults
    (canaryRollout none none sampleSteps) (NewPath "spec")
    { Steps := sampleSteps } 0 { SetWeight := some 20, Pause := some {} } rfl rfl).1
  exact ⟨errs, h, hiff.2 (by decide)⟩

/-- Claim C8.  `ValidateRolloutStrategy` accepts exactly one strategy: with neither set it
returns exactly one error (the missing strategy), with both set exactly one error carrying
`InvalidStrategyMessage` and no error of a per-strategy validator, and with exactly one set
exactly the errors of the validator of that strategy. -/
theorem ValidateRolloutStrategy_exactly_one (D : Defaults) (rollout : Rollout) (fldPath : Path) :
    (rollout.Spec.Strategy.BlueGreen = none → rollout.Spec.Strategy.Canary = none →
      ValidateRolloutStrategy D rollout fldPath =
        some [Invalid (Path.Child fldPath "strategy") (BadValue.strategy rollout.Spec.Strategy)
          (MissingFieldMessage ".Spec.Strategy.Canary or .Spec.Strategy.BlueGreen")]) ∧
    (rollout.Spec.Strategy.BlueGreen ≠ none → rollout.Spec.Strategy.Canary ≠ none →
      ValidateRolloutStrategy D rollout fldPath =
        some [Invalid (Path.Child fldPath "strategy") (BadValue.strategy rollout.Spec.Strategy)
          InvalidStrategyMessage]) ∧
    (rollout.Spec.Strategy.BlueGreen ≠ none → rollout.Spec.Strategy.Canary = none →
      ValidateRolloutStrategy D rollout fldPath = ValidateRolloutStrategyBlueGreen D rollout fldPath
      ∧ (ValidateRolloutStrategy D rollout fldPath).isSome = true) ∧
    (rollout.Spec.Strategy.BlueGreen = none → rollout.Spec.Strategy.Canary ≠ none →
      ValidateRolloutStrategy D rollout fldPath = ValidateRolloutStrategyCanary D rollout fldPath
      ∧ (ValidateRolloutStrategy D rollout fldPath).isSome = true) := by
  unfold ValidateRolloutStrategy ValidateRolloutStrategyBlueGreen ValidateRolloutStrategyCanary
  cases hb : rollout.Spec.Strategy.BlueGreen <;> cases hc : rollout.Spec.Strategy.Canary <;> simp [hb, hc]

/-- Witness of C8: a rollout without any strategy gets the single missing-strategy error. -/
theorem ValidateRolloutStrategy_exactly_one_witness :
    ValidateRolloutStrategy sampleDefaults {} (NewPath "spec") =
      some [Invalid (Path.Child (NewPath "spec") "strategy") (BadValue.strategy {})
        (MissingFieldMessage ".Spec.Strategy.Canary or .Spec.Strategy.BlueGreen")] :=
  (ValidateRolloutStrategy_exactly_one sampleDefaults {} (NewPath "spec")).1 rfl rfl

/-- Claim C9.  `ValidateRolloutStrategyCanary` reports the error
`InvalidMaxSurgeMaxUnavailable` if and only if the effective maxSurge and the effective
maxUnavailable (the value of the rollout, or the default when unset) both evaluate to zero,
an integer evaluating to itself and a valid percent text `N%` to `N` (the code computes
these values: an integer as itself, and `N%` as `N` while `N` fits a Go `int`). -/
theorem maxSurge_maxUnavailable_error_iff (D : Defaults) (rollout : Rollout) (fldPath : Path)
    (canary : CanaryStrategy)
    (hc : rollout.Spec.Strategy.Canary = some canary)
    (hS : isIntOrPercent (GetMaxSurgeOrDefault D rollout) = true)
    (hU : isIntOrPercent (GetMaxUnavailableOrDefault D rollout) = true) :
    (∃ errs, ValidateRolloutStrategyCanary D rollout fldPath = some errs ∧
      ((∃ e ∈ errs, e.Detail = InvalidMaxSurgeMaxUnavailable) ↔
        (statedValue (GetMaxSurgeOrDefault D rollout) = 0
          ∧ statedValue (GetMaxUnavailableOrDefault D rollout) = 0))) ∧
    (∀ n, getIntOrPercentValue (IntOrString.int n) = n) ∧
    (∀ s, IsValidPercent s = true → (digitsValue s.data.dropLast : Int) ≤ maxInt →
      getIntOrPercentValue (IntOrString.str s) = digitsValue s.data.dropLast) := by
  refine ⟨?_, fun n => by simp [getIntOrPercentValue, getPercentValue, IntValue], ?_⟩
  swap
  · intro s hs hle
    obtain ⟨hne, hd⟩ := percent_digits s hs
    simp only [getIntOrPercentValue, getPercentValue, hs]
    simp only [Bool.not_true, Bool.false_eq_true, if_false, if_true]
    rw [atoi_digits _ hne hd, if_neg (not_lt.mpr hle)]
  obtain ⟨errs, herrs, hmem⟩ := mem_ValidateRolloutStrategyCanary D rollout fldPath canary hc
  refine ⟨errs, herrs, ?_⟩
  have hinv : invalidMaxSurgeMaxUnavailable D rollout = true ↔
      (statedValue (GetMaxSurgeOrDefault D rollout) = 0
        ∧ statedValue (GetMaxUnavailableOrDefault D rollout) = 0) := by
    rw [← getIntOrPercentValue_zero_iff _ hS, ← getIntOrPercentValue_zero_iff _ hU]
    simp [invalidMaxSurgeMaxUnavailable]
  rw [← hinv]
  constructor
  · rintro ⟨e, he, hd⟩
    rcases (hmem e).1 he with ⟨h, -⟩ | ⟨j, step2, hj, h⟩ | h
    · exact h
    · rcases (mem_validateStep _ _ _).1 h with ⟨h, -⟩ | ⟨w2, -, -, h⟩ | ⟨p, -, -, h⟩ <;>
        (subst h; exact absurd hd (by simp only [Invalid]; decide))
    · obtain ⟨-, x, -, hx⟩ := mem_validateAntiAffinity _ _ _ _ h
      rw [hx] at hd
      exact absurd hd (antiAffinity_detail_ne x)
  · intro h
    exact ⟨_, (hmem _).2 (Or.inl ⟨h, rfl⟩), rfl⟩

/-- Witness of C9: maxSurge 0 with maxUnavailable `0%` is rejected, maxSurge 0 with
maxUnavailable 1 is accepted. -/
theorem maxSurge_maxUnavailable_error_iff_witness :
    (∃ errs, ValidateRolloutStrategyCanary sampleDefaults
        (canaryRollout (some (IntOrString.int 0)) (some (IntOrString.str "0%")) [])
        (NewPath "spec") = some errs ∧
      ∃ e ∈ errs, e.Detail = InvalidMaxSurgeMaxUnavailable) ∧
    (∃ errs, ValidateRolloutStrategyCanary sampleDefaults
        (canaryRollout (some (IntOrString.int 0)) (some (IntOrString.int 1)) [])
        (NewPath "spec") = some errs ∧
      ¬ ∃ e ∈ errs, e.Detail = InvalidMaxSurgeMaxUnavailable) := by
  obtain ⟨errs1, h1, hiff1⟩ := (maxSurge_maxUnavailable_error_iff sampleDefaults
    (canaryRollout (some (IntOrString.int 0)) (some (IntOrString.str "0%")) [])
    (NewPath "spec")
    { MaxSurge := some (IntOrString.int 0), MaxUnavailable := some (IntOrString.str "0%") }
    rfl (by decide) (by decide)).1
  obtain ⟨errs2, h2, hiff2⟩ := (maxSurge_maxUnavailable_error_iff sampleDefaults
    (canaryRollout (some (IntOrString.int 0)) (some (IntOrString.int 1)) [])
    (NewPath "spec")
    { MaxSurge := some (IntOrString.int 0), MaxUnavailable := some (IntOrString.int 1) }
    rfl (by decide) (by decide)).1
  refine ⟨⟨errs1, h1, hiff1.2 ⟨by decide, by decide⟩⟩, ⟨errs2, h2, ?_⟩⟩
  intro h
  have := (hiff2.1 h).2
  revert this
  decide

/-- Claim C10.  For a canary step with setWeight `w`, `ValidateRolloutStrategyCanary` reports
an error with `InvalidSetWeightMessage` on the setWeight of that step if and only if `w < 0`
or `w > 100`; the bounds 0 and 100 are accepted. -/
theorem setWeight_range_error_iff (D : Defaults) (rollout : Rollout) (fldPath : Path)
    (canary : CanaryStrategy) (i : Nat) (step : CanaryStep) (w : Int)
    (hc : rollout.Spec.Strategy.Canary = some canary)
    (hi : canary.Steps[i]? = some step)
    (hw : step.SetWeight = some w) :
    ∃ errs, ValidateRolloutStrategyCanary D rollout fldPath = some errs ∧
      ((∃ e ∈ errs,
          e.Field = Path.Child (Path.Index (Path.Child fldPath "steps") i) "setWeight"
          ∧ e.Detail = InvalidSetWeightMessage) ↔ (w < 0 ∨ 100 < w)) := by
  obtain ⟨errs, herrs, hmem⟩ := mem_ValidateRolloutStrategyCanary D rollout fldPath canary hc
  refine ⟨errs, herrs, ?_⟩
  constructor
  · rintro ⟨e, he, hf, -⟩
    rcases (hmem e).1 he with ⟨-, h⟩ | ⟨j, step2, hj, h⟩ | h
    · subst h
      simp [Invalid, Path.Child, Path.Index] at hf
    · rcases (mem_validateStep _ _ _).1 h with ⟨h, hne⟩ | ⟨w2, hw2, hbad, h⟩ | ⟨p, -, -, h⟩
      · subst h
        simp [Invalid, Path.Child, Path.Index] at hf
      · subst h
        simp [Invalid, Path.Child, Path.Index] at hf
        subst hf
        rw [hi] at hj
        cases hj
        rw [hw] at hw2
        cases hw2
        exact hbad
      · subst h
        simp [Invalid, Path.Child, Path.Index] at hf
    · have := (mem_validateAntiAffinity _ _ _ _ h).1
      rw [this] at hf
      simp [Path.Child, Path.Index] at hf
  · intro hbad
    refine ⟨Invalid (Path.Child (Path.Index (Path.Child fldPath "steps") i) "setWeight")
      (BadValue.int32Ptr step.SetWeight) InvalidSetWeightMessage, ?_, rfl, rfl⟩
    exact (hmem _).2 (Or.inr (Or.inl ⟨i, step, hi,
      (mem_validateStep _ _ _).2 (Or.inr (Or.inl ⟨w, hw, hbad, rfl⟩))⟩))

/-- Witness of C10: the second sample step sets the weight 101, and an error with
`InvalidSetWeightMessage` is reported at `steps[1].setWeight`. -/
theorem setWeight_range_error_iff_witness :
    ∃ errs, ValidateRolloutStrategyCanary sampleDefaults (canaryRollout none none sampleSteps)
        (NewPath "spec") = some errs ∧
      ∃ e ∈ errs,
        e.Field = Path.Child (Path.Index (Path.Child (NewPath "spec") "steps") 1) "setWeight"
        ∧ e.Detail = InvalidSetWeightMessage := by
  obtain ⟨errs, h, hiff⟩ := setWeight_range_error_iff sampleDefaults
    (canaryRollout none none sampleSteps) (NewPath "spec")
    { Steps := sampleSteps } 1 { SetWeight := some 101 } 101 rfl rfl rfl
  exact ⟨errs, h, hiff.2 (by decide)⟩

end Rollouts.Validation

/-! ## String maps -/

namespace Rollouts

/-- Looking up a key finds the first entry with that key. -/
theorem StrMap.lookup_cons (p : String × String) (m : StrMap) (k : String) :
    StrMap.get? (p :: m) k = if p.1 = k then some p.2 else StrMap.get? m k := by
  simp only [StrMap.get?, List.find?_cons]
  by_cases h : p.1 = k
  · simp [h]
  · have hb : (p.1 == k) = false := by simpa using h
    simp [hb, h]

/-- Nothing is found in the empty map. -/
theorem StrMap.lookup_nil (k : String) : StrMap.get? [] k = none := rfl

/-- Appending entries does not change the lookup of a key found before them. -/
theorem StrMap.lookup_append (a b : StrMap) (k : String) :
    StrMap.get? (a ++ b) k = (StrMap.get? a k).or (StrMap.get? b k) := by
  induction a with
  | nil => simp [StrMap.lookup_nil]
  | cons p a ih =>
    rw [List.cons_append, StrMap.lookup_cons, StrMap.lookup_cons, ih]
    by_cases h : p.1 = k <;> simp [h]

/-- A deleted key is not found. -/
theorem StrMap.lookup_delete_self (m : StrMap) (k : String) :
    StrMap.get? (StrMap.delete m k) k = none := by
  induction m with
  | nil => rfl
  | cons p m ih =>
    unfold StrMap.delete at ih ⊢
    by_cases h : p.1 = k
    · have hb : (p.1 != k) = false := by simp [h]
      rw [List.filter_cons, hb]
      simpa using ih
    · have hb : (p.1 != k) = true := by simpa using h
      rw [List.filter_cons, hb]
      simp only [if_true]
      rw [StrMap.lookup_cons, if_neg h]
      exact ih

/-- Deleting a key leaves the other keys as they were. -/
theorem StrMap.lookup_delete_other (m : StrMap) (k k2 : String) (hne : k2 ≠ k) :
    StrMap.get? (StrMap.delete m k) k2 = StrMap.get? m k2 := by
  induction m with
  | nil => rfl
  | cons p m ih =>
    unfold StrMap.delete at ih ⊢
    by_cases h : p.1 = k
    · have h2 : p.1 ≠ k2 := by rw [h]; exact fun h3 => hne h3.symm
      have hb : (p.1 != k) = false := by simp [h]
      rw [List.filter_cons, hb]
      simp only [Bool.false_eq_true, if_false]
      rw [StrMap.lookup_cons, if_neg h2]
      exact ih
    · have hb : (p.1 != k) = true := by simpa using h
      rw [List.filter_cons, hb]
      simp only [if_true]
      rw [StrMap.lookup_cons, StrMap.lookup_cons, ih]

/-- After `m[k] = v` the key `k` holds `v`. -/
theorem StrMap.lookup_set_self (m : StrMap) (k v : String) :
    StrMap.get? (StrMap.set m k v) k = some v := by
  unfold StrMap.set
  rw [StrMap.lookup_append, StrMap.lookup_delete_self, StrMap.lookup_cons]
  simp

/-- After `m[k] = v` every other key holds what it held. -/
theorem StrMap.lookup_set_other (m : StrMap) (k v k2 : String) (hne : k2 ≠ k) :
    StrMap.get? (StrMap.set m k v) k2 = StrMap.get? m k2 := by
  unfold StrMap.set
  rw [StrMap.lookup_append, StrMap.lookup_delete_other _ _ _ hne, StrMap.lookup_cons,
    if_neg (fun h => hne h.symm), StrMap.lookup_nil]
  cases StrMap.get? m k2 <;> rfl

/-- Setting a key twice keeps the second value only. -/
theorem StrMap.set_set (m : StrMap) (k v1 v2 : String) :
    StrMap.set (StrMap.set m k v1) k v2 = StrMap.set m k v2 := by
  unfold StrMap.set StrMap.delete
  simp [List.filter_append, List.filter_filter]

/-- An entry of a map is found under its key, possibly with the value of an earlier entry. -/
theorem StrMap.lookup_isSome_of_mem (m : StrMap) (p : String × String) (h : p ∈ m) :
    (StrMap.get? m p.1).isSome = true := by
  induction m with
  | nil => cases h
  | cons q m ih =>
    rw [StrMap.lookup_cons]
    by_cases hq : q.1 = p.1
    · simp [hq]
    · rw [if_neg hq]
      rcases List.mem_cons.1 h with h | h
      · exact absurd (by rw [h]) hq
      · exact ih h

/-- Two association lists that are the same map agree on every key. -/
theorem StrMap.same_lookup (a b : StrMap) (h : StrMap.same a b = true) (k : String) :
    StrMap.get? a k = StrMap.get? b k := by
  unfold StrMap.same at h
  rw [List.all_eq_true] at h
  cases ha : StrMap.get? a k with
  | some v =>
    have hk : ∃ p ∈ a, p.1 = k := by
      unfold StrMap.get? at ha
      cases hf : List.find? (fun p => p.1 == k) a with
      | none => simp [hf] at ha
      | some p =>
        have := List.find?_some hf
        exact ⟨p, List.mem_of_find?_eq_some hf, by simpa using this⟩
    obtain ⟨p, hp, rfl⟩ := hk
    have := h p (List.mem_append_left _ hp)
    simp at this
    rw [← this, ha]
  | none =>
    cases hb : StrMap.get? b k with
    | none => rfl
    | some v =>
      have hk : ∃ p ∈ b, p.1 = k := by
        unfold StrMap.get? at hb
        cases hf : List.find? (fun p => p.1 == k) b with
        | none => simp [hf] at hb
        | some p =>
          have := List.find?_some hf
          exact ⟨p, List.mem_of_find?_eq_some hf, by simpa using this⟩
      obtain ⟨p, hp, rfl⟩ := hk
      have := h p (List.mem_append_right _ hp)
      simp at this
      rw [this, hb] at ha
      cases ha

end Rollouts

/-! ## Nginx traffic router: the desired canary ingress -/

namespace Rollouts.Nginx

/-- The merge patch between two lists that are the same map is empty. -/
theorem mapPatch_same (current desired : StrMap) (h : StrMap.same current desired = true) :
    mapPatch current desired = [] := by
  have hg := StrMap.same_lookup current desired h
  unfold mapPatch
  simp only [List.append_eq_nil, List.map_eq_nil_iff, List.filter_eq_nil_iff]
  constructor
  · intro p _
    rw [hg p.1]
    cases hd : StrMap.get? desired p.1 <;> simp
  · intro p hp
    rw [← hg p.1]
    have := StrMap.lookup_isSome_of_mem current p hp
    cases hc : StrMap.get? current p.1 with
    | none => simp [hc] at this
    | some v => simp

/-- Every list is the same map as itself. -/
theorem StrMap_same_self (a : StrMap) : StrMap.same a a = true := by
  unfold StrMap.same
  simp

/-- The loop over the paths retargets each path and reports whether one named the stable
service. -/
theorem retargetPaths_eq (st ca : String) (paths : List HTTPIngressPath) :
    retargetPaths st ca paths =
      (paths.map (retargetPath st ca), paths.any (fun p => p.Backend.ServiceName == st)) := by
  induction paths with
  | nil => rfl
  | cons p ps ih =>
    unfold retargetPaths
    simp only [ih]
    by_cases h : (p.Backend.ServiceName == st) = true
    · simp [h, retargetPath]
    · simp [h, retargetPath]

/-- The loop over the rules panics exactly when a rule has no `HTTP`. -/
theorem retargetRules_none_iff (st ca : String) (rules : List IngressRule) :
    retargetRules st ca rules = none ↔ ∃ r ∈ rules, r.HTTP = none := by
  induction rules with
  | nil => simp [retargetRules]
  | cons r rs ih =>
    unfold retargetRules
    cases hr : r.HTTP with
    | none => simp [hr]
    | some paths =>
      simp only [hr]
      cases hrest : retargetRules st ca rs with
      | none =>
        have := ih.1 hrest
        simp [this]
      | some rest =>
        have : ¬ ∃ r ∈ rs, r.HTTP = none := fun h => by
          have := ih.2 h; rw [hrest] at this; cases this
        simp [hr]
        simpa using this

/-- When the loop over the rules ends, it has retargeted every path. -/
theorem retargetRules_some (st ca : String) (rules : List IngressRule)
    (out : List IngressRule × Bool) (h : retargetRules st ca rules = some out) :
    out = (retargetAll st ca rules, usesService st rules) := by
  induction rules generalizing out with
  | nil => simp [retargetRules] at h; subst h; rfl
  | cons r rs ih =>
    unfold retargetRules at h
    cases hr : r.HTTP with
    | none => simp [hr] at h
    | some paths =>
      simp only [hr] at h
      cases hrest : retargetRules st ca rs with
      | none => simp [hrest] at h
      | some rest =>
        simp only [hrest] at h
        have := ih rest hrest
        cases h
        rw [this, retargetPaths_eq]
        simp [retargetAll, usesService, hr]

/-- The three ways `canaryIngress` ends, by the rules of the stable ingress. -/
theorem canaryIngress_eq (cfg : ReconcilerConfig) (stableIngress : Ingress) (w : Int) :
    canaryIngress cfg stableIngress w =
      if stableIngress.Spec.Rules.any (fun r => r.HTTP.isNone) then Desired.panicked
      else if usesService cfg.StableService stableIngress.Spec.Rules then
        Desired.ok (desiredIngress cfg stableIngress w)
      else
        Desired.error ("ingress `" ++ cfg.StableIngress ++ "` has no rules using service "
          ++ cfg.StableService ++ " backend") := by
  unfold canaryIngress
  cases hr : retargetRules cfg.StableService cfg.CanaryService stableIngress.Spec.Rules with
  | none =>
    have := (retargetRules_none_iff _ _ _).1 hr
    have hany : stableIngress.Spec.Rules.any (fun r => r.HTTP.isNone) = true := by
      obtain ⟨r, hr1, hr2⟩ := this
      exact List.any_eq_true.2 ⟨r, hr1, by simp [hr2]⟩
    simp [hany, hr]
  | some out =>
    have hno : stableIngress.Spec.Rules.any (fun r => r.HTTP.isNone) = false := by
      cases hany : stableIngress.Spec.Rules.any (fun r => r.HTTP.isNone) with
      | false => rfl
      | true =>
        obtain ⟨r, hr1, hr2⟩ := List.any_eq_true.1 hany
        have := (retargetRules_none_iff cfg.StableService cfg.CanaryService _).2
          ⟨r, hr1, by simpa using hr2⟩
        rw [hr] at this; cases this
    have hout := retargetRules_some _ _ _ _ hr
    subst hout
    cases hu : usesService cfg.StableService stableIngress.Spec.Rules with
    | false => simp [hno, hu, hr]
    | true => simp [hno, hu, hr, desiredIngress, baseAnnotations]

/-- The key of the canary flag is not the key of the weight. -/
theorem weightKey_ne (p : String) : p ++ "/canary" ≠ p ++ "/canary-weight" := by
  intro h
  have := congrArg String.data h
  simp at this

/-- The desired ingress carries the canary flag and the weight, whatever the additional
annotations. -/
theorem desiredIngress_annotations (cfg : ReconcilerConfig) (stableIngress : Ingress)
    (w : Int) :
    StrMap.get? (desiredIngress cfg stableIngress w).Meta.Annotations
        (cfg.AnnotationPrefix ++ "/canary") = some "true" ∧
    StrMap.get? (desiredIngress cfg stableIngress w).Meta.Annotations
        (cfg.AnnotationPrefix ++ "/canary-weight") = some (fmtInt w) := by
  constructor
  · simp only [desiredIngress, baseAnnotations]
    rw [StrMap.lookup_set_other _ _ _ _ (weightKey_ne _), StrMap.lookup_set_self]
  · simp only [desiredIngress]
    rw [StrMap.lookup_set_self]

/-- The merge patch between two maps that differ in the value written last under one key. -/
theorem mapPatch_set_set (m : StrMap) (k v1 v2 : String) :
    mapPatch (StrMap.set m k v1) (StrMap.set m k v2) =
      if v1 = v2 then [] else [(k, some v2)] := by
  have hB : ∀ p ∈ StrMap.delete m k, p.1 ≠ k := by
    intro p hp
    unfold StrMap.delete at hp
    simpa using (List.mem_filter.1 hp).2
  have hget : ∀ (v : String) (p : String × String), p ∈ StrMap.delete m k →
      StrMap.get? (StrMap.set m k v) p.1 = StrMap.get? m p.1 := by
    intro v p hp
    exact StrMap.lookup_set_other _ _ _ _ (hB p hp)
  unfold mapPatch
  have h2 : (StrMap.set m k v1).filter
      (fun p => (StrMap.get? (StrMap.set m k v2) p.1).isNone) = [] := by
    rw [List.filter_eq_nil_iff]
    intro p hp
    have := StrMap.lookup_isSome_of_mem _ p hp
    by_cases hk : p.1 = k
    · rw [hk, StrMap.lookup_set_self]; simp
    · rw [StrMap.lookup_set_other _ _ _ _ hk]
      rw [StrMap.lookup_set_other _ _ _ _ hk] at this
      cases hm : StrMap.get? m p.1 with
      | none => rw [hm] at this; cases this
      | some x => simp
  rw [h2]
  simp only [List.map_nil, List.append_nil]
  have h1 : (StrMap.delete m k).filter (fun p =>
      StrMap.get? (StrMap.set m k v2) p.1 == some p.2
        && StrMap.get? (StrMap.set m k v1) p.1 != some p.2) = [] := by
    rw [List.filter_eq_nil_iff]
    intro p hp
    rw [hget v2 p hp, hget v1 p hp]
    cases StrMap.get? m p.1 <;> simp
  have hsplit : ∀ f : String × String → Bool, (StrMap.set m k v2).filter f =
      (StrMap.delete m k).filter f ++ [(k, v2)].filter f := by
    intro f
    unfold StrMap.set
    exact List.filter_append _ _
  rw [hsplit, h1]
  simp only [List.nil_append, List.filter_cons, StrMap.lookup_set_self, List.filter_nil]
  by_cases hv : v1 = v2
  · simp [hv]
  · have : v2 ≠ v1 := fun h => hv h.symm
    simp [hv, this]

/-- Claim C16, at a failing input.  The stable ingress has a path served by the stable
service and a second rule that names a host only; `canaryIngress` neither returns an error
nor an ingress: it panics on the nil `HTTP` of that rule.  In general it panics exactly when
some rule has no `HTTP`. -/
theorem canaryIngress_panics_on_host_only_rule :
    usesService sampleConfig.StableService hostOnlyIngress.Spec.Rules = true ∧
    canaryIngress sampleConfig hostOnlyIngress 50 = Desired.panicked ∧
    (∀ (cfg : ReconcilerConfig) (stableIngress : Ingress) (w : Int),
      canaryIngress cfg stableIngress w = Desired.panicked ↔
        ∃ r ∈ stableIngress.Spec.Rules, r.HTTP = none) := by
  refine ⟨by decide, by decide, ?_⟩
  intro cfg stableIngress w
  rw [canaryIngress_eq]
  constructor
  · intro h
    split at h
    · rename_i hany
      obtain ⟨r, hr1, hr2⟩ := List.any_eq_true.1 hany
      exact ⟨r, hr1, by simpa using hr2⟩
    · split at h <;> cases h
  · rintro ⟨r, hr1, hr2⟩
    have hany : stableIngress.Spec.Rules.any (fun r => r.HTTP.isNone) = true :=
      List.any_eq_true.2 ⟨r, hr1, by simp [hr2]⟩
    simp [hany]

/-- One round of the loop over the additional annotations. -/
theorem addAnnotations_cons (pre : String) (base : StrMap) (k v : String) (rest : StrMap) :
    addAnnotations pre base ((k, v) :: rest) =
      addAnnotations pre (StrMap.set base (prefixedKey pre k) v) rest := rfl

/-- A key that no additional annotation is stored under keeps the value it had. -/
theorem lookup_addAnnotations_of_not_mem (pre : String) (extra : StrMap) (k : String) :
    ∀ base : StrMap, (∀ p ∈ extra, prefixedKey pre p.1 ≠ k) →
      StrMap.get? (addAnnotations pre base extra) k = StrMap.get? base k := by
  induction extra with
  | nil => intro base _; rfl
  | cons p rest ih =>
    intro base h
    obtain ⟨k1, v1⟩ := p
    rw [addAnnotations_cons, ih _ (fun q hq => h q (List.mem_cons_of_mem _ hq))]
    exact StrMap.lookup_set_other _ _ _ _
      (fun hk => h (k1, v1) (List.mem_cons_self _ _) hk.symm)

/-- When no two additional annotations are stored under the same key, each is found under
its key after the loop. -/
theorem lookup_addAnnotations_of_mem (pre : String) (extra : StrMap) :
    ∀ base : StrMap, (extra.map (fun p => prefixedKey pre p.1)).Nodup →
      ∀ p ∈ extra, StrMap.get? (addAnnotations pre base extra) (prefixedKey pre p.1) =
        some p.2 := by
  induction extra with
  | nil => intro base _ p hp; cases hp
  | cons q rest ih =>
    intro base hnd p hp
    obtain ⟨k1, v1⟩ := q
    rw [List.map_cons, List.nodup_cons] at hnd
    rw [addAnnotations_cons]
    rcases List.mem_cons.1 hp with rfl | hp
    · rw [lookup_addAnnotations_of_not_mem pre rest _ _ (by
        intro r hr heq
        exact hnd.1 (List.mem_map.2 ⟨r, hr, heq⟩))]
      exact StrMap.lookup_set_self _ _ _
    · exact ih _ hnd.2 p hp

/-- When no two additional annotations are stored under the same key, the annotations after
the loop are the same map in whatever order the loop visits them. -/
theorem lookup_addAnnotations_perm (pre : String) (base extra1 extra2 : StrMap)
    (hperm : extra2.Perm extra1)
    (hkeys : (extra1.map (fun p => prefixedKey pre p.1)).Nodup) (k : String) :
    StrMap.get? (addAnnotations pre base extra2) k =
      StrMap.get? (addAnnotations pre base extra1) k := by
  have hkeys2 : (extra2.map (fun p => prefixedKey pre p.1)).Nodup :=
    (hperm.map _).nodup_iff.2 hkeys
  by_cases h : ∃ p ∈ extra1, prefixedKey pre p.1 = k
  · obtain ⟨p, hp, rfl⟩ := h
    rw [lookup_addAnnotations_of_mem pre extra1 base hkeys p hp,
      lookup_addAnnotations_of_mem pre extra2 base hkeys2 p (hperm.mem_iff.2 hp)]
  · have h1 : ∀ p ∈ extra1, prefixedKey pre p.1 ≠ k := fun p hp hk => h ⟨p, hp, hk⟩
    have h2 : ∀ p ∈ extra2, prefixedKey pre p.1 ≠ k :=
      fun p hp hk => h ⟨p, hperm.mem_iff.1 hp, hk⟩
    rw [lookup_addAnnotations_of_not_mem pre extra1 k base h1,
      lookup_addAnnotations_of_not_mem pre extra2 k base h2]

/-- The merge patch between two maps that agree on every key but one, under which each has
a value written last. -/
theorem mapPatch_set_of_lookup_eq (m1 m2 : StrMap) (k v1 v2 : String)
    (hsame : ∀ j, j ≠ k → StrMap.get? m1 j = StrMap.get? m2 j) :
    mapPatch (StrMap.set m1 k v1) (StrMap.set m2 k v2) =
      if v1 = v2 then [] else [(k, some v2)] := by
  have hB : ∀ p ∈ StrMap.delete m2 k, p.1 ≠ k := by
    intro p hp
    unfold StrMap.delete at hp
    simpa using (List.mem_filter.1 hp).2
  unfold mapPatch
  have h2 : (StrMap.set m1 k v1).filter
      (fun p => (StrMap.get? (StrMap.set m2 k v2) p.1).isNone) = [] := by
    rw [List.filter_eq_nil_iff]
    intro p hp
    have := StrMap.lookup_isSome_of_mem _ p hp
    by_cases hk : p.1 = k
    · rw [hk, StrMap.lookup_set_self]; simp
    · rw [StrMap.lookup_set_other _ _ _ _ hk, ← hsame p.1 hk]
      rw [StrMap.lookup_set_other _ _ _ _ hk] at this
      cases hm : StrMap.get? m1 p.1 with
      | none => rw [hm] at this; cases this
      | some x => simp
  rw [h2]
  simp only [List.map_nil, List.append_nil]
  have h1 : (StrMap.delete m2 k).filter (fun p =>
      StrMap.get? (StrMap.set m2 k v2) p.1 == some p.2
        && StrMap.get? (StrMap.set m1 k v1) p.1 != some p.2) = [] := by
    rw [List.filter_eq_nil_iff]
    intro p hp
    rw [StrMap.lookup_set_other _ _ _ _ (hB p hp), StrMap.lookup_set_other _ _ _ _ (hB p hp),
      hsame p.1 (hB p hp)]
    cases StrMap.get? m2 p.1 <;> simp
  have hsplit : ∀ f : String × String → Bool, (StrMap.set m2 k v2).filter f =
      (StrMap.delete m2 k).filter f ++ [(k, v2)].filter f := by
    intro f
    unfold StrMap.set
    exact List.filter_append _ _
  rw [hsplit, h1]
  simp only [List.nil_append, List.filter_cons, StrMap.lookup_set_self, List.filter_nil]
  by_cases hv : v1 = v2
  · simp [hv]
  · have : v2 ≠ v1 := fun h => hv h.symm
    simp [hv, this]

/-- Before the weight is written, the annotations of the desired ingress are the same map
in whatever order the additional annotations are visited, when no two of them are stored
under the same key. -/
theorem baseAnnotations_perm (cfg : ReconcilerConfig) (order2 : StrMap) (stable : Ingress)
    (hperm : order2.Perm cfg.AdditionalIngressAnnotations)
    (hkeys : (cfg.AdditionalIngressAnnotations.map
      (fun p => prefixedKey cfg.AnnotationPrefix p.1)).Nodup) (k : String) :
    StrMap.get? (baseAnnotations { cfg with AdditionalIngressAnnotations := order2 } stable) k =
      StrMap.get? (baseAnnotations cfg stable) k := by
  simp only [baseAnnotations]
  by_cases hk : k = cfg.AnnotationPrefix ++ "/canary"
  · rw [hk, StrMap.lookup_set_self, StrMap.lookup_set_self]
  · rw [StrMap.lookup_set_other _ _ _ _ hk, StrMap.lookup_set_other _ _ _ _ hk]
    exact lookup_addAnnotations_perm _ _ _ _ hperm hkeys k

/-- Claim C18 fails as stated.  The additional annotations hold `canary-by-header` once
without and once with the annotation prefix, so both entries are stored under one key; a
call that visits them in one order and a call that visits them in the other give desired
ingresses that differ in that annotation as well as in the weight, and the patch between them
changes both. -/
theorem canaryIngress_differs_by_visiting_order :
    collidingAnnotations.reverse.Perm collidingAnnotations ∧
    canaryIngress (configVisiting collidingAnnotations) sampleStableIngress 25 =
      Desired.ok (desiredIngress (configVisiting collidingAnnotations) sampleStableIngress 25) ∧
    canaryIngress (configVisiting collidingAnnotations.reverse) sampleStableIngress 50 =
      Desired.ok
        (desiredIngress (configVisiting collidingAnnotations.reverse) sampleStableIngress 50) ∧
    StrMap.get?
        (desiredIngress (configVisiting collidingAnnotations) sampleStableIngress
          25).Meta.Annotations
        "nginx.ingress.kubernetes.io/canary-by-header" = some "X-Preview" ∧
    StrMap.get?
        (desiredIngress (configVisiting collidingAnnotations.reverse) sampleStableIngress
          50).Meta.Annotations
        "nginx.ingress.kubernetes.io/canary-by-header" = some "X-Canary" ∧
    compareCanaryIngresses
        (desiredIngress (configVisiting collidingAnnotations) sampleStableIngress 25)
        (desiredIngress (configVisiting collidingAnnotations.reverse) sampleStableIngress 50) =
      Except.ok
        ({ Annotations := [("nginx.ingress.kubernetes.io/canary-by-header", some "X-Canary"),
                           ("nginx.ingress.kubernetes.io/canary-weight", some "50")],
           Labels := [], Spec := none }, true) := by
  refine ⟨List.reverse_perm _, by decide, by decide, by decide, by decide, ?_⟩
  rfl

/-- Claim C18, amended.  When no two additional annotations are stored under the same key
once the prefix is prepended, then for a stable ingress, two weights and any two orders in
which the two calls visit the additional annotations, the desired canary ingresses are equal
in name, labels, spec, owner references and every annotation except the value under
`<prefix>/canary-weight`, which is the weight of each; the patch from the first to the second
touches that annotation only. -/
theorem canaryIngress_weight_only_any_order (cfg : ReconcilerConfig) (order2 : StrMap)
    (stable : Ingress) (w1 w2 : Int) (d1 : Ingress)
    (hperm : order2.Perm cfg.AdditionalIngressAnnotations)
    (hkeys : (cfg.AdditionalIngressAnnotations.map
      (fun p => prefixedKey cfg.AnnotationPrefix p.1)).Nodup)
    (h1 : canaryIngress cfg stable w1 = Desired.ok d1) :
    ∃ d2, canaryIngress { cfg with AdditionalIngressAnnotations := order2 } stable w2 =
        Desired.ok d2 ∧
      d2.Meta.Name = d1.Meta.Name ∧ d2.Meta.Labels = d1.Meta.Labels ∧ d2.Spec = d1.Spec ∧
      d2.Meta.OwnerReferences = d1.Meta.OwnerReferences ∧
      (∀ k, k ≠ cfg.AnnotationPrefix ++ "/canary-weight" →
        StrMap.get? d2.Meta.Annotations k = StrMap.get? d1.Meta.Annotations k) ∧
      StrMap.get? d1.Meta.Annotations (cfg.AnnotationPrefix ++ "/canary-weight") =
        some (fmtInt w1) ∧
      StrMap.get? d2.Meta.Annotations (cfg.AnnotationPrefix ++ "/canary-weight") =
        some (fmtInt w2) ∧
      compareCanaryIngresses d1 d2 =
        Except.ok
          ({ Annotations :=
               if fmtInt w1 = fmtInt w2 then []
               else [(cfg.AnnotationPrefix ++ "/canary-weight", some (fmtInt w2))],
             Labels := [], Spec := none },
           decide (fmtInt w1 ≠ fmtInt w2)) := by
  have e1 := canaryIngress_eq cfg stable w1
  have e2 := canaryIngress_eq { cfg with AdditionalIngressAnnotations := order2 } stable w2
  have hbase := baseAnnotations_perm cfg order2 stable hperm hkeys
  rw [h1] at e1
  split at e1
  · cases e1
  · rename_i hno
    split at e1
    · rename_i hu
      cases e1
      rw [if_neg hno, if_pos hu] at e2
      refine ⟨_, e2, rfl, rfl, rfl, rfl, ?_, ?_, ?_, ?_⟩
      · intro k hk
        simp only [desiredIngress]
        rw [StrMap.lookup_set_other _ _ _ _ hk, StrMap.lookup_set_other _ _ _ _ hk]
        exact hbase k
      · simp only [desiredIngress]
        exact StrMap.lookup_set_self _ _ _
      · simp only [desiredIngress]
        exact StrMap.lookup_set_self _ _ _
      · unfold compareCanaryIngresses
        simp only [desiredIngress]
        rw [mapPatch_set_of_lookup_eq _ _ _ _ _ (fun j _ => (hbase j).symm),
          mapPatch_same _ _ (StrMap_same_self _)]
        by_cases hv : fmtInt w1 = fmtInt w2
        · simp [hv]
        · simp [hv]
    · cases e1

/-- A witness of claim C18: the two additional annotations are stored under different keys,
the second call visits them in the reverse order, and from weight 25 to weight 50 the patch
sets the weight annotation to `50` and nothing else. -/
theorem canaryIngress_weight_only_any_order_witness :
    (distinctAnnotations.map
      (fun p => prefixedKey (configVisiting distinctAnnotations).AnnotationPrefix p.1)).Nodup ∧
    ∃ d2, canaryIngress (configVisiting distinctAnnotations.reverse) sampleStableIngress 50 =
        Desired.ok d2 ∧
      compareCanaryIngresses
          (desiredIngress (configVisiting distinctAnnotations) sampleStableIngress 25) d2 =
        Except.ok
          ({ Annotations := [("nginx.ingress.kubernetes.io/canary-weight", some "50")],
             Labels := [], Spec := none }, true) := by
  have hkeys : (distinctAnnotations.map
      (fun p => prefixedKey (configVisiting distinctAnnotations).AnnotationPrefix p.1)).Nodup := by
    decide
  obtain ⟨d2, h2, -, -, -, -, -, -, -, hp⟩ := canaryIngress_weight_only_any_order
    (configVisiting distinctAnnotations) distinctAnnotations.reverse sampleStableIngress 25 50
    (desiredIngress (configVisiting distinctAnnotations) sampleStableIngress 25)
    (List.reverse_perm _) hkeys (by decide)
  refine ⟨hkeys, d2, h2, ?_⟩
  rw [hp]
  rfl

end Rollouts.Nginx

/-! ## SMI traffic router: ownership -/

namespace Rollouts.SMI

/-- Claim C19, at a failing input.  The traffic split exists and is controlled by another
rollout (or has no owner at all) and `Get` succeeds; `Reconcile` issues neither a Patch nor a
Create, but it returns the error of `Get`, which is nil: the caller is told of no
violation. -/
theorem reconcile_silent_on_foreign_split :
    GetControllerOf (splitOwnedBy [foreignOwner]).Meta = some foreignOwner ∧
    foreignOwner.UID ≠ sampleConfig.RolloutUID ∧
    Reconcile sampleMustParse sampleConfig (clientWith (splitOwnedBy [foreignOwner])) 50 =
      { calls := [Call.get "web-split"], outcome := Outcome.returned none } ∧
    GetControllerOf (splitOwnedBy []).Meta = none ∧
    Reconcile sampleMustParse sampleConfig (clientWith (splitOwnedBy [])) 50 =
      { calls := [Call.get "web-split"], outcome := Outcome.returned none } := by
  refine ⟨by decide, by decide, by decide, by decide, by decide⟩

end Rollouts.SMI

/-! ## Spec validation: pauses, blue-green fields and the whole spec -/

namespace Rollouts.Validation

/-- The errors of the blue-green validator, listed by origin. -/
theorem mem_ValidateRolloutStrategyBlueGreen (D : Defaults) (rollout : Rollout)
    (fldPath : Path) (blueGreen : BlueGreenStrategy)
    (hb : rollout.Spec.Strategy.BlueGreen = some blueGreen) :
    ∃ errs, ValidateRolloutStrategyBlueGreen D rollout fldPath = some errs ∧
      ∀ e, e ∈ errs ↔
        (blueGreen.ActiveService = blueGreen.PreviewService ∧
          e = Duplicate (Path.Child fldPath "previewService")
            (BadValue.text DuplicatedServicesMessage)) ∨
        (∃ limit, blueGreen.ScaleDownDelayRevisionLimit = some limit ∧
          GetRevisionHistoryLimitOrDefault D rollout < limit ∧
          e = Invalid (Path.Child fldPath "scaleDownDelayRevisionLimit")
            (BadValue.int32Ptr blueGreen.ScaleDownDelayRevisionLimit)
            ScaleDownLimitLargerThanRevisionLimit) ∨
        e ∈ validateAntiAffinity fldPath blueGreen.AntiAffinity "BlueGreen" := by
  refine ⟨_, by simp [ValidateRolloutStrategyBlueGreen, hb]; rfl, ?_⟩
  intro e
  simp only [List.mem_append]
  constructor
  · rintro (h | h | h)
    · split at h
      · rename_i heq
        simp at h
        exact Or.inl ⟨by simpa using heq, h⟩
      · simp at h
    · cases hl : blueGreen.ScaleDownDelayRevisionLimit with
      | none => simp [hl] at h
      | some limit =>
        simp only [hl] at h
        split at h
        · simp at h
          exact Or.inr (Or.inl ⟨limit, rfl, ‹_›, h⟩)
        · simp at h
    · exact Or.inr (Or.inr h)
  · rintro (⟨h, he⟩ | ⟨limit, hl, hlt, he⟩ | h)
    · left; simp [h, he]
    · right; left; simp [hl, hlt, he]
    · right; right; exact h

/-- No anti-affinity message of the blue-green validator is the scale-down limit message. -/
theorem antiAffinity_detail_ne_limit (x : AntiAffinity) :
    invalidAntiAffinity x "BlueGreen" ≠ ScaleDownLimitLargerThanRevisionLimit := by
  unfold invalidAntiAffinity
  split
  · decide
  · split <;> decide

/-- The strategy validator always returns. -/
theorem ValidateRolloutStrategy_returns (D : Defaults) (rollout : Rollout) (fldPath : Path) :
    ∃ errs, ValidateRolloutStrategy D rollout fldPath = some errs := by
  unfold ValidateRolloutStrategy ValidateRolloutStrategyBlueGreen ValidateRolloutStrategyCanary
  cases hb : rollout.Spec.Strategy.BlueGreen <;> cases hc : rollout.Spec.Strategy.Canary <;>
    simp [hb, hc]

/-- The spec validator panics exactly when the replicas are unset and the selector
converts. -/
theorem ValidateRolloutSpec_panics_iff (L : Lib) (D : Defaults) (rollout : Rollout)
    (fldPath : Path) :
    ValidateRolloutSpec L D rollout fldPath = none ↔
      rollout.Spec.Replicas = none ∧
        ∃ selector, LabelSelectorAsSelector L rollout.Spec.Selector = Except.ok selector := by
  obtain ⟨serrs, hs⟩ := ValidateRolloutStrategy_returns D rollout (Path.Child fldPath "strategy")
  unfold ValidateRolloutSpec validateTemplate
  simp only [hs]
  cases hsel : LabelSelectorAsSelector L rollout.Spec.Selector with
  | error e => simp
  | ok selector =>
    cases hr : rollout.Spec.Replicas with
    | none => simp
    | some n => simp

/-- Every error of the strategy validator sits strictly below the path it was given. -/
theorem ValidateRolloutStrategy_below (D : Defaults) (rollout : Rollout) (p : Path)
    (errs : List FieldError) (h : ValidateRolloutStrategy D rollout p = some errs)
    (e : FieldError) (he : e ∈ errs) :
    ∃ x rest, e.Field = p ++ x :: rest := by
  unfold ValidateRolloutStrategy at h
  cases hb : rollout.Spec.Strategy.BlueGreen with
  | none =>
    cases hc : rollout.Spec.Strategy.Canary with
    | none =>
      simp [hb, hc] at h; subst h; simp at he; subst he
      exact ⟨_, [], rfl⟩
    | some canary =>
      simp [hb, hc] at h
      obtain ⟨errs2, h2, hmem⟩ := mem_ValidateRolloutStrategyCanary D rollout p canary hc
      rw [h2] at h; cases h
      rcases (hmem e).1 he with ⟨-, h⟩ | ⟨j, step, -, h⟩ | h
      · subst h; exact ⟨_, [], rfl⟩
      · rcases (mem_validateStep _ _ _).1 h with ⟨h, -⟩ | ⟨w, -, -, h⟩ | ⟨ps, -, -, h⟩ <;>
          subst h <;> simp [Invalid, Path.Child, Path.Index]
      · rw [(mem_validateAntiAffinity _ _ _ _ h).1]; exact ⟨_, [], rfl⟩
  | some blueGreen =>
    cases hc : rollout.Spec.Strategy.Canary with
    | some canary =>
      simp [hb, hc] at h; subst h; simp at he; subst he
      exact ⟨_, [], rfl⟩
    | none =>
      simp [hb, hc] at h
      obtain ⟨errs2, h2, hmem⟩ := mem_ValidateRolloutStrategyBlueGreen D rollout p blueGreen hb
      rw [h2] at h; cases h
      rcases (hmem e).1 he with ⟨-, h⟩ | ⟨limit, -, -, h⟩ | h
      · subst h; exact ⟨_, [], rfl⟩
      · subst h; exact ⟨_, [], rfl⟩
      · rw [(mem_validateAntiAffinity _ _ _ _ h).1]; exact ⟨_, [], rfl⟩

/-- When the replicas are set the spec validator returns, and it reports the deadline error
exactly when the effective progressDeadlineSeconds is at most minReadySeconds. -/
theorem progressDeadline_error_iff_of_replicas (L : Lib) (D : Defaults) (rollout : Rollout)
    (fldPath : Path) (n : Int) (hr : rollout.Spec.Replicas = some n) :
    ∃ errs, ValidateRolloutSpec L D rollout fldPath = some errs ∧
      ((∃ e ∈ errs, e.Field = Path.Child fldPath "progressDeadlineSeconds"
          ∧ e.Detail = "must be greater than minReadySeconds") ↔
        GetProgressDeadlineSecondsOrDefault D rollout ≤ rollout.Spec.MinReadySeconds) := by
  obtain ⟨serrs, hs⟩ := ValidateRolloutStrategy_returns D rollout (Path.Child fldPath "strategy")
  have hbelow := ValidateRolloutStrategy_below D rollout _ serrs hs
  have hval : ∃ terrs, validateTemplate L rollout.Spec fldPath = some terrs ∧
      ∀ e ∈ terrs, e.Field ≠ Path.Child fldPath "progressDeadlineSeconds" := by
    unfold validateTemplate
    cases hsel : LabelSelectorAsSelector L rollout.Spec.Selector with
    | error err =>
      refine ⟨_, rfl, ?_⟩
      intro e he
      simp at he; subst he
      simp [Invalid, Path.Child]
    | ok selector =>
      simp only [hr]
      refine ⟨_, rfl, ?_⟩
      intro e he
      simp only [List.mem_append] at he
      rcases he with (he | he) | he
      · split at he
        · simp at he; subst he; simp [InternalError, Path.Child]
        · simp at he
      · split at he
        · simp at he; subst he; simp [InternalError, Path.Child]
        · simp at he
      · simp [under] at he
        obtain ⟨e2, -, rfl⟩ := he
        simp [Path.Child]
  obtain ⟨terrs, ht, htne⟩ := hval
  refine ⟨validateReplicas rollout.Spec fldPath ++ validateSelector L rollout.Spec fldPath
    ++ terrs ++ validateDeadlines D rollout fldPath ++ serrs,
    by simp [ValidateRolloutSpec, ht, hs], ?_⟩
  constructor
  · rintro ⟨e, he, hf, hd⟩
    simp only [List.mem_append] at he
    rcases he with (((he | he) | he) | he) | he
    · unfold validateReplicas at he
      rw [hr] at he
      simp only [ValidateNonnegativeField] at he
      split at he
      · simp at he; subst he; simp [Invalid, Path.Child] at hf
      · simp at he
    · unfold validateSelector at he
      cases hsel : rollout.Spec.Selector with
      | none =>
        simp [hsel] at he; subst he; simp [Required, Path.Child] at hf
      | some sel =>
        simp only [hsel, List.mem_append] at he
        rcases he with he | he
        · simp [under] at he
          obtain ⟨e2, -, rfl⟩ := he
          simp [Path.Child] at hf
        · split at he
          · simp at he; subst he; simp [Invalid, Path.Child] at hf
          · simp at he
    · exact absurd hf (htne e he)
    · unfold validateDeadlines at he
      simp only [List.mem_append, ValidateNonnegativeField] at he
      rcases he with (he | he) | (he | he)
      · split at he
        · simp at he; subst he; simp [Invalid, Path.Child] at hf
        · simp at he
      · cases hl : rollout.Spec.RevisionHistoryLimit with
        | none => simp [hl] at he
        | some limit =>
          simp only [hl] at he
          split at he
          · simp at he; subst he; simp [Invalid, Path.Child] at hf
          · simp at he
      · split at he
        · simp at he; subst he
          exact absurd hd (by simp only [Invalid, IsNegativeErrorMsg]; decide)
        · simp at he
      · split at he
        · assumption
        · simp at he
    · obtain ⟨x, rest, hx⟩ := hbelow e he
      rw [hx] at hf
      simp [Path.Child] at hf
  · intro hle
    refine ⟨Invalid (Path.Child fldPath "progressDeadlineSeconds")
      (BadValue.int (GetProgressDeadlineSecondsOrDefault D rollout))
      "must be greater than minReadySeconds", ?_, rfl, rfl⟩
    simp only [List.mem_append]
    left; right
    unfold validateDeadlines
    simp only [List.mem_append]
    right; right
    rw [if_pos hle]
    simp

/-- Claim C11.  For a canary step with a pause, `ValidateRolloutStrategyCanary` reports an
error with `InvalidDurationMessage` on the pause duration of that step if and only if the
duration of the pause in seconds is negative; a duration of 0 and an omitted duration are
accepted. -/
theorem pause_duration_error_iff (D : Defaults) (rollout : Rollout) (fldPath : Path)
    (canary : CanaryStrategy) (i : Nat) (step : CanaryStep) (pause : RolloutPause)
    (hc : rollout.Spec.Strategy.Canary = some canary)
    (hi : canary.Steps[i]? = some step)
    (hp : step.Pause = some pause) :
    (∃ errs, ValidateRolloutStrategyCanary D rollout fldPath = some errs ∧
      ((∃ e ∈ errs,
          e.Field = Path.Child (Path.Child (Path.Index (Path.Child fldPath "steps") i) "pause")
            "duration"
          ∧ e.Detail = InvalidDurationMessage) ↔ DurationSeconds pause < 0)) ∧
    (pause.Duration = some 0 ∨ pause.Duration = none → ¬ DurationSeconds pause < 0) := by
  refine ⟨?_, ?_⟩
  · obtain ⟨errs, herrs, hmem⟩ := mem_ValidateRolloutStrategyCanary D rollout fldPath canary hc
    refine ⟨errs, herrs, ?_⟩
    constructor
    · rintro ⟨e, he, hf, -⟩
      rcases (hmem e).1 he with ⟨-, h⟩ | ⟨j, step2, hj, h⟩ | h
      · subst h
        simp [Invalid, Path.Child, Path.Index] at hf
      · rcases (mem_validateStep _ _ _).1 h with ⟨h, hne⟩ | ⟨w2, hw2, hbad, h⟩ | ⟨p, hp2, hbad, h⟩
        · subst h
          simp [Invalid, Path.Child, Path.Index] at hf
        · subst h
          simp [Invalid, Path.Child, Path.Index] at hf
        · subst h
          simp [Invalid, Path.Child, Path.Index] at hf
          subst hf
          rw [hi] at hj
          cases hj
          rw [hp] at hp2
          cases hp2
          exact hbad
      · have := (mem_validateAntiAffinity _ _ _ _ h).1
        rw [this] at hf
        simp [Path.Child, Path.Index] at hf
    · intro hbad
      refine ⟨Invalid (Path.Child (Path.Child (Path.Index (Path.Child fldPath "steps") i)
        "pause") "duration") (BadValue.int32Ptr pause.Duration) InvalidDurationMessage,
        ?_, rfl, rfl⟩
      exact (hmem _).2 (Or.inr (Or.inl ⟨i, step, hi,
        (mem_validateStep _ _ _).2 (Or.inr (Or.inr ⟨pause, hp, hbad, rfl⟩))⟩))
  · rintro (h | h) <;> simp [DurationSeconds, h]

/-- Witness of C11: a pause of -5 seconds at step 0 is reported at
`steps[0].pause.duration`. -/
theorem pause_duration_error_iff_witness :
    ∃ errs, ValidateRolloutStrategyCanary sampleDefaults
        (canaryRollout none none [ { Pause := some { Duration := some (-5) } } ])
        (NewPath "spec") = some errs ∧
      ∃ e ∈ errs,
        e.Field = Path.Child (Path.Child (Path.Index (Path.Child (NewPath "spec") "steps") 0)
          "pause") "duration"
        ∧ e.Detail = InvalidDurationMessage := by
  obtain ⟨errs, h, hiff⟩ := (pause_duration_error_iff sampleDefaults
    (canaryRollout none none [ { Pause := some { Duration := some (-5) } } ]) (NewPath "spec")
    { Steps := [ { Pause := some { Duration := some (-5) } } ] } 0
    { Pause := some { Duration := some (-5) } } { Duration := some (-5) } rfl rfl rfl).1
  exact ⟨errs, h, hiff.2 (by decide)⟩

/-- Claim C12, at a failing input.  On a rollout whose `spec.replicas` is unset and whose
selector is valid (or missing) `ValidateRolloutSpec` does not return an error list: it
panics on `*spec.Replicas`; with the replicas set the same rollout validates. -/
theorem ValidateRolloutSpec_panics_unset_replicas (L : Lib) (D : Defaults) (fldPath : Path) :
    (∀ spec : RolloutSpec, spec.Replicas = none → spec.Selector = none →
      ValidateRolloutSpec L D { Spec := spec } fldPath = none) ∧
    (specRollout none 0 none).Spec.Replicas = none ∧
    ValidateRolloutSpec sampleLib sampleDefaults (specRollout none 0 none) (NewPath "spec")
      = none ∧
    ValidateRolloutSpec sampleLib sampleDefaults (specRollout (some 3) 0 none) (NewPath "spec")
      = some [] := by
  refine ⟨?_, rfl, by decide, by decide⟩
  intro spec hr hs
  rw [ValidateRolloutSpec_panics_iff]
  exact ⟨hr, Selector.nothing, by simp [LabelSelectorAsSelector, hs]⟩

/-- Claim C13.  `ValidateRolloutStrategyBlueGreen` reports a Duplicate error on
`previewService`, carrying `DuplicatedServicesMessage`, if and only if the name of the active
service equals the name of the preview service. -/
theorem duplicate_service_error_iff (D : Defaults) (rollout : Rollout) (fldPath : Path)
    (blueGreen : BlueGreenStrategy)
    (hb : rollout.Spec.Strategy.BlueGreen = some blueGreen) :
    ∃ errs, ValidateRolloutStrategyBlueGreen D rollout fldPath = some errs ∧
      ((∃ e ∈ errs, e.ErrType = ErrorType.Duplicate
          ∧ e.Field = Path.Child fldPath "previewService"
          ∧ e.BadValue = BadValue.text DuplicatedServicesMessage) ↔
        blueGreen.ActiveService = blueGreen.PreviewService) := by
  obtain ⟨errs, herrs, hmem⟩ := mem_ValidateRolloutStrategyBlueGreen D rollout fldPath blueGreen hb
  refine ⟨errs, herrs, ?_⟩
  constructor
  · rintro ⟨e, he, ht, hf, -⟩
    rcases (hmem e).1 he with ⟨h, -⟩ | ⟨limit, -, -, h⟩ | h
    · exact h
    · subst h; simp [Invalid] at ht
    · have := (mem_validateAntiAffinity _ _ _ _ h).1
      rw [this] at hf
      simp [Path.Child] at hf
  · intro h
    exact ⟨_, (hmem _).2 (Or.inl ⟨h, rfl⟩), rfl, rfl, rfl⟩

/-- Witness of C13: a rollout that names `active` for both services gets the Duplicate
error. -/
theorem duplicate_service_error_iff_witness :
    ∃ errs, ValidateRolloutStrategyBlueGreen sampleDefaults
        (servicesRollout "active" "active" none none) (NewPath "spec") = some errs ∧
      ∃ e ∈ errs, e.ErrType = ErrorType.Duplicate
        ∧ e.Field = Path.Child (NewPath "spec") "previewService"
        ∧ e.BadValue = BadValue.text DuplicatedServicesMessage := by
  obtain ⟨errs, h, hiff⟩ := duplicate_service_error_iff sampleDefaults
    (servicesRollout "active" "active" none none) (NewPath "spec")
    { ActiveService := "active", PreviewService := "active" } rfl
  exact ⟨errs, h, hiff.2 rfl⟩

/-- Claim C14.  `ValidateRolloutStrategyBlueGreen` reports the error
`ScaleDownLimitLargerThanRevisionLimit` if and only if scaleDownDelayRevisionLimit is set and
strictly greater than the effective revisionHistoryLimit (the value of the rollout, or the
default when unset); equal values and an unset limit are accepted. -/
theorem scaleDownLimit_error_iff (D : Defaults) (rollout : Rollout) (fldPath : Path)
    (blueGreen : BlueGreenStrategy)
    (hb : rollout.Spec.Strategy.BlueGreen = some blueGreen) :
    ∃ errs, ValidateRolloutStrategyBlueGreen D rollout fldPath = some errs ∧
      ((∃ e ∈ errs, e.Detail = ScaleDownLimitLargerThanRevisionLimit) ↔
        ∃ limit, blueGreen.ScaleDownDelayRevisionLimit = some limit ∧
          GetRevisionHistoryLimitOrDefault D rollout < limit) := by
  obtain ⟨errs, herrs, hmem⟩ := mem_ValidateRolloutStrategyBlueGreen D rollout fldPath blueGreen hb
  refine ⟨errs, herrs, ?_⟩
  constructor
  · rintro ⟨e, he, hd⟩
    rcases (hmem e).1 he with ⟨-, h⟩ | ⟨limit, hl, hlt, -⟩ | h
    · subst h
      exact absurd hd (by simp only [Duplicate]; decide)
    · exact ⟨limit, hl, hlt⟩
    · obtain ⟨-, x, -, hx⟩ := mem_validateAntiAffinity _ _ _ _ h
      rw [hx] at hd
      exact absurd hd (antiAffinity_detail_ne_limit x)
  · rintro ⟨limit, hl, hlt⟩
    exact ⟨_, (hmem _).2 (Or.inr (Or.inl ⟨limit, hl, hlt, rfl⟩)), rfl⟩

/-- Witness of C14: with the default history limit 10, a scale-down limit of 11 is
reported and a scale-down limit of 10 is not. -/
theorem scaleDownLimit_error_iff_witness :
    (∃ errs, ValidateRolloutStrategyBlueGreen sampleDefaults
        (servicesRollout "active" "preview" none (some 11)) (NewPath "spec") = some errs ∧
      ∃ e ∈ errs, e.Detail = ScaleDownLimitLargerThanRevisionLimit) ∧
    (∃ errs, ValidateRolloutStrategyBlueGreen sampleDefaults
        (servicesRollout "active" "preview" none (some 10)) (NewPath "spec") = some errs ∧
      ¬ ∃ e ∈ errs, e.Detail = ScaleDownLimitLargerThanRevisionLimit) := by
  obtain ⟨errs1, h1, hiff1⟩ := scaleDownLimit_error_iff sampleDefaults
    (servicesRollout "active" "preview" none (some 11)) (NewPath "spec")
    { ActiveService := "active", PreviewService := "preview",
      ScaleDownDelayRevisionLimit := some 11 } rfl
  obtain ⟨errs2, h2, hiff2⟩ := scaleDownLimit_error_iff sampleDefaults
    (servicesRollout "active" "preview" none (some 10)) (NewPath "spec")
    { ActiveService := "active", PreviewService := "preview",
      ScaleDownDelayRevisionLimit := some 10 } rfl
  refine ⟨⟨errs1, h1, hiff1.2 ⟨11, rfl, by decide⟩⟩, ⟨errs2, h2, ?_⟩⟩
  intro h
  obtain ⟨limit, hl, hlt⟩ := hiff2.1 h
  cases hl
  revert hlt
  decide

/-- Claim C15, at a failing input.  The rollout has progressDeadlineSeconds 10 and
minReadySeconds 10, a valid selector and no replicas; `ValidateRolloutSpec` reports no
deadline error: it panics on `*spec.Replicas` before it returns.  With the replicas set the
same rollout gets the error. -/
theorem short_deadline_unreported :
    GetProgressDeadlineSecondsOrDefault sampleDefaults (specRollout none 10 (some 10))
      ≤ (specRollout none 10 (some 10)).Spec.MinReadySeconds ∧
    ValidateRolloutSpec sampleLib sampleDefaults (specRollout none 10 (some 10))
      (NewPath "spec") = none ∧
    ValidateRolloutSpec sampleLib sampleDefaults (specRollout (some 3) 10 (some 10))
      (NewPath "spec") =
      some [Invalid (Path.Child (NewPath "spec") "progressDeadlineSeconds") (BadValue.int 10)
        "must be greater than minReadySeconds"] := by
  refine ⟨by decide, by decide, by decide⟩

end Rollouts.Validation

/-! ## Pod restarts: the order of the ReplicaSets -/

namespace Rollouts.Restart

/-- On two ReplicaSets with distinct names the body of `Less` is the stated order. -/
theorem lessRS_iff (s : SortReplicaSetsByPriority) (a b : ReplicaSet)
    (hne : a.Name ≠ b.Name) :
    lessRS s a b = true ↔ ranksBefore s a b := by
  unfold lessRS ranksBefore priorityRank
  have hs : ¬((a.Name == s.stableRS) = true ∧ (b.Name == s.stableRS) = true) := by
    rintro ⟨h1, h2⟩
    exact hne ((eq_of_beq h1).trans (eq_of_beq h2).symm)
  have hn : ¬((a.Name == s.newRS) = true ∧ (b.Name == s.newRS) = true) := by
    rintro ⟨h1, h2⟩
    exact hne ((eq_of_beq h1).trans (eq_of_beq h2).symm)
  revert hs hn
  generalize (a.Name == s.stableRS) = x1
  generalize (b.Name == s.stableRS) = x2
  generalize (a.Name == s.newRS) = x3
  generalize (b.Name == s.newRS) = x4
  cases x1 <;> cases x2 <;> cases x3 <;> cases x4 <;> simp

/-- On two valid indices of ReplicaSets with distinct names `Less` returns, and returns true
exactly in the stated order. -/
theorem Less_iff (s : SortReplicaSetsByPriority) (i j : Nat) (a b : ReplicaSet)
    (hi : s.allRSs[i]? = some a) (hj : s.allRSs[j]? = some b) (hne : a.Name ≠ b.Name) :
    (SortReplicaSetsByPriority.Less s i j = some true ↔ ranksBefore s a b) ∧
    (SortReplicaSetsByPriority.Less s i j = some true ∨
      SortReplicaSetsByPriority.Less s i j = some false) := by
  unfold SortReplicaSetsByPriority.Less
  simp only [hi, hj]
  constructor
  · rw [← lessRS_iff s a b hne]; simp
  · cases lessRS s a b <;> simp

/-- In a sorted output with distinct names, an earlier element ranks no later. -/
theorem sorted_order (s : SortReplicaSetsByPriority) (out : List ReplicaSet)
    (hnodup : (s.allRSs.map (fun rs => rs.Name)).Nodup) (hsort : IsSortOutput s out) :
    out.Pairwise (fun a b =>
      priorityRank s a < priorityRank s b ∨
        (priorityRank s a = 2 ∧ priorityRank s b = 2
          ∧ a.CreationTimestamp ≤ b.CreationTimestamp)) := by
  obtain ⟨hperm, hpw⟩ := hsort
  have hnd : (out.map (fun rs => rs.Name)).Nodup :=
    (List.Perm.nodup_iff (hperm.map _)).2 hnodup
  have hnames : out.Pairwise (fun a b => a.Name ≠ b.Name) := List.pairwise_map.1 hnd
  have hboth := hpw.and hnames
  refine hboth.imp ?_
  rintro a b ⟨hl, hne⟩
  have hnot : ¬ ranksBefore s b a := by
    rw [← lessRS_iff s b a (fun h => hne h.symm)]
    simp [hl]
  unfold ranksBefore at hnot
  unfold priorityRank at hnot ⊢
  have hs : ¬((a.Name == s.stableRS) = true ∧ (b.Name == s.stableRS) = true) := by
    rintro ⟨h1, h2⟩
    exact hne ((eq_of_beq h1).trans (eq_of_beq h2).symm)
  have hn : ¬((a.Name == s.newRS) = true ∧ (b.Name == s.newRS) = true) := by
    rintro ⟨h1, h2⟩
    exact hne ((eq_of_beq h1).trans (eq_of_beq h2).symm)
  revert hs hn hnot
  generalize (a.Name == s.stableRS) = x1
  generalize (b.Name == s.stableRS) = x2
  generalize (a.Name == s.newRS) = x3
  generalize (b.Name == s.newRS) = x4
  cases x1 <;> cases x2 <;> cases x3 <;> cases x4 <;> simp

/-- In a sorted output with distinct names the stable ReplicaSet, when present, is first. -/
theorem stable_first (s : SortReplicaSetsByPriority) (out : List ReplicaSet)
    (hnodup : (s.allRSs.map (fun rs => rs.Name)).Nodup) (hsort : IsSortOutput s out)
    (rs : ReplicaSet) (hrs : rs ∈ out) (hname : rs.Name = s.stableRS) :
    out.head? = some rs := by
  have hpw := sorted_order s out hnodup hsort
  cases out with
  | nil => cases hrs
  | cons x rest =>
    rcases List.mem_cons.1 hrs with h | h
    · rw [h]; rfl
    · have := (List.pairwise_cons.1 hpw).1 rs h
      have hr : priorityRank s rs = 0 := by simp [priorityRank, hname]
      rw [hr] at this
      omega

/-- Claim C20.  For two ReplicaSets with distinct names `Less(i, j)` holds exactly when `i`
ranks before `j` in the order: stable ReplicaSet first, new ReplicaSet second, all others by
strictly earlier creation timestamp.  Consequently a sorted rearrangement of ReplicaSets with
distinct names has the stable ReplicaSet (if present) first, then the new one, then the
others oldest first. -/
theorem Less_is_priority_order (s : SortReplicaSetsByPriority) :
    (∀ (i j : Nat) (a b : ReplicaSet), s.allRSs[i]? = some a → s.allRSs[j]? = some b →
      a.Name ≠ b.Name →
      (SortReplicaSetsByPriority.Less s i j = some true ↔ ranksBefore s a b) ∧
      (SortReplicaSetsByPriority.Less s i j = some true ∨
        SortReplicaSetsByPriority.Less s i j = some false)) ∧
    (∀ out : List ReplicaSet, (s.allRSs.map (fun rs => rs.Name)).Nodup → IsSortOutput s out →
      out.Pairwise (fun a b =>
        priorityRank s a < priorityRank s b ∨
          (priorityRank s a = 2 ∧ priorityRank s b = 2
            ∧ a.CreationTimestamp ≤ b.CreationTimestamp)) ∧
      (∀ rs ∈ out, rs.Name = s.stableRS → out.head? = some rs)) :=
  ⟨fun i j a b hi hj hne => Less_iff s i j a b hi hj hne,
   fun out hnodup hsort =>
    ⟨sorted_order s out hnodup hsort, fun rs hrs hname => stable_first s out hnodup hsort rs hrs hname⟩⟩

/-- Witness of C20: in the sample the stable ReplicaSet (index 2) is `Less` than the old one
(index 0), and the order stable, new, old is a sorted rearrangement with the stable
ReplicaSet first. -/
theorem Less_is_priority_order_witness :
    SortReplicaSetsByPriority.Less sampleSorter 2 0 = some true ∧
    IsSortOutput sampleSorter sampleSorted ∧
    sampleSorted.head? = some { Name := "web-stable", CreationTimestamp := 20 } := by
  have h := Less_is_priority_order sampleSorter
  have hout : IsSortOutput sampleSorter sampleSorted := by
    refine ⟨?_, by decide⟩
    decide
  refine ⟨?_, hout, ?_⟩
  · exact ((h.1 2 0 { Name := "web-stable", CreationTimestamp := 20 }
      { Name := "web-old", CreationTimestamp := 5 } rfl rfl (by decide)).1).2
      (Or.inl (by decide))
  · exact (h.2 sampleSorted (by decide) hout).2 _ (by decide) rfl

end Rollouts.Restart

/-! ## Default getters and the selectors of the blue-green status -/

namespace Rollouts

/-- Claim C24.  Each default getter returns the value of the rollout when it is set and its
default constant when it is unset: the replicas, the revision history limit, and the surge
and the unavailable bound of the canary strategy, whose defaults are the integers
`DefaultMaxSurge` and `DefaultMaxUnavailable`; a rollout without a canary strategy counts as
unset. -/
theorem default_getters (D : Defaults) (rollout : Rollout) :
    (∀ n, rollout.Spec.Replicas = some n → GetRolloutReplicasOrDefault D rollout = n) ∧
    (rollout.Spec.Replicas = none →
      GetRolloutReplicasOrDefault D rollout = D.DefaultReplicas) ∧
    (∀ n, rollout.Spec.RevisionHistoryLimit = some n →
      GetRevisionHistoryLimitOrDefault D rollout = n) ∧
    (rollout.Spec.RevisionHistoryLimit = none →
      GetRevisionHistoryLimitOrDefault D rollout = D.DefaultRevisionHistoryLimit) ∧
    (∀ canary v, rollout.Spec.Strategy.Canary = some canary → canary.MaxSurge = some v →
      GetMaxSurgeOrDefault D rollout = v) ∧
    ((∀ canary, rollout.Spec.Strategy.Canary = some canary → canary.MaxSurge = none) →
      GetMaxSurgeOrDefault D rollout = IntOrString.int D.DefaultMaxSurge) ∧
    (∀ canary v, rollout.Spec.Strategy.Canary = some canary → canary.MaxUnavailable = some v →
      GetMaxUnavailableOrDefault D rollout = v) ∧
    ((∀ canary, rollout.Spec.Strategy.Canary = some canary → canary.MaxUnavailable = none) →
      GetMaxUnavailableOrDefault D rollout = IntOrString.int D.DefaultMaxUnavailable) := by
  refine ⟨?_, ?_, ?_, ?_, ?_, ?_, ?_, ?_⟩
  · intro n h
    simp only [GetRolloutReplicasOrDefault, h]
  · intro h
    simp only [GetRolloutReplicasOrDefault, h]
  · intro n h
    simp only [GetRevisionHistoryLimitOrDefault, h]
  · intro h
    simp only [GetRevisionHistoryLimitOrDefault, h]
  · intro canary v hc hv
    simp only [GetMaxSurgeOrDefault, hc, hv]
  · intro h
    simp only [GetMaxSurgeOrDefault]
    cases hc : rollout.Spec.Strategy.Canary with
    | none => rfl
    | some canary => simp only [h canary hc]
  · intro canary v hc hv
    simp only [GetMaxUnavailableOrDefault, hc, hv]
  · intro h
    simp only [GetMaxUnavailableOrDefault]
    cases hc : rollout.Spec.Strategy.Canary with
    | none => rfl
    | some canary => simp only [h canary hc]

end Rollouts

namespace Rollouts.BlueGreen

/-- The selector label that `syncRolloutStatusBlueGreen` and `scaleBlueGreen` keep of a
service is the pod-hash label value of its selector, or the empty string. -/
theorem getRolloutSelectorLabel_hash (svc : Option Service) :
    (getRolloutSelectorLabel svc).1 = selectorHash svc ∧
    (if !(getRolloutSelectorLabel svc).2 then "" else (getRolloutSelectorLabel svc).1) =
      selectorHash svc := by
  cases svc with
  | none => exact ⟨rfl, rfl⟩
  | some s =>
    simp only [getRolloutSelectorLabel, selectorHash]
    cases StrMap.get? s.Selector DefaultRolloutUniqueLabelKey with
    | none => exact ⟨rfl, rfl⟩
    | some v => exact ⟨rfl, rfl⟩

/-- Claim C23.  In the status that `syncRolloutStatusBlueGreen` computes, the active selector
is the pod-hash label value of the selector of the active service and the preview selector
that of the preview service, the empty string when the service has none; both are the same
whatever rollout, and so whatever previous status, the function is given. -/
theorem sync_selectors_from_services (c : Deps) (now : Time) (oldRSs : List ReplicaSet)
    (newRS : ReplicaSet) (previewSvc activeSvc : Option Service) (r : Rollout)
    (addPause : Bool) :
    (syncRolloutStatusBlueGreen c now oldRSs newRS previewSvc activeSvc r
      addPause).newStatus.BlueGreen.ActiveSelector = selectorHash activeSvc ∧
    (syncRolloutStatusBlueGreen c now oldRSs newRS previewSvc activeSvc r
      addPause).newStatus.BlueGreen.PreviewSelector = selectorHash previewSvc ∧
    ∀ r2 : Rollout,
      (syncRolloutStatusBlueGreen c now oldRSs newRS previewSvc activeSvc r2
        addPause).newStatus.BlueGreen.ActiveSelector =
      (syncRolloutStatusBlueGreen c now oldRSs newRS previewSvc activeSvc r
        addPause).newStatus.BlueGreen.ActiveSelector ∧
      (syncRolloutStatusBlueGreen c now oldRSs newRS previewSvc activeSvc r2
        addPause).newStatus.BlueGreen.PreviewSelector =
      (syncRolloutStatusBlueGreen c now oldRSs newRS previewSvc activeSvc r
        addPause).newStatus.BlueGreen.PreviewSelector := by
  have hactive : ∀ r1 : Rollout,
      (syncRolloutStatusBlueGreen c now oldRSs newRS previewSvc activeSvc r1
        addPause).newStatus.BlueGreen.ActiveSelector = selectorHash activeSvc := by
    intro r1
    rw [← (getRolloutSelectorLabel_hash activeSvc).1]
    simp only [syncRolloutStatusBlueGreen]
    split <;> rfl
  have hpreview : ∀ r1 : Rollout,
      (syncRolloutStatusBlueGreen c now oldRSs newRS previewSvc activeSvc r1
        addPause).newStatus.BlueGreen.PreviewSelector = selectorHash previewSvc := by
    intro r1
    rw [← (getRolloutSelectorLabel_hash previewSvc).1]
    simp only [syncRolloutStatusBlueGreen]
    split <;> rfl
  exact ⟨hactive r, hpreview r, fun r2 =>
    ⟨(hactive r2).trans (hactive r).symm, (hpreview r2).trans (hpreview r).symm⟩⟩

end Rollouts.BlueGreen

/-! ## Blue-green scaling -/

namespace Rollouts.BlueGreen

/-- Adding to a wrapped `int32` and wrapping again is wrapping the sum. -/
theorem wrapInt32_add (x y : Int) : wrapInt32 (wrapInt32 x + y) = wrapInt32 (x + y) := by
  unfold wrapInt32
  omega

/-- A value in the range of an `int32` is not changed by wrapping. -/
theorem wrapInt32_of_range (x : Int) (h0 : 0 ≤ x) (h1 : x ≤ 2147483647) : wrapInt32 x = x := by
  unfold wrapInt32
  omega

/-- The loop of `scaleDownOldReplicaSetsForBlueGreen` passes over the ReplicaSets that are
already at 0. -/
theorem scaleDownLoop_filter (c : ScaleDeps) (rollout : Rollout) (l : List ReplicaSet) :
    ∀ t, scaleDownLoop c rollout l t =
      scaleDownLoop c rollout (l.filter (fun rs => rs.Replicas != 0)) t := by
  induction l with
  | nil => intro t; rfl
  | cons rs rest ih =>
    intro t
    by_cases h : rs.Replicas = 0
    · have hf : (rs :: rest).filter (fun rs => rs.Replicas != 0) =
          rest.filter (fun rs => rs.Replicas != 0) := by
        rw [List.filter_cons_of_neg (by simp [h])]
      rw [hf, ← ih t]
      simp only [scaleDownLoop]
      rw [if_pos (by simp [h])]
    · have hf : (rs :: rest).filter (fun rs => rs.Replicas != 0) =
          rs :: rest.filter (fun rs => rs.Replicas != 0) := by
        rw [List.filter_cons_of_pos (by simp [h])]
      have hb : (rs.Replicas == 0) = false := by simp [h]
      rw [hf]
      simp only [scaleDownLoop, hb, Bool.false_eq_true, if_false]
      cases c.scaleReplicaSetAndRecordEvent rs 0 rollout with
      | some err => rfl
      | none => simp only [← ih]

/-- When no scale call fails, the loop scales every ReplicaSet of a list without zeros to 0,
in order, and returns the `int32` sum of their replicas. -/
theorem scaleDownLoop_ok (c : ScaleDeps) (rollout : Rollout) (l : List ReplicaSet) :
    ∀ t : Int, (∀ rs ∈ l, rs.Replicas ≠ 0) →
      (∀ rs ∈ l, c.scaleReplicaSetAndRecordEvent rs 0 rollout = none) →
      scaleDownLoop c rollout l (wrapInt32 t) =
        ⟨l.map (fun rs => ⟨rs, 0⟩),
          wrapInt32 (t + (l.map (fun rs => (rs.Replicas : Int))).sum), none⟩ := by
  induction l with
  | nil => intro t _ _; simp [scaleDownLoop]
  | cons rs rest ih =>
    intro t hnz hok
    have h1 : rs.Replicas ≠ 0 := hnz rs (List.mem_cons_self _ _)
    have h2 : c.scaleReplicaSetAndRecordEvent rs 0 rollout = none :=
      hok rs (List.mem_cons_self _ _)
    simp only [scaleDownLoop]
    rw [if_neg (by simp [h1]), h2]
    simp only [wrapInt32_add]
    rw [ih (t + (rs.Replicas : Int)) (fun x hx => hnz x (List.mem_cons_of_mem _ hx))
      (fun x hx => hok x (List.mem_cons_of_mem _ hx))]
    simp [add_assoc]

/-- When a scale call fails, the loop stops there: it has scaled the ReplicaSets before the
failing one and returns the error with the `int32` sum scaled so far. -/
theorem scaleDownLoop_fails (c : ScaleDeps) (rollout : Rollout) (pre : List ReplicaSet)
    (rs : ReplicaSet) (post : List ReplicaSet) (err : String) :
    ∀ t : Int, (∀ x ∈ pre, x.Replicas ≠ 0) → rs.Replicas ≠ 0 →
      (∀ x ∈ pre, c.scaleReplicaSetAndRecordEvent x 0 rollout = none) →
      c.scaleReplicaSetAndRecordEvent rs 0 rollout = some err →
      scaleDownLoop c rollout (pre ++ rs :: post) (wrapInt32 t) =
        ⟨(pre ++ [rs]).map (fun x => ⟨x, 0⟩),
          wrapInt32 (t + (pre.map (fun x => (x.Replicas : Int))).sum), some err⟩ := by
  induction pre with
  | nil =>
    intro t _ hrs _ herr
    simp only [List.nil_append, scaleDownLoop]
    rw [if_neg (by simp [hrs]), herr]
    simp
  | cons x rest ih =>
    intro t hnz hrs hok herr
    have h1 : x.Replicas ≠ 0 := hnz x (List.mem_cons_self _ _)
    have h2 : c.scaleReplicaSetAndRecordEvent x 0 rollout = none :=
      hok x (List.mem_cons_self _ _)
    rw [List.cons_append]
    simp only [scaleDownLoop]
    rw [if_neg (by simp [h1]), h2]
    simp only [wrapInt32_add]
    rw [ih (t + (x.Replicas : Int)) (fun y hy => hnz y (List.mem_cons_of_mem _ hy)) hrs
      (fun y hy => hok y (List.mem_cons_of_mem _ hy)) herr]
    simp [add_assoc]

/-- An output of the sort by creation timestamp is in the order of the timestamps. -/
theorem sorted_by_creation (input out : List ReplicaSet)
    (hsort : IsSortedByCreationTimestamp input out) :
    out.Pairwise (fun a b => a.CreationTimestamp ≤ b.CreationTimestamp) := by
  refine hsort.2.imp ?_
  intro a b hless
  simp only [creationLess] at hless
  by_cases heq : b.CreationTimestamp = a.CreationTimestamp
  · exact le_of_eq heq.symm
  · rw [if_neg (by simpa using heq)] at hless
    exact not_lt.1 (by simpa using hless)

/-- Claim C25 fails as stated.  Two old ReplicaSets have the largest `int32` as their
`spec.replicas` and no scale call fails: both are scaled to 0, the sum of their replicas is
4294967294, and `scaleDownOldReplicaSetsForBlueGreen` returns -2, the sum wrapped into an
`int32`. -/
theorem scaleDownOldReplicaSetsForBlueGreen_total_wraps :
    scaleDownOldReplicaSetsForBlueGreen (sampleScaleDeps []) Validation.sampleDefaults
        [largestRS "web-a" 10, largestRS "web-b" 20]
        [largestRS "web-a" 10, largestRS "web-b" 20] (blueGreenRollout "" false none) =
      ⟨[⟨largestRS "web-a" 10, 0⟩, ⟨largestRS "web-b" 20, 0⟩], -2, none⟩ ∧
    replicasSum [largestRS "web-a" 10, largestRS "web-b" 20] = 4294967294 := by
  decide

/-- Claim C25, amended. `scaleDownOldReplicaSetsForBlueGreen` returns 0 and nil without a scale
call when the available replicas of all ReplicaSets are at most the desired replicas.
Otherwise it visits the old ReplicaSets whose `spec.replicas` is not zero, and only those,
in the order of their creation timestamps: when no scale call fails it scales each of them
to 0 and returns the `int32` sum of their replicas (the sum itself when it fits an `int32`);
when a scale call fails it returns that error after the calls up to the failing one, with
the sum of the ReplicaSets scaled before it. `sort.Sort` is taken to sort the old
ReplicaSets under `ReplicaSetsByCreationTimestamp`. -/
theorem scaleDownOldReplicaSetsForBlueGreen_spec (c : ScaleDeps) (D : Defaults)
    (allRSs oldRSs : List ReplicaSet) (rollout : Rollout)
    (hsort : IsSortedByCreationTimestamp oldRSs (c.SortByCreationTimestamp oldRSs)) :
    ((GetAvailableReplicaCountForReplicaSets allRSs : Int) ≤
        GetRolloutReplicasOrDefault D rollout →
      scaleDownOldReplicaSetsForBlueGreen c D allRSs oldRSs rollout = ⟨[], 0, none⟩) ∧
    (GetRolloutReplicasOrDefault D rollout <
        (GetAvailableReplicaCountForReplicaSets allRSs : Int) →
      (withReplicas (c.SortByCreationTimestamp oldRSs)).Perm (withReplicas oldRSs) ∧
      (withReplicas (c.SortByCreationTimestamp oldRSs)).Pairwise
        (fun a b => a.CreationTimestamp ≤ b.CreationTimestamp) ∧
      ((∀ rs ∈ withReplicas (c.SortByCreationTimestamp oldRSs),
          c.scaleReplicaSetAndRecordEvent rs 0 rollout = none) →
        scaleDownOldReplicaSetsForBlueGreen c D allRSs oldRSs rollout =
          ⟨scaledToZero (withReplicas (c.SortByCreationTimestamp oldRSs)),
            wrapInt32 (replicasSum (withReplicas (c.SortByCreationTimestamp oldRSs))),
            none⟩ ∧
        (replicasSum (withReplicas (c.SortByCreationTimestamp oldRSs)) ≤ 2147483647 →
          (scaleDownOldReplicaSetsForBlueGreen c D allRSs oldRSs rollout).totalScaledDown =
            replicasSum (withReplicas (c.SortByCreationTimestamp oldRSs)))) ∧
      (∀ pre rs post err,
        withReplicas (c.SortByCreationTimestamp oldRSs) = pre ++ rs :: post →
        (∀ x ∈ pre, c.scaleReplicaSetAndRecordEvent x 0 rollout = none) →
        c.scaleReplicaSetAndRecordEvent rs 0 rollout = some err →
        scaleDownOldReplicaSetsForBlueGreen c D allRSs oldRSs rollout =
          ⟨scaledToZero (pre ++ [rs]), wrapInt32 (replicasSum pre), some err⟩)) := by
  have hnz : ∀ rs ∈ withReplicas (c.SortByCreationTimestamp oldRSs), rs.Replicas ≠ 0 := by
    intro rs hmem
    simpa [withReplicas] using (List.mem_filter.1 hmem).2
  constructor
  · intro hle
    simp only [scaleDownOldReplicaSetsForBlueGreen]
    rw [if_pos hle]
  · intro hlt
    have hrun : scaleDownOldReplicaSetsForBlueGreen c D allRSs oldRSs rollout =
        scaleDownLoop c rollout (withReplicas (c.SortByCreationTimestamp oldRSs))
          (wrapInt32 0) := by
      simp only [scaleDownOldReplicaSetsForBlueGreen]
      rw [if_neg (not_le.2 hlt), scaleDownLoop_filter]
      rfl
    refine ⟨hsort.1.filter _, ?_, ?_, ?_⟩
    · exact (sorted_by_creation oldRSs _ hsort).sublist (List.filter_sublist _)
    · intro hok
      have hrun2 := hrun.trans (scaleDownLoop_ok c rollout _ 0 hnz hok)
      rw [Int.zero_add] at hrun2
      refine ⟨hrun2, ?_⟩
      intro hfit
      rw [hrun2]
      refine wrapInt32_of_range _ ?_ hfit
      exact List.sum_nonneg (by
        intro x hx
        rcases List.mem_map.1 hx with ⟨rs, _, rfl⟩
        exact Int.ofNat_nonneg _)
    · intro pre rs post err hsplit hok herr
      have hpre : ∀ x ∈ pre, x.Replicas ≠ 0 := by
        intro x hx
        exact hnz x (by rw [hsplit]; exact List.mem_append_left _ hx)
      have hrs : rs.Replicas ≠ 0 :=
        hnz rs (by rw [hsplit]; exact List.mem_append_right _ (List.mem_cons_self _ _))
      rw [hrun, hsplit, scaleDownLoop_fails c rollout pre rs post err 0 hpre hrs hok herr,
        Int.zero_add]
      rfl

/-- A witness of claim C25: nine replicas are available for a rollout of three, no scale call
fails, and the old ReplicaSets `web-a` and `web-b` are scaled to 0 in the order of their
age, `web-zero` is left alone and 6 is returned. -/
theorem scaleDownOldReplicaSetsForBlueGreen_spec_witness :
    IsSortedByCreationTimestamp sampleOldRSs
      ((sampleScaleDeps []).SortByCreationTimestamp sampleOldRSs) ∧
    scaleDownOldReplicaSetsForBlueGreen (sampleScaleDeps []) Validation.sampleDefaults
        (sampleNewRS :: sampleOldRSs) sampleOldRSs (blueGreenRollout "" false none) =
      ⟨[⟨adoptedRS "web-a" 10, 0⟩, ⟨adoptedRS "web-b" 20, 0⟩], 6, none⟩ := by
  have hs : IsSortedByCreationTimestamp sampleOldRSs
      ((sampleScaleDeps []).SortByCreationTimestamp sampleOldRSs) :=
    ⟨List.perm_insertionSort _ _, by decide⟩
  have h := scaleDownOldReplicaSetsForBlueGreen_spec (sampleScaleDeps [])
    Validation.sampleDefaults (sampleNewRS :: sampleOldRSs) sampleOldRSs
    (blueGreenRollout "" false none) hs
  exact ⟨hs, ((h.2 (by decide)).2.2.1 (by decide)).1.trans (by decide)⟩

/-- The test of the last loop of `scaleBlueGreen` holds of a ReplicaSet exactly when its
pod-hash label is neither the active nor the preview selector; a missing label is
neither. -/
theorem notSelected_iff (old : ReplicaSet) (activeSelector previewSelector : String) :
    notSelected old activeSelector previewSelector = true ↔
      StrMap.get? old.Labels DefaultRolloutUniqueLabelKey ≠ some activeSelector ∧
      StrMap.get? old.Labels DefaultRolloutUniqueLabelKey ≠ some previewSelector := by
  simp only [notSelected]
  cases StrMap.get? old.Labels DefaultRolloutUniqueLabelKey with
  | none => simp
  | some v => simp

/-- The ReplicaSets that the last loop of `scaleBlueGreen` is to scale down are the old
ReplicaSets with pods that pass its test. -/
theorem unselectedWithPods_eq (oldRSs : List ReplicaSet)
    (activeSelector previewSelector : String) :
    unselectedWithPods oldRSs activeSelector previewSelector =
      (FilterActiveReplicaSets oldRSs).filter
        (fun old => notSelected old activeSelector previewSelector) := by
  simp only [unselectedWithPods, FilterActiveReplicaSets, List.filter_filter]
  apply List.filter_congr
  intro old _
  rw [Bool.eq_iff_iff]
  simp only [Bool.and_eq_true, notSelected_iff, decide_eq_true_eq]
  tauto

/-- The last loop of `scaleBlueGreen` passes over the ReplicaSets that fail its test. -/
theorem scaleDownUnselected_filter (c : ScaleDeps) (rollout : Rollout)
    (activeSelector previewSelector : String) (l : List ReplicaSet) :
    scaleDownUnselected c rollout activeSelector previewSelector l =
      scaleDownUnselected c rollout activeSelector previewSelector
        (l.filter (fun old => notSelected old activeSelector previewSelector)) := by
  induction l with
  | nil => rfl
  | cons old rest ih =>
    cases hb : notSelected old activeSelector previewSelector with
    | false =>
      rw [List.filter_cons_of_neg (by simp [hb]), ← ih]
      simp only [scaleDownUnselected, hb, Bool.false_eq_true, if_false]
    | true =>
      have hf : (old :: rest).filter
            (fun old => notSelected old activeSelector previewSelector) =
          old :: rest.filter (fun old => notSelected old activeSelector previewSelector) := by
        rw [List.filter_cons]
        simp only [hb, if_true]
      rw [hf]
      simp only [scaleDownUnselected, hb, if_true]
      cases c.scaleReplicaSetAndRecordEvent old 0 rollout with
      | some err => rfl
      | none => simp only [← ih]

/-- When no scale call fails, the loop scales every ReplicaSet of a list that passes its test
to 0, in order, and returns nil. -/
theorem scaleDownUnselected_ok (c : ScaleDeps) (rollout : Rollout)
    (activeSelector previewSelector : String) (l : List ReplicaSet)
    (hsel : ∀ rs ∈ l, notSelected rs activeSelector previewSelector = true)
    (hok : ∀ rs ∈ l, c.scaleReplicaSetAndRecordEvent rs 0 rollout = none) :
    scaleDownUnselected c rollout activeSelector previewSelector l =
      ⟨scaledToZero l, none⟩ := by
  induction l with
  | nil => rfl
  | cons old rest ih =>
    simp only [scaleDownUnselected, hsel old (List.mem_cons_self _ _), if_true,
      hok old (List.mem_cons_self _ _)]
    rw [ih (fun x hx => hsel x (List.mem_cons_of_mem _ hx))
      (fun x hx => hok x (List.mem_cons_of_mem _ hx))]
    rfl

/-- When a scale call fails, the loop stops there and returns the error: the ReplicaSets
after the failing one are not scaled. -/
theorem scaleDownUnselected_fails (c : ScaleDeps) (rollout : Rollout)
    (activeSelector previewSelector : String) (pre : List ReplicaSet) (rs : ReplicaSet)
    (post : List ReplicaSet) (err : String)
    (hpre : ∀ x ∈ pre, notSelected x activeSelector previewSelector = true)
    (hrs : notSelected rs activeSelector previewSelector = true)
    (hok : ∀ x ∈ pre, c.scaleReplicaSetAndRecordEvent x 0 rollout = none)
    (herr : c.scaleReplicaSetAndRecordEvent rs 0 rollout = some err) :
    scaleDownUnselected c rollout activeSelector previewSelector (pre ++ rs :: post) =
      ⟨scaledToZero (pre ++ [rs]), some err⟩ := by
  induction pre with
  | nil =>
    rw [List.nil_append]
    simp only [scaleDownUnselected, hrs, if_true, herr]
    rfl
  | cons x rest ih =>
    rw [List.cons_append]
    simp only [scaleDownUnselected, hpre x (List.mem_cons_self _ _), if_true,
      hok x (List.mem_cons_self _ _)]
    rw [ih (fun y hy => hpre y (List.mem_cons_of_mem _ hy))
      (fun y hy => hok y (List.mem_cons_of_mem _ hy))]
    rfl

/-- Every call of the last loop of `scaleBlueGreen` scales to 0 a ReplicaSet of the list that
passes its test. -/
theorem scaleDownUnselected_calls (c : ScaleDeps) (rollout : Rollout)
    (activeSelector previewSelector : String) (l : List ReplicaSet) :
    ∀ k ∈ (scaleDownUnselected c rollout activeSelector previewSelector l).calls,
      k.newScale = 0 ∧ k.rs ∈ l ∧ notSelected k.rs activeSelector previewSelector = true := by
  induction l with
  | nil => intro k hk; simp [scaleDownUnselected] at hk
  | cons old rest ih =>
    intro k hk
    cases hb : notSelected old activeSelector previewSelector with
    | false =>
      simp only [scaleDownUnselected, hb, Bool.false_eq_true, if_false] at hk
      rcases ih k hk with ⟨h1, h2, h3⟩
      exact ⟨h1, List.mem_cons_of_mem _ h2, h3⟩
    | true =>
      simp only [scaleDownUnselected, hb, if_true] at hk
      cases hs : c.scaleReplicaSetAndRecordEvent old 0 rollout with
      | some err =>
        rw [hs] at hk
        rcases List.mem_singleton.1 hk with rfl
        exact ⟨rfl, List.mem_cons_self _ _, hb⟩
      | none =>
        rw [hs] at hk
        rcases List.mem_cons.1 hk with rfl | hk
        · exact ⟨rfl, List.mem_cons_self _ _, hb⟩
        · rcases ih k hk with ⟨h1, h2, h3⟩
          exact ⟨h1, List.mem_cons_of_mem _ h2, h3⟩

/-- The test `needsRescale` gives a ReplicaSet exactly when the pointer is set and its
replicas differ from the count. -/
theorem needsRescale_eq_some (rs : Option ReplicaSet) (rolloutReplicas : Int)
    (r : ReplicaSet) :
    needsRescale rs rolloutReplicas = some r ↔ rs = some r ∧ (r.Replicas : Int) ≠ rolloutReplicas := by
  cases rs with
  | none => simp [needsRescale]
  | some x =>
    simp only [needsRescale]
    by_cases h : (x.Replicas : Int) = rolloutReplicas
    · simp only [h, bne_self_eq_false, Bool.false_eq_true, if_false, Option.some.injEq]
      constructor
      · intro hc; cases hc
      · rintro ⟨rfl, hne⟩; exact absurd h hne
    · have hb : ((x.Replicas : Int) != rolloutReplicas) = true := by simpa using h
      simp only [hb, if_true, Option.some.injEq]
      constructor
      · rintro rfl; exact ⟨rfl, h⟩
      · rintro ⟨rfl, _⟩; rfl

/-- The test `needsRescale` gives nothing exactly when the pointer is nil or the replicas
are the count. -/
theorem needsRescale_eq_none (rs : Option ReplicaSet) (rolloutReplicas : Int) :
    needsRescale rs rolloutReplicas = none ↔
      ∀ r, rs = some r → (r.Replicas : Int) = rolloutReplicas := by
  cases rs with
  | none => simp [needsRescale]
  | some x =>
    simp only [needsRescale]
    by_cases h : (x.Replicas : Int) = rolloutReplicas
    · simp [h]
    · have hb : ((x.Replicas : Int) != rolloutReplicas) = true := by simpa using h
      simp only [hb, if_true]
      constructor
      · intro hc; cases hc
      · intro hall; exact absurd (hall x rfl) h

/-- Claim C26 fails as stated.  Two old ReplicaSets with pods lack the pod-hash label, none
of the new and active ReplicaSets needs rescaling, and the scale call on the first old
ReplicaSet fails: `scaleBlueGreen` returns that error and `web-old2`, although it is to be
scaled down, gets no scale call. -/
theorem scaleBlueGreen_stops_at_failed_scale :
    adoptedRS "web-old2" 20 ∈
      unselectedWithPods [adoptedRS "web-old1" 10, adoptedRS "web-old2" 20]
        (selectorHash (some sampleActiveSvc)) (selectorHash (some samplePreviewSvc)) ∧
    scaleBlueGreen (sampleScaleDeps ["web-old1"]) Validation.sampleDefaults
        (blueGreenRollout "preview" false none) (some sampleNewRS)
        [adoptedRS "web-old1" 10, adoptedRS "web-old2" 20]
        (some samplePreviewSvc) (some sampleActiveSvc) =
      ⟨[⟨adoptedRS "web-old1" 10, 0⟩], some "cannot scale web-old1"⟩ ∧
    (⟨adoptedRS "web-old2" 20, 0⟩ : ScaleCall) ∉
      (scaleBlueGreen (sampleScaleDeps ["web-old1"]) Validation.sampleDefaults
        (blueGreenRollout "preview" false none) (some sampleNewRS)
        [adoptedRS "web-old1" 10, adoptedRS "web-old2" 20]
        (some samplePreviewSvc) (some sampleActiveSvc)).calls := by
  decide

/-- Claim C26, amended.  Either one of the active-or-latest, active and new ReplicaSets has
replicas different from the replica count of the rollout, and `scaleBlueGreen` makes the one
call that rescales it and returns (the loop is not reached); or none of the three needs
rescaling and the loop runs over the old ReplicaSets with pods: every call of the loop scales
to 0 an old ReplicaSet with pods whose pod-hash label is missing or is neither the active nor
the preview selector hash, so one whose label is either hash is never scaled; when no scale
call fails, all of those are scaled to 0, in order; when a scale call fails, the loop stops
there and returns the error, and the ReplicaSets after the failing one are not scaled. -/
theorem scaleBlueGreen_scale_down_loop (c : ScaleDeps) (D : Defaults) (rollout : Rollout)
    (newRS : Option ReplicaSet) (oldRSs : List ReplicaSet)
    (previewSvc activeSvc : Option Service) :
    (∃ rs, some rs ∈ rescaleCandidates c rollout newRS oldRSs ∧
      (rs.Replicas : Int) ≠ GetRolloutReplicasOrDefault D rollout ∧
      scaleBlueGreen c D rollout newRS oldRSs previewSvc activeSvc =
        ⟨[⟨rs, GetRolloutReplicasOrDefault D rollout⟩],
          c.scaleReplicaSetAndRecordEvent rs (GetRolloutReplicasOrDefault D rollout)
            rollout⟩) ∨
    ((∀ rs, some rs ∈ rescaleCandidates c rollout newRS oldRSs →
        (rs.Replicas : Int) = GetRolloutReplicasOrDefault D rollout) ∧
      (∀ k ∈ (scaleBlueGreen c D rollout newRS oldRSs previewSvc activeSvc).calls,
        k.newScale = 0 ∧
        k.rs ∈ unselectedWithPods oldRSs (selectorHash activeSvc) (selectorHash previewSvc)) ∧
      ((∀ rs ∈ unselectedWithPods oldRSs (selectorHash activeSvc) (selectorHash previewSvc),
          c.scaleReplicaSetAndRecordEvent rs 0 rollout = none) →
        scaleBlueGreen c D rollout newRS oldRSs previewSvc activeSvc =
          ⟨scaledToZero
            (unselectedWithPods oldRSs (selectorHash activeSvc) (selectorHash previewSvc)),
            none⟩) ∧
      (∀ pre rs post err,
        unselectedWithPods oldRSs (selectorHash activeSvc) (selectorHash previewSvc) =
          pre ++ rs :: post →
        (∀ x ∈ pre, c.scaleReplicaSetAndRecordEvent x 0 rollout = none) →
        c.scaleReplicaSetAndRecordEvent rs 0 rollout = some err →
        scaleBlueGreen c D rollout newRS oldRSs previewSvc activeSvc =
          ⟨scaledToZero (pre ++ [rs]), some err⟩)) := by
  have hsel : ∀ x ∈ unselectedWithPods oldRSs (selectorHash activeSvc)
      (selectorHash previewSvc),
      notSelected x (selectorHash activeSvc) (selectorHash previewSvc) = true := by
    intro x hx
    rw [unselectedWithPods_eq] at hx
    exact (List.mem_filter.1 hx).2
  cases h1 : needsRescale (c.FindActiveOrLatest newRS oldRSs)
      (GetRolloutReplicasOrDefault D rollout) with
  | some rs =>
    left
    refine ⟨rs, ?_, ((needsRescale_eq_some _ _ _).1 h1).2, ?_⟩
    · rw [← ((needsRescale_eq_some _ _ _).1 h1).1]
      simp [rescaleCandidates]
    · simp only [scaleBlueGreen, h1]
  | none =>
    cases h2 : needsRescale
        (c.GetActiveReplicaSet (newRS :: oldRSs.map some)
          rollout.Status.BlueGreen.ActiveSelector)
        (GetRolloutReplicasOrDefault D rollout) with
    | some rs =>
      left
      refine ⟨rs, ?_, ((needsRescale_eq_some _ _ _).1 h2).2, ?_⟩
      · rw [← ((needsRescale_eq_some _ _ _).1 h2).1]
        simp [rescaleCandidates]
      · simp only [scaleBlueGreen, h1, h2]
    | none =>
      cases h3 : needsRescale newRS (GetRolloutReplicasOrDefault D rollout) with
      | some rs =>
        left
        refine ⟨rs, ?_, ((needsRescale_eq_some _ _ _).1 h3).2, ?_⟩
        · rw [← ((needsRescale_eq_some _ _ _).1 h3).1]
          simp [rescaleCandidates]
        · simp only [scaleBlueGreen, h1, h2, h3]
      | none =>
        right
        have hrun : scaleBlueGreen c D rollout newRS oldRSs previewSvc activeSvc =
            scaleDownUnselected c rollout (selectorHash activeSvc) (selectorHash previewSvc)
              (unselectedWithPods oldRSs (selectorHash activeSvc)
                (selectorHash previewSvc)) := by
          simp only [scaleBlueGreen, h1, h2, h3]
          rw [(getRolloutSelectorLabel_hash activeSvc).2,
            (getRolloutSelectorLabel_hash previewSvc).2, unselectedWithPods_eq,
            ← scaleDownUnselected_filter]
        refine ⟨?_, ?_, ?_, ?_⟩
        · intro rs hmem
          simp only [rescaleCandidates, List.mem_cons, List.mem_singleton, List.mem_nil_iff,
            or_false] at hmem
          rcases hmem with hmem | hmem | hmem
          · exact (needsRescale_eq_none _ _).1 h1 rs hmem.symm
          · exact (needsRescale_eq_none _ _).1 h2 rs hmem.symm
          · exact (needsRescale_eq_none _ _).1 h3 rs hmem.symm
        · intro k hk
          rw [hrun] at hk
          rcases scaleDownUnselected_calls c rollout _ _ _ k hk with ⟨hk1, hk2, _⟩
          exact ⟨hk1, hk2⟩
        · intro hok
          rw [hrun]
          exact scaleDownUnselected_ok c rollout _ _ _ hsel hok
        · intro pre rs post err hsplit hok herr
          rw [hrun, hsplit]
          refine scaleDownUnselected_fails c rollout _ _ pre rs post err ?_ ?_ hok herr
          · intro x hx
            exact hsel x (by rw [hsplit]; exact List.mem_append_left _ hx)
          · exact hsel rs (by
              rw [hsplit]; exact List.mem_append_right _ (List.mem_cons_self _ _))

end Rollouts.BlueGreen

/-! ## Pod restarts: the sweep -/

namespace Rollouts.Restart

/-- The test of the second loop of `reconcilePodsInReplicaSet`, as a proposition. -/
theorem restart_test_iff (t : Time) (pod : Pod) :
    (decide (t > pod.CreationTimestamp) && pod.DeletionTimestamp.isNone) = true ↔
      pod.CreationTimestamp < t ∧ pod.DeletionTimestamp = none := by
  simp [Option.isNone_iff_eq_none]

/-- The three ways in which the second loop of `reconcilePodsInReplicaSet` ends: no pod is
to be restarted, the panic on a missing `restartAt`, or the deletion of one pod that is older
than `restartAt` and not terminating. -/
theorem deleteFirstOld_cases (p : RolloutPodRestarter) (restartedAt : Option Time)
    (pods : List Pod) :
    (deleteFirstOld p restartedAt pods = ⟨[], some (false, none)⟩ ∧
      ∀ pod ∈ pods, ∀ t, restartedAt = some t →
        ¬ (pod.CreationTimestamp < t ∧ pod.DeletionTimestamp = none)) ∨
    deleteFirstOld p restartedAt pods = ⟨[], none⟩ ∨
    ∃ pod ∈ pods, ∃ t, restartedAt = some t ∧ pod.CreationTimestamp < t ∧
      pod.DeletionTimestamp = none ∧
      deleteFirstOld p restartedAt pods =
        ⟨[Call.deletePod pod.Namespace pod.Name],
          some (true, p.client.delete pod.Namespace pod.Name)⟩ := by
  cases restartedAt with
  | none =>
    cases pods with
    | nil => left; simp [deleteFirstOld]
    | cons pod rest => right; left; simp [deleteFirstOld]
  | some t =>
    induction pods with
    | nil => left; simp [deleteFirstOld]
    | cons pod rest ih =>
      by_cases h : pod.CreationTimestamp < t ∧ pod.DeletionTimestamp = none
      · right; right
        refine ⟨pod, List.mem_cons_self _ _, t, rfl, h.1, h.2, ?_⟩
        simp only [deleteFirstOld]
        rw [if_pos ((restart_test_iff t pod).2 h)]
      · have hstep : deleteFirstOld p (some t) (pod :: rest) = deleteFirstOld p (some t) rest := by
          simp only [deleteFirstOld]
          rw [if_neg (fun hc => h ((restart_test_iff t pod).1 hc))]
        rw [hstep]
        rcases ih with ⟨e, hall⟩ | e | ⟨q, hq, t', ht', h1, h2, e⟩
        · left
          refine ⟨e, ?_⟩
          intro q hq t' ht'
          cases ht'
          rcases List.mem_cons.1 hq with rfl | hq
          · exact h
          · exact hall q hq t rfl
        · right; left; exact e
        · right; right
          exact ⟨q, List.mem_cons_of_mem _ hq, t', ht', h1, h2, e⟩

/-- The five ways in which `reconcilePodsInReplicaSet` ends on a ReplicaSet. -/
theorem reconcilePodsInReplicaSet_cases (p : RolloutPodRestarter) (E : Env)
    (roCtx : rolloutContext) (rs : ReplicaSet) :
    let ns := rs.Namespace
    let sel := E.FormatLabelSelector rs.Selector
    let r := reconcilePodsInReplicaSet p E roCtx rs
    (∃ err, p.client.list ns sel = Except.error err ∧
      r = ⟨[Call.listPods ns sel], some (false, some err)⟩) ∨
    (∃ pods, p.client.list ns sel = Except.ok pods ∧
      (∃ pod ∈ pods, pod.DeletionTimestamp ≠ none) ∧
      r = ⟨[Call.listPods ns sel, Call.enqueueAfter restartPodCheckTime],
            some (true, none)⟩) ∨
    (∃ pods, p.client.list ns sel = Except.ok pods ∧
      (∀ pod ∈ pods, pod.DeletionTimestamp = none) ∧
      (∀ pod ∈ pods, ∀ t, roCtx.Rollout.Spec.RestartAt = some t →
        ¬ pod.CreationTimestamp < t) ∧
      r = ⟨[Call.listPods ns sel], some (false, none)⟩) ∨
    (∃ pods, p.client.list ns sel = Except.ok pods ∧
      r = ⟨[Call.listPods ns sel], none⟩) ∨
    (∃ pods, p.client.list ns sel = Except.ok pods ∧
      (∀ pod ∈ pods, pod.DeletionTimestamp = none) ∧
      ∃ pod ∈ pods, ∃ t, roCtx.Rollout.Spec.RestartAt = some t ∧
        pod.CreationTimestamp < t ∧
        r = ⟨[Call.listPods ns sel, Call.deletePod pod.Namespace pod.Name],
              some (true, p.client.delete pod.Namespace pod.Name)⟩) := by
  intro ns sel r
  cases hl : p.client.list ns sel with
  | error err =>
    left
    exact ⟨err, rfl, by simp only [r, reconcilePodsInReplicaSet]; rw [hl]⟩
  | ok pods =>
    right
    by_cases hany : pods.any (fun pod => pod.DeletionTimestamp.isSome) = true
    · left
      refine ⟨pods, rfl, ?_, ?_⟩
      · rcases List.any_eq_true.1 hany with ⟨pod, hpod, hsome⟩
        exact ⟨pod, hpod, by
          intro hnone
          rw [hnone] at hsome
          exact absurd hsome (by simp)⟩
      · simp only [r, reconcilePodsInReplicaSet]
        rw [hl]
        simp only [hany, if_true]
    · right
      have hnone : ∀ pod ∈ pods, pod.DeletionTimestamp = none := by
        intro pod hpod
        cases hd : pod.DeletionTimestamp with
        | none => rfl
        | some d =>
          exact absurd (List.any_eq_true.2 ⟨pod, hpod, by rw [hd]; rfl⟩) hany
      have hr : r = ⟨Call.listPods ns sel ::
            (deleteFirstOld p roCtx.Rollout.Spec.RestartAt pods).calls,
          (deleteFirstOld p roCtx.Rollout.Spec.RestartAt pods).result⟩ := by
        simp only [r, reconcilePodsInReplicaSet]
        rw [hl]
        simp only [hany, Bool.false_eq_true, if_false]
      rcases deleteFirstOld_cases p roCtx.Rollout.Spec.RestartAt pods with
        ⟨e, hall⟩ | e | ⟨q, hq, t, ht, h1, _, e⟩
      · left
        refine ⟨pods, rfl, hnone, ?_, by rw [hr, e]⟩
        intro pod hpod t ht hlt
        exact hall pod hpod t ht ⟨hlt, hnone pod hpod⟩
      · right; left
        exact ⟨pods, rfl, by rw [hr, e]⟩
      · right; right
        exact ⟨pods, rfl, hnone, q, hq, t, ht, h1, by rw [hr, e]⟩

/-- Every call of `checkEnqueueRollout` is an `enqueueAfter`. -/
theorem checkEnqueueRollout_calls (p : RolloutPodRestarter) (E : Env) (roCtx : rolloutContext) :
    ∀ k ∈ checkEnqueueRollout p E roCtx, ∃ d, k = Call.enqueueAfter d := by
  intro k hk
  simp only [checkEnqueueRollout] at hk
  split at hk
  · simp at hk
  · split at hk
    · simp at hk
    · split at hk
      · exact ⟨_, List.mem_singleton.1 hk⟩
      · simp at hk

/-- No call of `checkEnqueueRollout` deletes a pod. -/
theorem checkEnqueueRollout_countP (p : RolloutPodRestarter) (E : Env)
    (roCtx : rolloutContext) :
    (checkEnqueueRollout p E roCtx).countP Call.isDelete = 0 := by
  rw [List.countP_eq_zero]
  intro k hk
  rcases checkEnqueueRollout_calls p E roCtx k hk with ⟨d, rfl⟩
  simp [Call.isDelete]

/-- The sweep over the sorted ReplicaSets: it deletes at most one pod, a deleted pod is an
old, running pod of a visited ReplicaSet none of whose pods is terminating, and
`SetRestartedAt` is reached only past ReplicaSets whose listed pods are all running and not
older than `restartAt`, without any deletion. -/
theorem reconcileReplicaSets_spec (p : RolloutPodRestarter) (E : Env) (roCtx : rolloutContext)
    (l : List ReplicaSet) :
    (reconcileReplicaSets p E roCtx l).calls.countP Call.isDelete ≤ 1 ∧
    (∀ ns name, Call.deletePod ns name ∈ (reconcileReplicaSets p E roCtx l).calls →
      ∃ rs ∈ l, ∃ pods,
        p.client.list rs.Namespace (E.FormatLabelSelector rs.Selector) = Except.ok pods ∧
        (∀ q ∈ pods, q.DeletionTimestamp = none) ∧
        ∃ pod ∈ pods, ∃ t, roCtx.Rollout.Spec.RestartAt = some t ∧
          pod.CreationTimestamp < t ∧ pod.Namespace = ns ∧ pod.Name = name) ∧
    (Call.SetRestartedAt ∈ (reconcileReplicaSets p E roCtx l).calls →
      (∀ rs ∈ l, ∃ pods,
        p.client.list rs.Namespace (E.FormatLabelSelector rs.Selector) = Except.ok pods ∧
        (∀ pod ∈ pods, pod.DeletionTimestamp = none) ∧
        (∀ pod ∈ pods, ∀ t, roCtx.Rollout.Spec.RestartAt = some t →
          ¬ pod.CreationTimestamp < t)) ∧
      (reconcileReplicaSets p E roCtx l).calls.countP Call.isDelete = 0) := by
  induction l with
  | nil =>
    simp [reconcileReplicaSets, Call.isDelete]
  | cons rs rest ih =>
    rcases ih with ⟨ih1, ih2, ih3⟩
    rcases reconcilePodsInReplicaSet_cases p E roCtx rs with
      ⟨err, _, e⟩ | ⟨pods, _, _, e⟩ | ⟨pods, hl, hnone, hfresh, e⟩ | ⟨pods, _, e⟩ |
      ⟨pods, hl, hnone, pod, hpod, t, ht, hlt, e⟩
    · simp [reconcileReplicaSets, e, Call.isDelete]
    · simp [reconcileReplicaSets, e, Call.isDelete]
    · have hrun : reconcileReplicaSets p E roCtx (rs :: rest) =
          ⟨Call.listPods rs.Namespace (E.FormatLabelSelector rs.Selector) ::
            (reconcileReplicaSets p E roCtx rest).calls,
            (reconcileReplicaSets p E roCtx rest).outcome⟩ := by
        simp [reconcileReplicaSets, e]
      rw [hrun]
      refine ⟨?_, ?_, ?_⟩
      · simpa [Call.isDelete] using ih1
      · intro ns name hmem
        have hmem2 : Call.deletePod ns name ∈ (reconcileReplicaSets p E roCtx rest).calls := by
          simpa using hmem
        rcases ih2 ns name hmem2 with ⟨rs2, hrs2, h⟩
        exact ⟨rs2, List.mem_cons_of_mem _ hrs2, h⟩
      · intro hmem
        have hmem2 : Call.SetRestartedAt ∈ (reconcileReplicaSets p E roCtx rest).calls := by
          simpa using hmem
        rcases ih3 hmem2 with ⟨hall, hzero⟩
        refine ⟨?_, by simpa [Call.isDelete] using hzero⟩
        intro rs2 hrs2
        rcases List.mem_cons.1 hrs2 with rfl | hrs2
        · exact ⟨pods, hl, hnone, hfresh⟩
        · exact hall rs2 hrs2
    · simp [reconcileReplicaSets, e, Call.isDelete]
    · have hrun : (reconcileReplicaSets p E roCtx (rs :: rest)).calls =
          [Call.listPods rs.Namespace (E.FormatLabelSelector rs.Selector),
            Call.deletePod pod.Namespace pod.Name] := by
        simp only [reconcileReplicaSets, e]
        cases p.client.delete pod.Namespace pod.Name <;> rfl
      rw [hrun]
      refine ⟨by simp [Call.isDelete], ?_, by simp⟩
      intro ns name hmem
      simp only [List.mem_cons, List.mem_singleton, Call.deletePod.injEq, List.mem_nil_iff,
        or_false, false_or, reduceCtorEq] at hmem
      exact ⟨rs, List.mem_cons_self _ _, pods, hl, hnone, pod, hpod, t, ht, hlt,
        hmem.1.symm, hmem.2.symm⟩

/-- When the listing of a ReplicaSet shows a pod with a deletion timestamp,
`reconcilePodsInReplicaSet` enqueues the rollout after `restartPodCheckTime`, which is 30
seconds, deletes nothing and reports the ReplicaSet as reconciled. -/
theorem reconcilePodsInReplicaSet_requeues_on_terminating (p : RolloutPodRestarter) (E : Env)
    (roCtx : rolloutContext) (rs : ReplicaSet) (pods : List Pod)
    (hlist : p.client.list rs.Namespace (E.FormatLabelSelector rs.Selector) = Except.ok pods)
    (hterm : ∃ pod ∈ pods, pod.DeletionTimestamp ≠ none) :
    reconcilePodsInReplicaSet p E roCtx rs =
      ⟨[Call.listPods rs.Namespace (E.FormatLabelSelector rs.Selector),
        Call.enqueueAfter restartPodCheckTime], some (true, none)⟩ ∧
    restartPodCheckTime = 30 * Second := by
  refine ⟨?_, rfl⟩
  have hany : pods.any (fun pod => pod.DeletionTimestamp.isSome) = true := by
    rcases hterm with ⟨pod, hpod, hne⟩
    exact List.any_eq_true.2 ⟨pod, hpod, Option.isSome_iff_ne_none.2 hne⟩
  simp only [reconcilePodsInReplicaSet]
  rw [hlist]
  simp only [hany, if_true]

/-- Claim C21.  Every `Reconcile` issues at most one pod `Delete`, and a pod it deletes is a
pod listed for one of the ReplicaSets it visits (the ReplicaSets of the rollout in the order
`sort.Sort` left them) such that `spec.restartAt` is set, the creation timestamp of the pod is
strictly before it, the pod has no deletion timestamp, and no pod listed for that ReplicaSet
has one. -/
theorem Reconcile_deletes_at_most_one_old_pod (p : RolloutPodRestarter) (E : Env)
    (roCtx : rolloutContext) :
    (Reconcile p E roCtx).calls.countP Call.isDelete ≤ 1 ∧
    ∀ ns name, Call.deletePod ns name ∈ (Reconcile p E roCtx).calls →
      ∃ rs ∈ E.sortRSs (NewSortReplicaSetsByPriority roCtx), ∃ pods,
        p.client.list rs.Namespace (E.FormatLabelSelector rs.Selector) = Except.ok pods ∧
        (∀ q ∈ pods, q.DeletionTimestamp = none) ∧
        ∃ pod ∈ pods, ∃ restartAt, roCtx.Rollout.Spec.RestartAt = some restartAt ∧
          pod.CreationTimestamp < restartAt ∧ pod.DeletionTimestamp = none ∧
          pod.Namespace = ns ∧ pod.Name = name := by
  have hcheck := checkEnqueueRollout_calls p E roCtx
  have hzero := checkEnqueueRollout_countP p E roCtx
  have hnodel : ∀ ns name, Call.deletePod ns name ∉ checkEnqueueRollout p E roCtx := by
    intro ns name hmem
    rcases hcheck _ hmem with ⟨d, hd⟩
    cases hd
  rcases reconcileReplicaSets_spec p E roCtx (E.sortRSs (NewSortReplicaSetsByPriority roCtx))
    with ⟨h1, h2, _⟩
  simp only [Reconcile]
  split
  · exact ⟨by rw [hzero]; exact Nat.zero_le _, fun ns name hmem => absurd hmem (hnodel ns name)⟩
  · split
    · exact ⟨by rw [hzero]; exact Nat.zero_le _,
        fun ns name hmem => absurd hmem (hnodel ns name)⟩
    · refine ⟨by rw [List.countP_append, hzero, Nat.zero_add]; exact h1, ?_⟩
      intro ns name hmem
      rcases List.mem_append.1 hmem with hmem | hmem
      · exact absurd hmem (hnodel ns name)
      · rcases h2 ns name hmem with ⟨rs, hrs, pods, hl, hnone, pod, hpod, t, ht, hlt, hns, hname⟩
        exact ⟨rs, hrs, pods, hl, hnone, pod, hpod, t, ht, hlt, hnone pod hpod, hns, hname⟩

/-- Claim C22 fails as stated.  The rollout needs a restart, its ReplicaSet is fully
available and lists one running pod created before `restartAt`: `Reconcile` deletes the pod
and returns nil without any `enqueueAfter`; only the branch that finds a terminating pod
enqueues the rollout after `restartPodCheckTime`. -/
theorem Reconcile_deletes_without_requeue :
    sampleEnv.NeedsRestart (sampleContext (some (50 * Second)) (sampleRS 2)).Rollout = true ∧
    Reconcile (sampleRestarter [oldPod] none) sampleEnv
        (sampleContext (some (50 * Second)) (sampleRS 2)) =
      ⟨[Call.listPods "default" "app=web", Call.deletePod "default" "web-abc123-x7k2p"],
        Outcome.returned none⟩ ∧
    Call.enqueueAfter restartPodCheckTime ∉
      (Reconcile (sampleRestarter [oldPod] none) sampleEnv
        (sampleContext (some (50 * Second)) (sampleRS 2))).calls := by
  decide

/-- Claim C28.  If the rollout needs a restart and some ReplicaSet has
`status.availableReplicas` different from `spec.replicas`, `Reconcile` makes no call beyond
those of `checkEnqueueRollout`: it deletes no pod, does not call `SetRestartedAt`, and
returns nil. -/
theorem Reconcile_waits_for_full_availability (p : RolloutPodRestarter) (E : Env)
    (roCtx : rolloutContext) (hneeds : E.NeedsRestart roCtx.Rollout = true)
    (hrs : ∃ rs ∈ roCtx.AllRSs, rs.AvailableReplicas ≠ rs.Replicas) :
    (Reconcile p E roCtx).calls = checkEnqueueRollout p E roCtx ∧
    (∀ ns name, Call.deletePod ns name ∉ (Reconcile p E roCtx).calls) ∧
    Call.SetRestartedAt ∉ (Reconcile p E roCtx).calls ∧
    (Reconcile p E roCtx).outcome = Outcome.returned none := by
  have hany : (NewSortReplicaSetsByPriority roCtx).allRSs.any
      (fun rs => rs.AvailableReplicas != rs.Replicas) = true := by
    rcases hrs with ⟨rs, hmem, hne⟩
    exact List.any_eq_true.2 ⟨rs, hmem, by simpa using hne⟩
  have hrun : Reconcile p E roCtx = ⟨checkEnqueueRollout p E roCtx, Outcome.returned none⟩ := by
    simp only [Reconcile]
    rw [hneeds, hany]
    rfl
  rw [hrun]
  refine ⟨rfl, ?_, ?_, rfl⟩
  · intro ns name hmem
    rcases checkEnqueueRollout_calls p E roCtx _ hmem with ⟨d, hd⟩
    cases hd
  · intro hmem
    rcases checkEnqueueRollout_calls p E roCtx _ hmem with ⟨d, hd⟩
    cases hd

/-- A witness of claim C28: the rollout needs a restart and one of the two replicas of its
ReplicaSet is available; the run makes no call and returns nil. -/
theorem Reconcile_waits_for_full_availability_witness :
    sampleEnv.NeedsRestart (sampleContext (some (50 * Second)) (sampleRS 1)).Rollout = true ∧
    (sampleRS 1).AvailableReplicas ≠ (sampleRS 1).Replicas ∧
    (Reconcile (sampleRestarter [oldPod] none) sampleEnv
      (sampleContext (some (50 * Second)) (sampleRS 1))).calls = [] ∧
    (Reconcile (sampleRestarter [oldPod] none) sampleEnv
      (sampleContext (some (50 * Second)) (sampleRS 1))).outcome = Outcome.returned none :=
  have h := Reconcile_waits_for_full_availability (sampleRestarter [oldPod] none) sampleEnv
    (sampleContext (some (50 * Second)) (sampleRS 1)) (by decide)
    ⟨sampleRS 1, by decide, by decide⟩
  ⟨by decide, by decide, h.1.trans (by decide), h.2.2.2⟩

/-- Claim C29.  `Reconcile` calls `SetRestartedAt` only if the rollout needs a restart, every
ReplicaSet is fully available, the pods of every ReplicaSet were listed without error, and no
listed pod has a deletion timestamp or a creation timestamp before `spec.restartAt`; in that
call no pod is deleted.  `sort.Sort` is taken to rearrange the ReplicaSets. -/
theorem SetRestartedAt_only_after_sweep (p : RolloutPodRestarter) (E : Env)
    (roCtx : rolloutContext)
    (hsort : (E.sortRSs (NewSortReplicaSetsByPriority roCtx)).Perm roCtx.AllRSs)
    (hset : Call.SetRestartedAt ∈ (Reconcile p E roCtx).calls) :
    E.NeedsRestart roCtx.Rollout = true ∧
    (∀ rs ∈ roCtx.AllRSs, rs.AvailableReplicas = rs.Replicas) ∧
    (∀ rs ∈ roCtx.AllRSs, ∃ pods,
      p.client.list rs.Namespace (E.FormatLabelSelector rs.Selector) = Except.ok pods ∧
      (∀ pod ∈ pods, pod.DeletionTimestamp = none) ∧
      (∀ pod ∈ pods, ∀ restartAt, roCtx.Rollout.Spec.RestartAt = some restartAt →
        ¬ pod.CreationTimestamp < restartAt)) ∧
    (∀ ns name, Call.deletePod ns name ∉ (Reconcile p E roCtx).calls) := by
  have hcheck := checkEnqueueRollout_calls p E roCtx
  have hnoset : Call.SetRestartedAt ∉ checkEnqueueRollout p E roCtx := by
    intro hmem
    rcases hcheck _ hmem with ⟨d, hd⟩
    cases hd
  have hnodel : ∀ ns name, Call.deletePod ns name ∉ checkEnqueueRollout p E roCtx := by
    intro ns name hmem
    rcases hcheck _ hmem with ⟨d, hd⟩
    cases hd
  rcases reconcileReplicaSets_spec p E roCtx (E.sortRSs (NewSortReplicaSetsByPriority roCtx))
    with ⟨_, _, h3⟩
  simp only [Reconcile] at hset ⊢
  split at hset
  · exact absurd hset hnoset
  · rename_i hneeds
    split at hset
    · exact absurd hset hnoset
    · rename_i hany
      have hneeds2 : E.NeedsRestart roCtx.Rollout = true := by simpa using hneeds
      have hsweep : Call.SetRestartedAt ∈
          (reconcileReplicaSets p E roCtx
            (E.sortRSs (NewSortReplicaSetsByPriority roCtx))).calls := by
        rcases List.mem_append.1 hset with hmem | hmem
        · exact absurd hmem hnoset
        · exact hmem
      rcases h3 hsweep with ⟨hall, hzero⟩
      rw [if_neg hneeds, if_neg hany]
      refine ⟨hneeds2, ?_, ?_, ?_⟩
      · intro rs hmem
        by_contra hne
        exact hany (List.any_eq_true.2 ⟨rs, hmem, by simpa using hne⟩)
      · intro rs hmem
        exact hall rs (hsort.mem_iff.2 hmem)
      · intro ns name hmem
        rcases List.mem_append.1 hmem with hmem | hmem
        · exact hnodel ns name hmem
        · have hpos : 0 < List.countP Call.isDelete
              (reconcileReplicaSets p E roCtx
                (E.sortRSs (NewSortReplicaSetsByPriority roCtx))).calls :=
            List.countP_pos_iff.2 ⟨Call.deletePod ns name, hmem, rfl⟩
          omega

/-- A witness of claim C29: the only pod was created after `restartAt` and is running, and
`SetRestartedAt` is called. -/
theorem SetRestartedAt_only_after_sweep_witness :
    Call.SetRestartedAt ∈
      (Reconcile (sampleRestarter [freshPod] none) sampleEnv
        (sampleContext (some (50 * Second)) (sampleRS 2))).calls ∧
    sampleEnv.NeedsRestart (sampleContext (some (50 * Second)) (sampleRS 2)).Rollout = true ∧
    ∀ ns name, Call.deletePod ns name ∉
      (Reconcile (sampleRestarter [freshPod] none) sampleEnv
        (sampleContext (some (50 * Second)) (sampleRS 2))).calls :=
  have h := SetRestartedAt_only_after_sweep (sampleRestarter [freshPod] none) sampleEnv
    (sampleContext (some (50 * Second)) (sampleRS 2)) (by decide) (by decide)
  ⟨by decide, h.1, h.2.2.2⟩

/-- The time that remains until a restart within the next resync period fits a
`time.Duration`. -/
theorem remaining_in_range (now restartAt period : Int) (h1 : ¬ now > restartAt)
    (h2 : now + period > restartAt) (h3 : period ≤ 9223372036854775807) :
    ¬ restartAt - now > 9223372036854775807 ∧ ¬ restartAt - now < -9223372036854775808 ∧
      0 ≤ restartAt - now ∧ restartAt - now < period := by
  omega

/-- Claim C30.  `checkEnqueueRollout` calls `enqueueAfter` exactly when `spec.restartAt` is
set, the current time is not after it and the current time plus the resync period is after
it; the duration it passes is `restartAt` minus the current time, which is not negative and
strictly less than the resync period.  In every other case it makes no call.  The resync
period is a `time.Duration`, so at most the largest one. -/
theorem checkEnqueueRollout_within_resync (p : RolloutPodRestarter) (E : Env)
    (roCtx : rolloutContext) (hperiod : p.resyncPeriod ≤ maxDuration) :
    (∀ restartAt, roCtx.Rollout.Spec.RestartAt = some restartAt →
      ¬ E.now > restartAt → E.now + p.resyncPeriod > restartAt →
        checkEnqueueRollout p E roCtx = [Call.enqueueAfter (restartAt - E.now)] ∧
        0 ≤ restartAt - E.now ∧ restartAt - E.now < p.resyncPeriod) ∧
    ((¬ ∃ restartAt, roCtx.Rollout.Spec.RestartAt = some restartAt ∧
        ¬ E.now > restartAt ∧ E.now + p.resyncPeriod > restartAt) →
      checkEnqueueRollout p E roCtx = []) := by
  constructor
  · intro restartAt hset hnotafter hnext
    rcases remaining_in_range E.now restartAt p.resyncPeriod hnotafter hnext hperiod with
      ⟨h1, h2, h3, h4⟩
    have hsub : Sub restartAt E.now = restartAt - E.now := by
      simp only [Sub, minDuration, maxDuration, if_neg h1, if_neg h2]
    refine ⟨?_, h3, h4⟩
    simp only [checkEnqueueRollout]
    rw [hset]
    simp only [if_neg hnotafter, if_pos hnext, hsub]
  · intro hno
    simp only [checkEnqueueRollout]
    cases hset : roCtx.Rollout.Spec.RestartAt with
    | none => rfl
    | some restartAt =>
      simp only []
      by_cases h1 : E.now > restartAt
      · rw [if_pos h1]
      · rw [if_neg h1]
        by_cases h2 : E.now + p.resyncPeriod > restartAt
        · exact absurd ⟨restartAt, hset, h1, h2⟩ hno
        · rw [if_neg h2]

/-- A witness of claim C30: at 100 s, with a resync period of 15 minutes and `restartAt` at
160 s, the rollout is enqueued after 60 s. -/
theorem checkEnqueueRollout_within_resync_witness :
    (sampleRestarter [] none).resyncPeriod ≤ maxDuration ∧
    checkEnqueueRollout (sampleRestarter [] none) sampleEnv
        (sampleContext (some (160 * Second)) (sampleRS 2)) =
      [Call.enqueueAfter (160 * Second - sampleEnv.now)] :=
  ⟨by decide,
    ((checkEnqueueRollout_within_resync (sampleRestarter [] none) sampleEnv
      (sampleContext (some (160 * Second)) (sampleRS 2)) (by decide)).1
        (160 * Second) rfl (by decide) (by decide)).1⟩

/-- On a list of running pods none of which was created before `restartAt`, the second loop
of `reconcilePodsInReplicaSet` deletes nothing. -/
theorem deleteFirstOld_none (p : RolloutPodRestarter) (t : Time) (pods : List Pod)
    (hfresh : ∀ pod ∈ pods, ¬ pod.CreationTimestamp < t) :
    deleteFirstOld p (some t) pods = ⟨[], some (false, none)⟩ := by
  induction pods with
  | nil => rfl
  | cons pod rest ih =>
    simp only [deleteFirstOld]
    rw [if_neg (fun hc => hfresh pod (List.mem_cons_self _ _)
      ((restart_test_iff t pod).1 hc).1)]
    exact ih (fun q hq => hfresh q (List.mem_cons_of_mem _ hq))

/-- On a ReplicaSet whose listed pods are all running and not older than `restartAt`,
`reconcilePodsInReplicaSet` lists the pods and reports nothing to reconcile. -/
theorem reconcilePodsInReplicaSet_done (p : RolloutPodRestarter) (E : Env)
    (roCtx : rolloutContext) (rs : ReplicaSet) (pods : List Pod) (t : Time)
    (hat : roCtx.Rollout.Spec.RestartAt = some t)
    (hlist : p.client.list rs.Namespace (E.FormatLabelSelector rs.Selector) = Except.ok pods)
    (hpods : ∀ pod ∈ pods, pod.DeletionTimestamp = none ∧ ¬ pod.CreationTimestamp < t) :
    reconcilePodsInReplicaSet p E roCtx rs =
      ⟨[Call.listPods rs.Namespace (E.FormatLabelSelector rs.Selector)],
        some (false, none)⟩ := by
  have hany : pods.any (fun pod => pod.DeletionTimestamp.isSome) = false := by
    rw [List.any_eq_false]
    intro pod hpod
    rw [(hpods pod hpod).1]
    simp
  simp only [reconcilePodsInReplicaSet]
  rw [hlist]
  simp only [hany, Bool.false_eq_true, if_false, hat,
    deleteFirstOld_none p t pods (fun pod hpod => (hpods pod hpod).2)]

/-- The sweep that passes ReplicaSets with nothing to reconcile and then meets one with a
terminating pod lists the pods of each, enqueues the rollout after `restartPodCheckTime` and
returns nil. -/
theorem reconcileReplicaSets_terminating (p : RolloutPodRestarter) (E : Env)
    (roCtx : rolloutContext) (pre : List ReplicaSet) (rs : ReplicaSet)
    (post : List ReplicaSet) (pods : List Pod) (t : Time)
    (hat : roCtx.Rollout.Spec.RestartAt = some t)
    (hpre : ∀ x ∈ pre, ∃ podsx,
      p.client.list x.Namespace (E.FormatLabelSelector x.Selector) = Except.ok podsx ∧
      ∀ pod ∈ podsx, pod.DeletionTimestamp = none ∧ ¬ pod.CreationTimestamp < t)
    (hlist : p.client.list rs.Namespace (E.FormatLabelSelector rs.Selector) = Except.ok pods)
    (hterm : ∃ pod ∈ pods, pod.DeletionTimestamp ≠ none) :
    reconcileReplicaSets p E roCtx (pre ++ rs :: post) =
      ⟨pre.map (fun x => Call.listPods x.Namespace (E.FormatLabelSelector x.Selector)) ++
        [Call.listPods rs.Namespace (E.FormatLabelSelector rs.Selector),
          Call.enqueueAfter restartPodCheckTime], Outcome.returned none⟩ := by
  induction pre with
  | nil =>
    rw [List.nil_append]
    simp only [reconcileReplicaSets,
      (reconcilePodsInReplicaSet_requeues_on_terminating p E roCtx rs pods hlist hterm).1]
    rfl
  | cons x rest ih =>
    obtain ⟨podsx, hlx, hpx⟩ := hpre x (List.mem_cons_self _ _)
    rw [List.cons_append]
    simp only [reconcileReplicaSets, reconcilePodsInReplicaSet_done p E roCtx x podsx t hat hlx hpx]
    rw [ih (fun y hy => hpre y (List.mem_cons_of_mem _ hy))]
    rfl

/-- A sweep that deletes a pod makes no `enqueueAfter`. -/
theorem reconcileReplicaSets_delete_no_enqueue (p : RolloutPodRestarter) (E : Env)
    (roCtx : rolloutContext) (l : List ReplicaSet) :
    (∃ ns name, Call.deletePod ns name ∈ (reconcileReplicaSets p E roCtx l).calls) →
      ∀ d, Call.enqueueAfter d ∉ (reconcileReplicaSets p E roCtx l).calls := by
  induction l with
  | nil =>
    rintro ⟨ns, name, hmem⟩
    simp [reconcileReplicaSets] at hmem
  | cons rs rest ih =>
    rcases reconcilePodsInReplicaSet_cases p E roCtx rs with
      ⟨err, _, e⟩ | ⟨pods, _, _, e⟩ | ⟨pods, _, _, _, e⟩ | ⟨pods, _, e⟩ |
      ⟨pods, _, _, pod, _, t, _, _, e⟩
    · rintro ⟨ns, name, hmem⟩
      simp [reconcileReplicaSets, e] at hmem
    · rintro ⟨ns, name, hmem⟩
      simp [reconcileReplicaSets, e] at hmem
    · have hrun : (reconcileReplicaSets p E roCtx (rs :: rest)).calls =
          Call.listPods rs.Namespace (E.FormatLabelSelector rs.Selector) ::
            (reconcileReplicaSets p E roCtx rest).calls := by
        simp [reconcileReplicaSets, e]
      rw [hrun]
      rintro ⟨ns, name, hmem⟩ d hd
      have hmem2 : Call.deletePod ns name ∈ (reconcileReplicaSets p E roCtx rest).calls := by
        simpa using hmem
      have hd2 : Call.enqueueAfter d ∈ (reconcileReplicaSets p E roCtx rest).calls := by
        simpa using hd
      exact ih ⟨ns, name, hmem2⟩ d hd2
    · rintro ⟨ns, name, hmem⟩
      simp [reconcileReplicaSets, e] at hmem
    · have hrun : (reconcileReplicaSets p E roCtx (rs :: rest)).calls =
          [Call.listPods rs.Namespace (E.FormatLabelSelector rs.Selector),
            Call.deletePod pod.Namespace pod.Name] := by
        simp only [reconcileReplicaSets, e]
        cases p.client.delete pod.Namespace pod.Name <;> rfl
      rw [hrun]
      intro _ d hd
      simp at hd

/-- Claim C22, amended.  In every `Reconcile` of a rollout that needs a restart and whose
ReplicaSets are fully available, if the sweep passes ReplicaSets with nothing to restart and
then finds a pod that is already terminating, the rollout is enqueued after
`restartPodCheckTime`, which is 30 seconds, no pod is deleted and nil is returned.  A call
that deletes a pod makes no `enqueueAfter` beyond that of `checkEnqueueRollout`: after a
deletion the rollout is not enqueued again. -/
theorem Reconcile_requeues_on_terminating_pod (p : RolloutPodRestarter) (E : Env)
    (roCtx : rolloutContext) :
    (∀ pre rs post pods t,
      E.NeedsRestart roCtx.Rollout = true →
      (∀ x ∈ roCtx.AllRSs, x.AvailableReplicas = x.Replicas) →
      E.sortRSs (NewSortReplicaSetsByPriority roCtx) = pre ++ rs :: post →
      roCtx.Rollout.Spec.RestartAt = some t →
      (∀ x ∈ pre, ∃ podsx,
        p.client.list x.Namespace (E.FormatLabelSelector x.Selector) = Except.ok podsx ∧
        ∀ pod ∈ podsx, pod.DeletionTimestamp = none ∧ ¬ pod.CreationTimestamp < t) →
      p.client.list rs.Namespace (E.FormatLabelSelector rs.Selector) = Except.ok pods →
      (∃ pod ∈ pods, pod.DeletionTimestamp ≠ none) →
      Call.enqueueAfter restartPodCheckTime ∈ (Reconcile p E roCtx).calls ∧
      (∀ ns name, Call.deletePod ns name ∉ (Reconcile p E roCtx).calls) ∧
      (Reconcile p E roCtx).outcome = Outcome.returned none) ∧
    restartPodCheckTime = 30 * Second ∧
    (∀ ns name, Call.deletePod ns name ∈ (Reconcile p E roCtx).calls →
      ∀ d, Call.enqueueAfter d ∈ (Reconcile p E roCtx).calls →
        Call.enqueueAfter d ∈ checkEnqueueRollout p E roCtx) := by
  have hnodel : ∀ ns name, Call.deletePod ns name ∉ checkEnqueueRollout p E roCtx := by
    intro ns name hmem
    rcases checkEnqueueRollout_calls p E roCtx _ hmem with ⟨d, hd⟩
    cases hd
  refine ⟨?_, rfl, ?_⟩
  · intro pre rs post pods t hneeds havail hsorted hat hpre hlist hterm
    have hany : (NewSortReplicaSetsByPriority roCtx).allRSs.any
        (fun rs => rs.AvailableReplicas != rs.Replicas) = false := by
      rw [List.any_eq_false]
      intro x hx
      simpa using havail x hx
    have hrun : Reconcile p E roCtx =
        ⟨checkEnqueueRollout p E roCtx ++
          (pre.map (fun x => Call.listPods x.Namespace (E.FormatLabelSelector x.Selector)) ++
            [Call.listPods rs.Namespace (E.FormatLabelSelector rs.Selector),
              Call.enqueueAfter restartPodCheckTime]), Outcome.returned none⟩ := by
      simp only [Reconcile]
      rw [hneeds, hany, hsorted,
        reconcileReplicaSets_terminating p E roCtx pre rs post pods t hat hpre hlist hterm]
      rfl
    rw [hrun]
    refine ⟨by simp, ?_, rfl⟩
    intro ns name hmem
    rcases List.mem_append.1 hmem with hmem | hmem
    · exact hnodel ns name hmem
    · simp at hmem
  · intro ns name hmem d hd
    simp only [Reconcile] at hmem hd
    split at hmem
    · exact absurd hmem (hnodel ns name)
    · split at hmem
      · exact absurd hmem (hnodel ns name)
      · rename_i hneeds hany
        rw [if_neg hneeds, if_neg hany] at hd
        rcases List.mem_append.1 hmem with hmem | hmem
        · exact absurd hmem (hnodel ns name)
        · rcases List.mem_append.1 hd with hd | hd
          · exact hd
          · exact absurd hd
              (reconcileReplicaSets_delete_no_enqueue p E roCtx _ ⟨ns, name, hmem⟩ d)

/-- A witness of claim C22: the ReplicaSet lists a terminating pod before a running pod
created before `restartAt`; the rollout is enqueued after 30 seconds and no pod is
deleted. -/
theorem Reconcile_requeues_on_terminating_pod_witness :
    Call.enqueueAfter (30 * Second) ∈
      (Reconcile (sampleRestarter [terminatingPod, oldPod] none) sampleEnv
        (sampleContext (some (50 * Second)) (sampleRS 2))).calls ∧
    (∀ ns name, Call.deletePod ns name ∉
      (Reconcile (sampleRestarter [terminatingPod, oldPod] none) sampleEnv
        (sampleContext (some (50 * Second)) (sampleRS 2))).calls) ∧
    (Reconcile (sampleRestarter [terminatingPod, oldPod] none) sampleEnv
      (sampleContext (some (50 * Second)) (sampleRS 2))).outcome = Outcome.returned none :=
  (Reconcile_requeues_on_terminating_pod (sampleRestarter [terminatingPod, oldPod] none)
    sampleEnv (sampleContext (some (50 * Second)) (sampleRS 2))).1
    [] (sampleRS 2) [] [terminatingPod, oldPod] (50 * Second)
    (by decide) (by decide) (by decide) rfl (fun x hx => absurd hx (List.not_mem_nil x)) rfl
    ⟨terminatingPod, by decide, by decide⟩

end Rollouts.Restart

/-! ## Datadog metric provider -/

namespace Rollouts.Datadog

/-- For every response of status 200 whose body decodes and whose JSONPath lookup succeeds
with no value (no result at all, or an empty first result), `parseResponse` panics: on an
empty result list the second operand of `&&` indexes it, and on an empty first result the
guard is false and `results[0][0]` indexes it. -/
theorem parseResponse_panics_without_value {Data Value Float64 : Type}
    (L : Lib Data Value Float64) (metric : Metric) (body : String) (data : Data)
    (results : List (List Value)) (hjson : L.Unmarshal body = Except.ok data)
    (hfind : L.FindResults data = Except.ok results)
    (hempty : results = [] ∨ results.head? = some []) :
    parseResponse L metric (okResponse body) = Parsed.panicked := by
  simp only [parseResponse, okResponse, StatusOK, StatusForbidden, StatusUnauthorized]
  rw [hjson]
  simp only [hfind]
  rcases hempty with rfl | hhead
  · simp [noValueGuard]
  · cases results with
    | nil => simp at hhead
    | cons first rest =>
      simp only [List.head?_cons, Option.some.injEq] at hhead
      subst hhead
      simp [noValueGuard]

/-- When the lookup yields a first result whose first value is a `float64`, `parseResponse`
returns the formatted value and the phase of its evaluation, without error. -/
theorem parseResponse_value {Data Value Float64 : Type}
    (L : Lib Data Value Float64) (metric : Metric) (body : String) (data : Data)
    (value : Value) (more : List Value) (rest : List (List Value)) (out : Float64)
    (hjson : L.Unmarshal body = Except.ok data)
    (hfind : L.FindResults data = Except.ok ((value :: more) :: rest))
    (hfloat : L.assertFloat64 value = some out) :
    parseResponse L metric (okResponse body) =
      Parsed.returned (L.FormatFloat out) (L.EvaluateResult out metric) none := by
  simp only [parseResponse, okResponse, StatusOK, StatusForbidden, StatusUnauthorized]
  rw [hjson]
  simp only [hfind]
  simp [noValueGuard, hfloat]

/-- Claim C27, at a failing input.  The response has status 200 and a valid JSON body whose
point list is null, for which the JSONPath lookup yields one empty result: `parseResponse`
does not return the Error phase with `Datadog returned no value`, it panics on
`results[0][0]`. -/
theorem parseResponse_panics_on_null_pointlist :
    (okResponse nullPointlistBody).StatusCode = 200 ∧
    sampleLib.FindResults nullPointlistBody = Except.ok [[]] ∧
    noValueGuard ([[]] : List (List Int)) = some false ∧
    parseResponse sampleLib {} (okResponse nullPointlistBody) = Parsed.panicked ∧
    parseResponse sampleLib {} (okResponse nullPointlistBody) ≠
      Parsed.returned "" AnalysisPhase.Error (some "Datadog returned no value") := by
  refine ⟨rfl, rfl, rfl, ?_, ?_⟩
  · decide
  · decide

end Rollouts.Datadog
